import Mathlib

/-!
Verification development for the hierarchical state engine
(reference implementation in spawn-engine.js).

The JavaScript source is embedded shallowly:

* JS numbers are modelled as rationals (`Rat`); `Math.sqrt` and
  `Math.random` are host functions and are threaded as explicit
  parameters where the source calls them; `Date.now()` is threaded as a
  `now : Rat` parameter; fresh entity ids are drawn from a counter held
  by the manager state.
* JS objects whose keys are iterated in insertion order are modelled as
  association lists `List (String × α)`; JS `Map`/`Set` (also insertion
  ordered) are modelled the same way.
* Mutation is modelled by explicit state passing: `SpawnManager` methods
  take and return an `Entity`, `EntityManager` methods take and return a
  `Manager`.
* In the source, `SpawnManager` defines `getNodeValue` and
  `compareValues` twice; the later definitions shadow the earlier ones,
  so only the second definition of each is embedded.

Section names and definition names follow the source.
-/

namespace SpawnLean

/-- Association list lookup (JS property read on an insertion-ordered object). -/
def findA (l : List (String × α)) (k : String) : Option α :=
  match l with
  | [] => none
  | (k', v) :: rest => if k' = k then some v else findA rest k

/-- Association list write (JS property assignment: overwrite in place,
append when the key is new). -/
def setA (l : List (String × α)) (k : String) (v : α) : List (String × α) :=
  match l with
  | [] => [(k, v)]
  | (k', v') :: rest => if k' = k then (k', v) :: rest else (k', v') :: setA rest k v

/-- JS `Object.assign(dst, src)`: fold every key of `src` into `dst`. -/
def assignA (dst src : List (String × α)) : List (String × α) :=
  src.foldl (fun acc kv => setA acc kv.1 kv.2) dst

/-- Map a function over the value stored at one key, if present. -/
def updateA (l : List (String × α)) (k : String) (f : α → α) : List (String × α) :=
  match l with
  | [] => []
  | (k', v) :: rest => if k' = k then (k', f v) :: rest else (k', v) :: updateA rest k f

/-- Remove the first occurrence of an element from a list
(JS `array.splice(array.indexOf(x), 1)`). -/
def eraseFirst (l : List String) (x : String) : List String :=
  match l with
  | [] => []
  | y :: rest => if y = x then rest else y :: eraseFirst rest x

/-- Runtime state of one variable on an entity (source: the object built
in `generate` for each variable node). -/
structure VarState where
  value : Rat
  baseRate : Rat
  currentRate : Rat
  min : Rat
  max : Rat
  changeMode : String
  direction : String
deriving Repr, DecidableEq

/-- Per-layer active-trait container (`entity.layers[layerId]`). -/
structure LayerState where
  active : List String
  lastRoll : Option Rat
deriving Repr, DecidableEq

/-- Per-modifier runtime state (`entity._modifierStates[modId]`). -/
structure ModState where
  appliedAt : Rat
  stackCount : Nat
  isStatic : Bool
  expiresAt : Option Rat
  ticksRemaining : Option Rat
deriving Repr, DecidableEq

/-- An entity record, as produced by `SpawnManager.generate`.  The
internal log keeps only event names (enough to observe `generated`,
`spawned`, `traitActivated`, `actionExecuted`). -/
structure Entity where
  id : String
  presetId : Option String := none
  name : Option String := none
  createdAt : Rat := 0
  attributes : List (String × Rat) := []
  vars : List (String × VarState) := []
  contexts : List (String × Rat) := []
  layers : List (String × LayerState) := []
  modifiers : List String := []
  modifierStates : List (String × ModState) := []
  compounds : List String := []
  derived : List (String × Rat) := []
  actions : List (String × Rat) := []
  log : List String := []
  poolId : Option String := none
  lastTick : Rat := 0
deriving Repr, DecidableEq

/-- Condition tree used by `SpawnManager.evaluateCondition`
(`all` / `any` / `not` nodes over typed leaves). -/
inductive SCond where
  | all (cs : List SCond)
  | any (cs : List SCond)
  | not (c : SCond)
  | leaf (ctype target operator : String) (value : Rat)
deriving Repr

/-- A flat trigger condition (`{target, operator, value, connector}`). -/
structure Cond where
  target : String
  operator : String
  value : Rat
  connector : Option String := none
deriving Repr, DecidableEq

/-- One entry of a trigger's `conditions` array: either a single
condition or a `{type:'group', conditions:[...]}` node. -/
inductive TCond where
  | single (c : Cond)
  | group (connector : Option String) (conds : List Cond)
deriving Repr

/-- Modifier trigger configuration (after normalization). -/
structure Trigger where
  ttype : Option String := none
  static : Bool := false
  conditions : List TCond := []
  logic : Option String := none
  removeConditions : List TCond := []
  removeLogic : Option String := none
  target : Option String := none
  operator : Option String := none
  value : Option Rat := none
deriving Repr

/-- One compound requirement, one constructor per duck-typed JS shape
(in the priority order `checkCompoundRequirements` tests them). -/
inductive Req where
  | str (id : String)
  | threshold (id operator : String) (value : Rat)
  | item (id : String)
  | modifier (id : String)
  | cond (c : SCond)
  | idOnly (id : String)
deriving Repr

/-- One entry of `selection.weightModifiers`. -/
structure WeightMod where
  condition : Option SCond := none
  operation : String
  value : Rat
deriving Repr

/-- A layer's / trait's `selection` configuration. -/
structure Selection where
  baseWeight : Option Rat := none
  mode : Option String := none
  maxItems : Option Nat := none
  weightModifiers : List WeightMod := []
  replaces : List String := []
  trigger : Option Cond := none
  autoRemove : Option Cond := none
  initialRolls : Option Nat := none
  pickCount : Option Nat := none
  diminishingReturns : Bool := false
  weightFloor : Option Rat := none
deriving Repr

/-- A layer's `timing` configuration. -/
structure Timing where
  rollAt : Option String := none
deriving Repr

/-- The `config` bag of a node.  As in the source this is one dynamic
object; each node kind reads only its own fields. -/
structure NodeConfig where
  min : Option Rat := none
  max : Option Rat := none
  initial : Option Rat := none
  baseRate : Option Rat := none
  changeMode : Option String := none
  direction : Option String := none
  defaultRange : Option (Rat × Rat) := none
  precision : Option Nat := none
  spawnOrder : Option Rat := none
  order : Option Rat := none
  selection : Option Selection := none
  timing : Option Timing := none
  traitIds : List String := []
  itemIds : List String := []
  layerId : Option String := none
  incompatibleWith : List String := []
  eligibility : List SCond := []
  trigger : Option Trigger := none
  exclusiveWith : List String := []
  durationType : Option String := none
  duration : Option Rat := none
  stacking : Option String := none
  maxStacks : Option Nat := none
  requires : List Req := []
  requirementLogic : Option String := none
  formula : Option (List (String × Rat) → Option Rat) := none
  cooldown : Option Rat := none
  costs : List (String × Rat) := []
  requirements : List String := []
  blockedBy : List String := []
  contextDefault : Option Rat := none

/-- A normalized configuration node (`{id, type, config}`). -/
structure Node where
  id : String
  ntype : String
  config : NodeConfig

/-- A relationship's `config` after normalization. -/
structure RelConfig where
  operation : String := "add"
  value : Rat := 0
  scaling : String := "flat"
  perPointSource : Option String := none
  invert : Bool := false
deriving Repr

/-- A normalized relationship. -/
structure Relationship where
  sourceId : String
  targetId : String
  rtype : String
  config : RelConfig := {}
  conditions : List SCond := []

/-- A normalized configuration (nodes and relationships; preset tables
live on the `Manager`). -/
structure Config where
  nodes : List Node := []
  relationships : List Relationship := []

namespace SM

/-- `SpawnManager.getNode`: index lookup by id. -/
def getNode (cfg : Config) (nodeId : String) : Option Node :=
  cfg.nodes.find? (fun n => n.id = nodeId)

/-- `SpawnManager.getNodesByType` via the `_nodesByType` index (grouping
preserves config order). -/
def getNodesByType (cfg : Config) (t : String) : List Node :=
  cfg.nodes.filter (fun n => n.ntype = t)

def getVariables (cfg : Config) : List Node := getNodesByType cfg "variable"
def getContexts (cfg : Config) : List Node := getNodesByType cfg "context"
def getCompounds (cfg : Config) : List Node := getNodesByType cfg "compound"
def getDerivedNodes (cfg : Config) : List Node := getNodesByType cfg "derived"
def getActions (cfg : Config) : List Node := getNodesByType cfg "action"
def getAttributes (cfg : Config) : List Node := getNodesByType cfg "attribute"

/-- The synthetic `_traits` entry: trait nodes then item nodes. -/
def getTraitsAll (cfg : Config) : List Node :=
  getNodesByType cfg "trait" ++ getNodesByType cfg "item"

/-- `SpawnManager.isTrait`. -/
def isTraitNode (n : Node) : Bool :=
  n.ntype = "trait" || n.ntype = "item"

/-- `relationshipIndex.byTarget` lookup (filtering preserves the
insertion order the index was built with). -/
def getRelationshipsTo (cfg : Config) (nodeId : String) : List Relationship :=
  cfg.relationships.filter (fun r => r.targetId = nodeId)

/-- Second (shadowing) definition of `SpawnManager.compareValues`. -/
def compareValues (actual : Rat) (operator : String) (expected : Rat) : Bool :=
  if operator = "<" || operator = "lt" then actual < expected
  else if operator = "<=" || operator = "lte" then actual ≤ expected
  else if operator = ">" || operator = "gt" then actual > expected
  else if operator = ">=" || operator = "gte" then actual ≥ expected
  else if operator = "==" || operator = "eq" then actual = expected
  else if operator = "===" then actual = expected
  else if operator = "!=" || operator = "ne" then actual ≠ expected
  else if operator = "!==" then actual ≠ expected
  else false

/-- Second (shadowing) definition of `SpawnManager.getNodeValue`:
dispatch on the node's type; unknown ids and non-value kinds give 0. -/
def getNodeValue (cfg : Config) (e : Entity) (nodeId : String) : Rat :=
  match getNode cfg nodeId with
  | none => 0
  | some n =>
    if n.ntype = "attribute" then (findA e.attributes nodeId).getD 0
    else if n.ntype = "variable" then
      match findA e.vars nodeId with
      | some vs => vs.value
      | none => 0
    else if n.ntype = "context" then (findA e.contexts nodeId).getD 0
    else 0

/-- `SpawnManager.isNodeActive`. -/
def isNodeActive (cfg : Config) (e : Entity) (nodeId : String) : Bool :=
  match getNode cfg nodeId with
  | none => false
  | some n =>
    if isTraitNode n then
      match n.config.layerId with
      | some lid =>
        match findA e.layers lid with
        | some ls => ls.active.contains nodeId
        | none => false
      | none => false
    else if n.ntype = "modifier" then e.modifiers.contains nodeId
    else if n.ntype = "compound" then e.compounds.contains nodeId
    else if n.ntype = "attribute" || n.ntype = "variable" || n.ntype = "context" then true
    else false

mutual

/-- `SpawnManager.evaluateCondition` (boolean tree over typed leaves). -/
def evaluateCondition (cfg : Config) (e : Entity) (c : SCond) : Bool :=
  match c with
  | .all cs => evaluateCondList cfg e cs
  | .any cs => evaluateCondAny cfg e cs
  | .not c' => !evaluateCondition cfg e c'
  | .leaf ctype target operator value =>
    if ctype = "attribute" then
      compareValues ((findA e.attributes target).getD 0) operator value
    else if ctype = "variable" then
      match findA e.vars target with
      | some vs => compareValues vs.value operator value
      | none => compareValues 0 operator value
    else if ctype = "context" then
      compareValues ((findA e.contexts target).getD 0) operator value
    else if ctype = "trait" || ctype = "item" then isNodeActive cfg e target
    else if ctype = "modifier" then e.modifiers.contains target
    else if ctype = "compound" then e.compounds.contains target
    else false

def evaluateCondList (cfg : Config) (e : Entity) (cs : List SCond) : Bool :=
  match cs with
  | [] => true
  | c :: rest => evaluateCondition cfg e c && evaluateCondList cfg e rest

def evaluateCondAny (cfg : Config) (e : Entity) (cs : List SCond) : Bool :=
  match cs with
  | [] => false
  | c :: rest => evaluateCondition cfg e c || evaluateCondAny cfg e rest

end

/-- `SpawnManager.evaluateConditions`: empty list is vacuously true. -/
def evaluateConditions (cfg : Config) (e : Entity) (cs : List SCond) : Bool :=
  evaluateCondList cfg e cs

/-- `SpawnManager.evaluateCondition` applied to an optional condition
(`undefined` condition is true). -/
def evaluateConditionOpt (cfg : Config) (e : Entity) (c : Option SCond) : Bool :=
  match c with
  | none => true
  | some c' => evaluateCondition cfg e c'

/-- `SpawnManager.calculateRelationshipValue`. -/
def calculateRelationshipValue (cfg : Config) (e : Entity) (rel : Relationship) : Rat :=
  if rel.config.scaling = "perPoint" then
    match rel.config.perPointSource with
    | some src =>
      let sourceValue := getNodeValue cfg e src
      let sourceValue :=
        if rel.config.invert then
          let m := match getNode cfg src with
            | some n => n.config.max.getD 10
            | none => 10
          m - sourceValue
        else sourceValue
      rel.config.value * sourceValue
    | none => rel.config.value
  else rel.config.value

/-- The body of the `recalculateRates` loop for one variable node. -/
def recalculateRatesStep (cfg : Config) (acc : Entity) (varNode : Node) : Entity :=
  match findA acc.vars varNode.id with
  | none => acc
  | some varState =>
    let rateRels := (getRelationshipsTo cfg varNode.id).filter
      (fun r => r.rtype = "rate_modifier")
    let rate := rateRels.foldl (fun rate rel =>
      if !isNodeActive cfg acc rel.sourceId then rate
      else if !evaluateConditions cfg acc rel.conditions then rate
      else
        let value := calculateRelationshipValue cfg acc rel
        if rel.config.operation = "add" then rate + value
        else if rel.config.operation = "multiply" then rate * value
        else rate) varState.baseRate
    { acc with
        vars := setA acc.vars varNode.id { varState with currentRate := rate } }

/-- `SpawnManager.recalculateRates`: reset each variable to its base
rate, then fold active, condition-passing `rate_modifier` relationships. -/
def recalculateRates (cfg : Config) (e : Entity) : Entity :=
  (getVariables cfg).foldl (recalculateRatesStep cfg) e

/-- `SpawnManager.checkCompoundRequirements`. -/
def checkCompoundRequirements (cfg : Config) (e : Entity) (compound : Node) : Bool :=
  let requires := compound.config.requires
  let logic := compound.config.requirementLogic.getD "all"
  if requires.isEmpty then false
  else
    let results := requires.map (fun req =>
      match req with
      | .str id => isNodeActive cfg e id
      | .threshold id operator value => compareValues (getNodeValue cfg e id) operator value
      | .item id => isNodeActive cfg e id
      | .modifier id => e.modifiers.contains id
      | .cond c => evaluateCondition cfg e c
      | .idOnly id => isNodeActive cfg e id)
    if logic = "all" then results.all (fun r => r) else results.any (fun r => r)

/-- The body of the `checkCompounds` loop for one compound. -/
def checkCompoundsStep (cfg : Config) (acc : Entity) (compound : Node) : Entity :=
  let isActive := acc.compounds.contains compound.id
  let requirementsMet := checkCompoundRequirements cfg acc compound
  if requirementsMet && !isActive then
    { acc with compounds := acc.compounds ++ [compound.id] }
  else if !requirementsMet && isActive then
    { acc with compounds := eraseFirst acc.compounds compound.id }
  else acc

/-- `SpawnManager.checkCompounds`: align `entity.compounds` membership
with each compound's requirements, in config order. -/
def checkCompounds (cfg : Config) (e : Entity) : Entity :=
  (getCompounds cfg).foldl (checkCompoundsStep cfg) e

/-- The body of the `calculateDerived` loop for one derived node. -/
def calculateDerivedStep (cfg : Config) (acc : Entity) (derived : Node) : Entity :=
  let context := assignA (assignA acc.attributes
    (acc.vars.map (fun kv => (kv.1, kv.2.value)))) acc.contexts
  let value :=
    match derived.config.formula with
    | none => none
    | some f => f context
  match value with
  | none => { acc with derived := setA acc.derived derived.id 0 }
  | some v =>
    let v1 := match derived.config.max with
      | some m => if v ≤ m then v else m
      | none => v
    let v2 := match derived.config.min with
      | some m => if m ≤ v1 then v1 else m
      | none => v1
    { acc with derived := setA acc.derived derived.id v2 }

/-- `SpawnManager.calculateDerived`: evaluate each formula over the
merged attribute/variable/context scope, clamp, default 0 on failure. -/
def calculateDerived (cfg : Config) (e : Entity) : Entity :=
  (getDerivedNodes cfg).foldl (calculateDerivedStep cfg) e


/-- `Math.sign`. -/
def jsSign (x : Rat) : Rat :=
  if x > 0 then 1 else if x < 0 then -1 else 0

/-- `Math.abs`. -/
def jsAbs (x : Rat) : Rat := if x < 0 then -x else x

/-- `Math.round` (round half toward positive infinity, as in JS). -/
def jsRound (x : Rat) : Rat := ((x + 1/2).floor : Int)

/-- Draw the next value from the host random stream
(`Math.random()`; an exhausted model stream yields 0). -/
def takeRoll (rolls : List Rat) : Rat × List Rat :=
  match rolls with
  | [] => (0, [])
  | r :: rs => (r, rs)

/-- `SpawnManager.rollRange`. -/
def rollRange (u lo hi : Rat) (precision : Nat) : Rat :=
  let value := lo + u * (hi - lo)
  if precision = 0 then jsRound value
  else
    let factor : Rat := (10 : Rat) ^ precision
    jsRound (value * factor) / factor

/-- `SpawnManager.getLayerTraits`. -/
def getLayerTraits (cfg : Config) (layerId : String) : List Node :=
  match getNode cfg layerId with
  | some layer =>
    if layer.ntype = "layer" then
      let ids := if layer.config.traitIds.isEmpty then layer.config.itemIds
                 else layer.config.traitIds
      ids.filterMap (fun id => getNode cfg id)
    else []
  | none => []

/-- `SpawnManager.checkEligibility`. -/
def checkEligibility (cfg : Config) (e : Entity) (trait : Node) : Bool :=
  evaluateConditions cfg e trait.config.eligibility

/-- `SpawnManager.hasIncompatibility`. -/
def hasIncompatibility (cfg : Config) (e : Entity) (trait : Node) : Bool :=
  trait.config.incompatibleWith.any (fun incompId => isNodeActive cfg e incompId)

/-- `SpawnManager.calculateWeight`.  `msqrt` is the host `Math.sqrt`. -/
def calculateWeight (msqrt : Rat → Rat) (cfg : Config) (e : Entity) (trait : Node) : Rat :=
  let selection := trait.config.selection.getD {}
  let baseWeight := selection.baseWeight.getD 20
  let layerSelection : Selection :=
    match trait.config.layerId with
    | some lid =>
      match getNode cfg lid with
      | some layerNode => layerNode.config.selection.getD {}
      | none => {}
    | none => {}
  let useDR := layerSelection.diminishingReturns
  let weight := selection.weightModifiers.foldl (fun weight mod_ =>
    if evaluateConditionOpt cfg e mod_.condition then
      if mod_.operation = "add" then
        let effect := mod_.value
        let effect :=
          if useDR && effect ≠ 0 then jsSign effect * msqrt (jsAbs effect) * msqrt baseWeight
          else effect
        weight + effect
      else if mod_.operation = "multiply" then weight * mod_.value
      else weight
    else weight) baseWeight
  let influences := (getRelationshipsTo cfg trait.id).filter
    (fun r => r.rtype = "weight_influence")
  let weight := influences.foldl (fun weight rel =>
    if !isNodeActive cfg e rel.sourceId then weight
    else if !evaluateConditions cfg e rel.conditions then weight
    else
      let value := calculateRelationshipValue cfg e rel
      if rel.config.operation = "add" then
        let value :=
          if useDR && value ≠ 0 then jsSign value * msqrt (jsAbs value) * msqrt baseWeight
          else value
        weight + value
      else if rel.config.operation = "multiply" then weight * value
      else weight) weight
  let weightFloor := layerSelection.weightFloor.getD 0
  if weightFloor ≤ weight then weight else weightFloor

/-- Result of a layer selection (`{success, selected, pool}`). -/
structure SelResult where
  success : Bool
  selected : List String := []
  pool : List (String × Rat) := []
deriving Repr, DecidableEq

/-- The active trait list of one layer (empty when the layer is absent). -/
def currentActiveIn (e : Entity) (layerId : String) : List String :=
  match findA e.layers layerId with
  | some ls => ls.active
  | none => []

/-- The weighted candidate pool built at the top of `selectWeighted`. -/
def buildWeightedPool (msqrt : Rat → Rat) (cfg : Config) (e : Entity)
    (layerId : String) : List (String × Rat) :=
  let traits := getLayerTraits cfg layerId
  let currentActive := currentActiveIn e layerId
  traits.filterMap (fun trait =>
    if currentActive.contains trait.id then none
    else if (trait.config.selection.getD {}).mode = some "threshold" then none
    else if !checkEligibility cfg e trait then none
    else if hasIncompatibility cfg e trait then none
    else
      let weight := calculateWeight msqrt cfg e trait
      if weight > 0 then some (trait.id, weight) else none)

/-- The cursor walk of `selectWeighted` over the weighted pool. -/
def selectWalk (ps : List (String × Rat)) (roll : Rat) : Option String :=
  match ps with
  | [] => none
  | (tid, w) :: rest =>
    let roll := roll - w
    if roll ≤ 0 then some tid else selectWalk rest roll

/-- `SpawnManager.selectWeighted`; `u` is the `Math.random()` draw. -/
def selectWeighted (msqrt : Rat → Rat) (cfg : Config) (e : Entity) (layerId : String)
    (u : Rat) : SelResult :=
  let pool := buildWeightedPool msqrt cfg e layerId
  if pool.isEmpty then { success := false }
  else
    let totalWeight := pool.foldl (fun sum p => sum + p.2) 0
    let roll := u * totalWeight
    match selectWalk pool roll with
    | some tid => { success := true, selected := [tid], pool := pool }
    | none => { success := true, selected := [pool.head!.1], pool := pool }

/-- `SpawnManager.selectAllMatching`. -/
def selectAllMatching (cfg : Config) (e : Entity) (layerId : String) : SelResult :=
  let traits := getLayerTraits cfg layerId
  let currentActive := currentActiveIn e layerId
  let selected := traits.filterMap (fun trait =>
    if currentActive.contains trait.id then none
    else if !checkEligibility cfg e trait then none
    else if hasIncompatibility cfg e trait then none
    else some trait.id)
  { success := true, selected := selected }

/-- The scan of `selectFirstMatch` down the layer's trait list. -/
def firstOk (cfg : Config) (e : Entity) (currentActive : List String) :
    List Node → Option String
  | [] => none
  | trait :: rest =>
    if currentActive.contains trait.id then firstOk cfg e currentActive rest
    else if !checkEligibility cfg e trait then firstOk cfg e currentActive rest
    else if hasIncompatibility cfg e trait then firstOk cfg e currentActive rest
    else some trait.id

/-- `SpawnManager.selectFirstMatch`. -/
def selectFirstMatch (cfg : Config) (e : Entity) (layerId : String) : SelResult :=
  let traits := getLayerTraits cfg layerId
  match firstOk cfg e (currentActiveIn e layerId) traits with
  | some tid => { success := true, selected := [tid] }
  | none => { success := false }

/-- The cursor walk of one weighted draw without replacement
(the inner loop of `selectPickN`). -/
def pickWalk (ps : List (String × Rat)) (roll : Rat) :
    Option String × List (String × Rat) :=
  match ps with
  | [] => (none, [])
  | (tid, w) :: rest =>
    let roll := roll - w
    if roll ≤ 0 then (some tid, rest)
    else
      let (picked, rest') := pickWalk rest roll
      (picked, (tid, w) :: rest')

/-- One weighted draw without replacement from a remaining pool. -/
def pickFromPool (pool : List (String × Rat)) (u : Rat) :
    Option String × List (String × Rat) :=
  let totalWeight := pool.foldl (fun sum p => sum + p.2) 0
  pickWalk pool (u * totalWeight)

/-- The draw loop of `selectPickN`. -/
def pickNLoop : Nat → List (String × Rat) → List String → List Rat →
    List String × List Rat
  | 0, _, selected, rolls => (selected, rolls)
  | k' + 1, pool, selected, rolls =>
    if pool.isEmpty then (selected, rolls)
    else
      let (u, rolls) := takeRoll rolls
      match pickFromPool pool u with
      | (some tid, pool') => pickNLoop k' pool' (selected ++ [tid]) rolls
      | (none, _) => pickNLoop k' pool selected rolls

/-- `SpawnManager.selectPickN`: builds the weighted pool once and draws
`n` times without replacement. -/
def selectPickN (msqrt : Rat → Rat) (cfg : Config) (e : Entity) (layerId : String)
    (n : Nat) (rolls : List Rat) : SelResult × List Rat :=
  let result := selectWeighted msqrt cfg e layerId 0
  if result.pool.isEmpty then ({ success := false }, rolls)
  else
    let (selected, rolls) := pickNLoop n result.pool [] rolls
    ({ success := true, selected := selected, pool := result.pool }, rolls)

/-- `SpawnManager.deactivateTrait`. -/
def deactivateTrait (cfg : Config) (e : Entity) (traitId : String) : Entity × Bool :=
  match getNode cfg traitId with
  | none => (e, false)
  | some trait =>
    if !isTraitNode trait then (e, false)
    else
      match trait.config.layerId with
      | none => (e, false)
      | some layerId =>
        match findA e.layers layerId with
        | none => (e, false)
        | some ls =>
          if !ls.active.contains traitId then (e, false)
          else
            let ls' := { ls with active := eraseFirst ls.active traitId }
            ({ e with layers := setA e.layers layerId ls' }, true)

/-- `SpawnManager.activateTrait`: deactivate `replaces` targets, then
append to the layer's active list.  No incompatibility check is made. -/
def activateTrait (cfg : Config) (e : Entity) (traitId : String) : Entity × Bool :=
  match getNode cfg traitId with
  | none => (e, false)
  | some trait =>
    if !isTraitNode trait then (e, false)
    else
      match trait.config.layerId with
      | none => (e, false)
      | some layerId =>
        let e := if (findA e.layers layerId).isNone then
            { e with layers := setA e.layers layerId ({ active := [], lastRoll := none }) }
          else e
        let ls := (findA e.layers layerId).getD { active := [], lastRoll := none }
        if ls.active.contains traitId then (e, false)
        else
          let replaces := (trait.config.selection.getD {}).replaces
          let e := replaces.foldl (fun acc replaceId => (deactivateTrait cfg acc replaceId).1) e
          let ls := (findA e.layers layerId).getD { active := [], lastRoll := none }
          let ls' := { ls with active := ls.active ++ [traitId] }
          let e := { e with layers := setA e.layers layerId ls' }
          ({ e with log := e.log ++ ["traitActivated"] }, true)

/-- `SpawnManager.forceActivateTrait`. -/
def forceActivateTrait (cfg : Config) (e : Entity) (traitId : String) : Entity × Bool :=
  match getNode cfg traitId with
  | none => (e, false)
  | some trait =>
    if !isTraitNode trait then (e, false)
    else
      match trait.config.layerId with
      | none => (e, false)
      | some layerId =>
        let e := if (findA e.layers layerId).isNone then
            { e with layers := setA e.layers layerId ({ active := [], lastRoll := none }) }
          else e
        let ls := (findA e.layers layerId).getD { active := [], lastRoll := none }
        if ls.active.contains traitId then (e, true)
        else
          let ls' := { ls with active := ls.active ++ [traitId] }
          ({ e with layers := setA e.layers layerId ls' }, true)

/-- `SpawnManager.rollLayer`. -/
def rollLayer (msqrt : Rat → Rat) (cfg : Config) (e : Entity) (layerId : String)
    (now : Rat) (rolls : List Rat) : Entity × SelResult × List Rat :=
  match getNode cfg layerId with
  | none => (e, { success := false }, rolls)
  | some layer =>
    if layer.ntype ≠ "layer" then (e, { success := false }, rolls)
    else
      let selection := layer.config.selection.getD {}
      let mode := selection.mode.getD "weighted"
      let maxItems := selection.maxItems.getD 10
      let currentActive := match findA e.layers layerId with
        | some ls => ls.active
        | none => []
      if currentActive.length ≥ maxItems then (e, { success := false }, rolls)
      else
        let (result, rolls) :=
          if mode = "allMatching" then (selectAllMatching cfg e layerId, rolls)
          else if mode = "pickN" then
            selectPickN msqrt cfg e layerId (selection.pickCount.getD 1) rolls
          else if mode = "firstMatch" then (selectFirstMatch cfg e layerId, rolls)
          else
            let (u, rolls) := takeRoll rolls
            (selectWeighted msqrt cfg e layerId u, rolls)
        if !result.selected.isEmpty then
          let e := result.selected.foldl (fun acc tid => (activateTrait cfg acc tid).1) e
          let e := match findA e.layers layerId with
            | some ls => { e with layers := setA e.layers layerId ({ ls with lastRoll := some now }) }
            | none => e
          (e, result, rolls)
        else (e, result, rolls)

/-- `SpawnManager.rollOutcome`: clear the layer's previous actives, then
roll `rolls` times, then re-check compounds and derived. -/
def rollOutcome (msqrt : Rat → Rat) (cfg : Config) (e : Entity) (layerId : String)
    (n : Nat) (now : Rat) (rolls : List Rat) : Entity × SelResult × List Rat :=
  match getNode cfg layerId with
  | none => (e, { success := false }, rolls)
  | some layer =>
    if layer.ntype ≠ "layer" then (e, { success := false }, rolls)
    else
      let e := if (findA e.layers layerId).isNone then
          { e with layers := setA e.layers layerId ({ active := [], lastRoll := none }) }
        else e
      let previousActive := match findA e.layers layerId with
        | some ls => ls.active
        | none => []
      let e := previousActive.foldl (fun acc tid => (deactivateTrait cfg acc tid).1) e
      let e := match findA e.layers layerId with
        | some ls => { e with layers := setA e.layers layerId ({ ls with active := [] }) }
        | none => e
      let rec loop (k : Nat) (e : Entity) (allSelected : List String) (rolls : List Rat) :
          Entity × List String × List Rat :=
        match k with
        | 0 => (e, allSelected, rolls)
        | k' + 1 =>
          let (e, result, rolls) := rollLayer msqrt cfg e layerId now rolls
          let allSelected := if result.success then allSelected ++ result.selected
            else allSelected
          loop k' e allSelected rolls
      let (e, allSelected, rolls) := loop n e [] rolls
      let e := checkCompounds cfg e
      let e := calculateDerived cfg e
      (e, { success := !allSelected.isEmpty, selected := allSelected }, rolls)

/-- `SpawnManager.isActionAvailable`. -/
def isActionAvailable (cfg : Config) (e : Entity) (actionId : String) : Bool :=
  match getNode cfg actionId with
  | none => false
  | some action =>
    if action.ntype ≠ "action" then false
    else
      let acfg := action.config
      if ((findA e.actions actionId).getD 0) > 0 then false
      else if acfg.costs.any (fun kv =>
          match findA e.vars kv.1 with
          | none => true
          | some vs => vs.value < kv.2) then false
      else if acfg.requirements.any (fun reqId => !isNodeActive cfg e reqId) then false
      else if acfg.blockedBy.any (fun blockId => isNodeActive cfg e blockId) then false
      else if !acfg.eligibility.isEmpty && !evaluateConditions cfg e acfg.eligibility then false
      else true

/-- `SpawnManager.executeAction`: deduct costs (clamped below at each
variable's min), start the cooldown, log. -/
def executeAction (cfg : Config) (e : Entity) (actionId : String) : Entity × Bool :=
  if !isActionAvailable cfg e actionId then (e, false)
  else
    match getNode cfg actionId with
    | none => (e, false)
    | some action =>
      let acfg := action.config
      let e := acfg.costs.foldl (fun acc kv =>
        match findA acc.vars kv.1 with
        | none => acc
        | some vs =>
          let nv := vs.value - kv.2
          let nv := if vs.min ≤ nv then nv else vs.min
          { acc with vars := setA acc.vars kv.1 ({ vs with value := nv }) }) e
      let e := { e with actions := setA e.actions actionId (acfg.cooldown.getD 0) }
      ({ e with log := e.log ++ ["actionExecuted"] }, true)

/-- Result of `SpawnManager.getActionCooldown`. -/
structure CooldownInfo where
  cooldownRemaining : Rat
  cooldownTotal : Rat
  ready : Bool
deriving Repr, DecidableEq

/-- `SpawnManager.getActionCooldown`. -/
def getActionCooldown (cfg : Config) (e : Entity) (actionId : String) : CooldownInfo :=
  let cooldownTotal := match getNode cfg actionId with
    | some action => action.config.cooldown.getD 0
    | none => 0
  let cooldownRemaining := (findA e.actions actionId).getD 0
  { cooldownRemaining := cooldownRemaining, cooldownTotal := cooldownTotal,
    ready := cooldownRemaining ≤ 0 }

/-- One entry of `getAvailableActions` (`{id, weight}`). -/
structure AvailAction where
  id : String
  weight : Rat
deriving Repr, DecidableEq

/-- `SpawnManager.getAvailableActions` without the preset-weight branch
(preset action overrides are exercised by no claim; entities used in the
theorems below carry no preset action table). -/
def getAvailableActions (cfg : Config) (e : Entity) : List AvailAction :=
  (getActions cfg).filterMap (fun action =>
    if !isActionAvailable cfg e action.id then none
    else
      let weight := (action.config.baseRate.getD 50)
      let influences := (getRelationshipsTo cfg action.id).filter
        (fun r => r.rtype = "weight_influence")
      let weight := influences.foldl (fun weight rel =>
        if !isNodeActive cfg e rel.sourceId then weight
        else if !evaluateConditions cfg e rel.conditions then weight
        else
          let value := calculateRelationshipValue cfg e rel
          if rel.config.operation = "add" then weight + value
          else if rel.config.operation = "multiply" then weight * value
          else weight) weight
      if weight > 0 then some { id := action.id, weight := weight } else none)

/-- `SpawnManager.selectAction`; `u` is the `Math.random()` draw. -/
def selectAction (cfg : Config) (e : Entity) (u : Rat) : Option AvailAction :=
  let available := getAvailableActions cfg e
  if available.isEmpty then none
  else
    let total := available.foldl (fun sum a => sum + a.weight) 0
    let roll := u * total
    let rec walk (as_ : List AvailAction) (roll : Rat) : Option AvailAction :=
      match as_ with
      | [] => none
      | a :: rest =>
        let roll := roll - a.weight
        if roll ≤ 0 then some a else walk rest roll
    match walk available roll with
    | some a => some a
    | none => available.head?

/-- `SpawnManager.getLayers` (sorted by `config.order`, stable). -/
def insertByOrder (x : Node) (l : List Node) : List Node :=
  match l with
  | [] => [x]
  | y :: rest =>
    if (x.config.order.getD 0) < (y.config.order.getD 0) then x :: y :: rest
    else y :: insertByOrder x rest

def getLayers (cfg : Config) : List Node :=
  (getNodesByType cfg "layer").foldl (fun acc n => insertByOrder n acc) []

/-- One entry of `getSpawnOrder` (`{node, type, order}`). -/
structure SpawnItem where
  node : Node
  itype : String
  order : Rat

/-- Stable ascending insertion by `order` (JS `Array.prototype.sort` is
stable). -/
def insertSpawnItem (x : SpawnItem) (l : List SpawnItem) : List SpawnItem :=
  match l with
  | [] => [x]
  | y :: rest => if x.order < y.order then x :: y :: rest else y :: insertSpawnItem x rest

/-- `SpawnManager.getSpawnOrder`: attributes (by `spawnOrder`), then
layers rolling at create/spawn (by `order`), globally sorted by order. -/
def getSpawnOrder (cfg : Config) : List SpawnItem :=
  let items :=
    (getAttributes cfg).map (fun attr =>
      { node := attr, itype := "attribute", order := attr.config.spawnOrder.getD 0 }) ++
    ((getNodesByType cfg "layer").filterMap (fun layer =>
      let rollAt := (layer.config.timing.getD {}).rollAt
      if rollAt = some "create" || rollAt = some "spawn" then
        some { node := layer, itype := "layer", order := layer.config.order.getD 0 }
      else none))
  items.foldl (fun acc x => insertSpawnItem x acc) []

/-- `SpawnManager.getModifiedAttributeRange`. -/
def getModifiedAttributeRange (cfg : Config) (e : Entity) (attr : Node) :
    Rat × Rat :=
  let acfg := attr.config
  let lo := match acfg.defaultRange with
    | some r => r.1
    | none => acfg.min.getD 1
  let hi := match acfg.defaultRange with
    | some r => r.2
    | none => acfg.max.getD 10
  let mods := (getRelationshipsTo cfg attr.id).filter (fun r => r.rtype = "value_modifier")
  mods.foldl (fun (range : Rat × Rat) rel =>
    if !isNodeActive cfg e rel.sourceId then range
    else if !evaluateConditions cfg e rel.conditions then range
    else
      let value := calculateRelationshipValue cfg e rel
      if rel.config.operation = "add" then (range.1 + value, range.2 + value)
      else if rel.config.operation = "multiply" then (range.1 * value, range.2 * value)
      else range) (lo, hi)

/-- Overrides accepted by `generate` (attribute values here are already
plain numbers, as the source's callers pass them). -/
structure GenOverrides where
  id : Option String := none
  name : Option String := none
  attributes : List (String × Rat) := []
  contexts : List (String × Rat) := []
  forceTraits : List String := []

/-- The initialization and spawn-order part of `SpawnManager.generate`
(everything before the closing compound/derived/rate recomputation). -/
def generateCore (msqrt : Rat → Rat) (cfg : Config) (ov : GenOverrides)
    (genId : String) (now : Rat) (rolls : List Rat) : Entity × List Rat :=
  let e : Entity := { id := ov.id.getD genId, createdAt := now }
  let e := (getVariables cfg).foldl (fun acc varNode =>
    let c := varNode.config
    let vs : VarState :=
      { value := c.initial.getD 100, baseRate := c.baseRate.getD 0,
        currentRate := c.baseRate.getD 0, min := c.min.getD 0, max := c.max.getD 100,
        changeMode := c.changeMode.getD "manual",
        direction := c.direction.getD "none" }
    { acc with vars := setA acc.vars varNode.id vs }) e
  let e := (getContexts cfg).foldl (fun acc ctx =>
    let v := match findA ov.contexts ctx.id with
      | some v => some v
      | none => ctx.config.contextDefault
    { acc with contexts := setA acc.contexts ctx.id (v.getD 0) }) e
  let e := (getLayers cfg).foldl (fun acc layer =>
    { acc with layers := setA acc.layers layer.id ({ active := [], lastRoll := none }) }) e
  let spawnOrder := getSpawnOrder cfg
  let (e, rolls) := spawnOrder.foldl (fun (st : Entity × List Rat) item =>
    let (e, rolls) := st
    if item.itype = "attribute" then
      let attr := item.node
      match findA ov.attributes attr.id with
      | some v => ({ e with attributes := setA e.attributes attr.id v }, rolls)
      | none =>
        let range := getModifiedAttributeRange cfg e attr
        let (u, rolls) := takeRoll rolls
        let v := rollRange u range.1 range.2 (attr.config.precision.getD 0)
        ({ e with attributes := setA e.attributes attr.id v }, rolls)
    else if item.itype = "layer" then
      let layer := item.node
      let initialRolls := (layer.config.selection.getD {}).initialRolls.getD 1
      let rec rollN (k : Nat) (e : Entity) (rolls : List Rat) : Entity × List Rat :=
        match k with
        | 0 => (e, rolls)
        | k' + 1 =>
          let (e, _, rolls) := rollLayer msqrt cfg e layer.id now rolls
          rollN k' e rolls
      rollN initialRolls e rolls
    else (e, rolls)) (e, rolls)
  let e := ov.attributes.foldl (fun acc kv =>
    if (findA acc.attributes kv.1).isNone then
      { acc with attributes := setA acc.attributes kv.1 kv.2 }
    else acc) e
  (e, rolls)

/-- The closing steps of `generate`: recompute compounds, derived and
rates (in the source's order), zero every action cooldown, log. -/
def generateFinish (cfg : Config) (e : Entity) : Entity :=
  let e := checkCompounds cfg e
  let e := calculateDerived cfg e
  let e := recalculateRates cfg e
  let e := (getActions cfg).foldl (fun acc action =>
    { acc with actions := setA acc.actions action.id 0 }) e
  { e with log := e.log ++ ["generated"] }

/-- `SpawnManager.generate`.  `genId` is the host-generated fresh id
used when `overrides.id` is absent; `now` is `Date.now()`; `rolls` is
the `Math.random()` stream. -/
def generate (msqrt : Rat → Rat) (cfg : Config) (ov : GenOverrides)
    (genId : String) (now : Rat) (rolls : List Rat) : Entity × List Rat :=
  let (e, rolls) := generateCore msqrt cfg ov genId now rolls
  (generateFinish cfg e, rolls)

/-- A preset attribute specification (`resolvePresetAttributeValue`
shapes: fixed number, `{min,max}` range, `{base,variance}`, `{value}`). -/
inductive AttrSpec where
  | num (v : Rat)
  | range (lo hi : Rat)
  | baseVar (base variance : Rat)
  | value (v : Rat)
deriving Repr

/-- `SpawnManager.resolvePresetAttributeValue`. -/
def resolvePresetAttributeValue (spec : AttrSpec) (precision : Nat) (rolls : List Rat) :
    Rat × List Rat :=
  match spec with
  | .num v => (v, rolls)
  | .range lo hi =>
    let (u, rolls) := takeRoll rolls
    (rollRange u lo hi precision, rolls)
  | .baseVar base variance =>
    let (u, rolls) := takeRoll rolls
    (rollRange u (base - variance) (base + variance) precision, rolls)
  | .value v => (v, rolls)

/-- `SpawnManager.resolvePresetAttributes`. -/
def resolvePresetAttributes (cfg : Config) (attrs : List (String × AttrSpec))
    (rolls : List Rat) : List (String × Rat) × List Rat :=
  attrs.foldl (fun (st : List (String × Rat) × List Rat) kv =>
    let (resolved, rolls) := st
    let precision := match getNode cfg kv.1 with
      | some n => n.config.precision.getD 0
      | none => 0
    let (v, rolls) := resolvePresetAttributeValue kv.2 precision rolls
    (setA resolved kv.1 v, rolls)) ([], rolls)

/-- A preset's per-layer trait specification.  Only the string and
string-array forms are modelled; the structured object modes
(weighted / chance / pickN / all / taxonomyFilter) are exercised by no
claim. -/
inductive TraitSpec where
  | str (id : String)
  | arr (ids : List String)
deriving Repr

/-- `SpawnManager.resolvePresetTraits` on the modelled spec forms
(an absent `traits` table is the empty list and resolves to nothing). -/
def resolvePresetTraits (traits : List (String × TraitSpec)) : List String :=
  traits.foldl (fun acc kv =>
    match kv.2 with
    | .str id => acc ++ [id]
    | .arr ids => acc ++ ids) []

/-- A registered preset (the fields `spawn` and `acquire` read). -/
structure Preset where
  id : String
  name : Option String := none
  attributes : List (String × AttrSpec) := []
  contexts : List (String × Rat) := []
  forceTraits : List String := []
  traits : List (String × TraitSpec) := []

/-- Overrides accepted by `spawn` (attribute values are specs, resolved
before generation). -/
structure SpawnOverrides where
  id : Option String := none
  name : Option String := none
  attributes : List (String × AttrSpec) := []
  contexts : List (String × Rat) := []
  forceTraits : List String := []
  traits : List (String × TraitSpec) := []

/-- `SpawnManager.spawn`: merge preset and overrides, generate, then
force-activate the collected trait ids (with no cascade afterwards). -/
def spawn (msqrt : Rat → Rat) (cfg : Config) (presets : List (String × Preset))
    (presetId : String) (ov : SpawnOverrides) (genId : String) (now : Rat)
    (rolls : List Rat) : Option Entity × List Rat :=
  match findA presets presetId with
  | none => (none, rolls)
  | some preset =>
    let (presetAttrs, rolls) := resolvePresetAttributes cfg preset.attributes rolls
    let (ovAttrs, rolls) := resolvePresetAttributes cfg ov.attributes rolls
    let merged : GenOverrides :=
      { id := ov.id, name := ov.name,
        attributes := assignA presetAttrs ovAttrs,
        contexts := assignA preset.contexts ov.contexts,
        forceTraits := preset.forceTraits ++ resolvePresetTraits preset.traits ++
          ov.forceTraits ++ resolvePresetTraits ov.traits }
    let (e, rolls) := generate msqrt cfg merged genId now rolls
    let e := merged.forceTraits.foldl (fun acc tid => (forceActivateTrait cfg acc tid).1) e
    let e := { e with presetId := some presetId,
                      name := some ((ov.name.getD (preset.name.getD preset.id))) }
    (some { e with log := e.log ++ ["spawned"] }, rolls)


end SM

/-- Snapshot payload (`snapshot` deep-clones these seven fields). -/
structure SnapState where
  attributes : List (String × Rat)
  vars : List (String × VarState)
  contexts : List (String × Rat)
  layers : List (String × LayerState)
  modifiers : List String
  compounds : List String
  derived : List (String × Rat)
deriving Repr, DecidableEq

/-- One history entry. -/
structure Snapshot where
  timestamp : Rat
  state : SnapState
deriving Repr, DecidableEq

/-- Pool statistics (JS numbers; `inUse` can be clamped with
`Math.max(0, ...)` so integers are used throughout). -/
structure PoolStats where
  size : Int := 0
  available : Int := 0
  inUse : Int := 0
  totalAcquired : Int := 0
  totalReleased : Int := 0
  totalCreated : Int := 0
deriving Repr, DecidableEq

/-- One pool-rule condition (`{source, match, weight?, operator?, value?}`).
The JS field `match` is a Lean keyword and is embedded as `pattern`. -/
structure PoolRuleCond where
  source : String
  pattern : String
  weight : Option Rat := none
  operator : Option String := none
  value : Option Rat := none
deriving Repr

/-- A pool's assignment rules. -/
structure PoolRules where
  conditions : List PoolRuleCond := []
  priority : Rat := 0
deriving Repr

/-- A pool's configuration. -/
structure PoolConfig where
  maxSize : Nat := 100
  preWarm : Nat := 0
  preWarmPreset : Option String := none
  shrinkThreshold : Rat := 1/2
  shrinkDelay : Rat := 30000
deriving Repr

/-- A named entity pool. -/
structure Pool where
  id : String
  name : String
  config : PoolConfig := {}
  stats : PoolStats := {}
  entities : List Entity := []
  rules : Option PoolRules := none

/-- The default pool created by `_initDefaultPool`. -/
def defaultPool : Pool :=
  { id := "default", name := "Default Pool" }

/-- `EntityManager` state.  Entity storage is the `stored` table;
`active` holds ids (every activated entity is also stored, which the
source maintains through `activate`).  `nextId` and `now` model the
host id/clock sources; the legacy single-pool mirror fields are not
modelled (no claim reads them). -/
structure Manager where
  cfg : Config
  presets : List (String × SM.Preset) := []
  stored : List (String × Entity) := []
  active : List String := []
  history : List (String × List Snapshot) := []
  batchingCascade : Bool := false
  cascadeDirty : Bool := false
  pools : List (String × Pool) := [("default", defaultPool)]
  maxHistory : Nat := 50
  maxEntities : Option Nat := none
  nextId : Nat := 0
  now : Rat := 0

namespace EM

open SM

/-- `EntityManager.retrieve` (stored lookup; the active map holds the
same objects for every flow modelled here). -/
def retrieve (m : Manager) (entityId : String) : Option Entity :=
  findA m.stored entityId

/-- Write an entity back into storage (the JS mutations act on the
shared object referenced by both maps). -/
def putEntity (m : Manager) (e : Entity) : Manager :=
  { m with stored := setA m.stored e.id e }

/-- `EntityManager.store` (entity groups are not modelled). -/
def store (m : Manager) (e : Entity) : Manager × Bool :=
  match m.maxEntities with
  | some limit =>
    if m.stored.length ≥ limit then (m, false)
    else ({ m with stored := setA m.stored e.id e }, true)
  | none => ({ m with stored := setA m.stored e.id e }, true)

/-- `EntityManager.activate`: store when missing, add to the active set,
refresh `lastTick`. -/
def activate (m : Manager) (e : Entity) : Manager :=
  let m := if (findA m.stored e.id).isNone then (store m e).1 else m
  let m := if m.active.contains e.id then m else { m with active := m.active ++ [e.id] }
  match retrieve m e.id with
  | some e' => putEntity m { e' with lastTick := m.now }
  | none => m

/-- `EntityManager.deactivate`. -/
def deactivate (m : Manager) (entityId : String) : Manager × Bool :=
  if m.active.contains entityId then
    ({ m with active := eraseFirst m.active entityId }, true)
  else (m, false)

/-- `EntityManager.snapshot`. -/
def snapshot (m : Manager) (entityId : String) : Manager × Option Snapshot :=
  match retrieve m entityId with
  | none => (m, none)
  | some e =>
    let snap : Snapshot :=
      { timestamp := m.now,
        state := { attributes := e.attributes, vars := e.vars, contexts := e.contexts,
                   layers := e.layers, modifiers := e.modifiers, compounds := e.compounds,
                   derived := e.derived } }
    let snaps := (findA m.history entityId).getD [] ++ [snap]
    let snaps := if snaps.length > m.maxHistory
      then snaps.drop (snaps.length - m.maxHistory) else snaps
    ({ m with history := setA m.history entityId snaps }, some snap)

/-- `EntityManager.rollback`: restore from the newest snapshot whose
timestamp is at most `timestamp`.  Attributes and contexts are merged
key-by-key (`Object.assign`); layers, modifiers, compounds and derived
are replaced; only variable *values* are restored; rates are untouched
and no cascade is run. -/
def rollback (m : Manager) (entityId : String) (timestamp : Rat) : Manager × Bool :=
  match retrieve m entityId, findA m.history entityId with
  | some e, some snapshots =>
    match snapshots.reverse.find? (fun s => s.timestamp ≤ timestamp) with
    | none => (m, false)
    | some snap =>
      let e := { e with
        attributes := assignA e.attributes snap.state.attributes,
        contexts := assignA e.contexts snap.state.contexts,
        layers := snap.state.layers,
        modifiers := snap.state.modifiers,
        compounds := snap.state.compounds,
        derived := snap.state.derived }
      let e := snap.state.vars.foldl (fun acc kv =>
        match findA acc.vars kv.1 with
        | some vs => { acc with vars := setA acc.vars kv.1 ({ vs with value := kv.2.value }) }
        | none => acc) e
      (putEntity m e, true)
  | _, _ => (m, false)

/-- `EntityManager.evaluateThreshold` (an absent threshold value models
the JS comparison against `undefined`, which only `!=` satisfies). -/
def evaluateThresholdOp (value : Rat) (operator : String) (threshold : Option Rat) : Bool :=
  match threshold with
  | some t =>
    if operator = "<" then value < t
    else if operator = "<=" then value ≤ t
    else if operator = ">" then value > t
    else if operator = ">=" then value ≥ t
    else if operator = "=" || operator = "==" then value = t
    else if operator = "!=" then value ≠ t
    else false
  | none => operator = "!="

/-- `EntityManager.evaluateThreshold` on a flat condition. -/
def evaluateThreshold (value : Rat) (c : Option Cond) : Bool :=
  match c with
  | none => false
  | some c' => evaluateThresholdOp value c'.operator (some c'.value)

/-- `EntityManager.evaluateSingleCondition` (value lookup delegates to
the linked SpawnManager's `getNodeValue`, which never returns null). -/
def evaluateSingleCondition (cfg : Config) (e : Entity) (c : Cond) : Bool :=
  if c.target = "" then false
  else if c.operator = "active" then isNodeActive cfg e c.target
  else if c.operator = "inactive" then !isNodeActive cfg e c.target
  else evaluateThresholdOp (getNodeValue cfg e c.target) c.operator (some c.value)

/-- `EntityManager.evaluateConditionOrGroup` (inside a group the default
connector is OR). -/
def evaluateConditionOrGroup (cfg : Config) (e : Entity) (tc : TCond) : Bool :=
  match tc with
  | .group _ conds =>
    match conds with
    | [] => false
    | c0 :: rest =>
      rest.foldl (fun result innerCond =>
        let innerResult := evaluateSingleCondition cfg e innerCond
        let connector := innerCond.connector.getD "OR"
        if connector = "OR" then result || innerResult else result && innerResult)
        (evaluateSingleCondition cfg e c0)
  | .single c => evaluateSingleCondition cfg e c

/-- The connector a trigger-condition entry contributes to the outer
fold (a group entry carries its own `connector` field). -/
def tcondConnector (tc : TCond) : Option String :=
  match tc with
  | .single c => c.connector
  | .group conn _ => conn

/-- `EntityManager.evaluateConditionsWithConnectors`. -/
def evaluateConditionsWithConnectors (cfg : Config) (e : Entity) (conditions : List TCond)
    (fallbackLogic : Option String) : Bool :=
  match conditions with
  | [] => false
  | c0 :: rest =>
    rest.foldl (fun result cond =>
      let condResult := evaluateConditionOrGroup cfg e cond
      let connector := (tcondConnector cond).getD
        (if fallbackLogic = some "any" then "OR" else "AND")
      if connector = "OR" then result || condResult else result && condResult)
      (evaluateConditionOrGroup cfg e c0)

/-- `EntityManager.evaluateModifierTrigger`. -/
def evaluateModifierTrigger (cfg : Config) (e : Entity) (trigger : Option Trigger) : Bool :=
  match trigger with
  | none => false
  | some tr =>
    if !tr.conditions.isEmpty then
      evaluateConditionsWithConnectors cfg e tr.conditions tr.logic
    else
      match tr.target with
      | some target =>
        evaluateThresholdOp (getNodeValue cfg e target) (tr.operator.getD "") tr.value
      | none => false

/-- `EntityManager.evaluateRemoveConditions`. -/
def evaluateRemoveConditions (cfg : Config) (e : Entity) (trigger : Option Trigger) : Bool :=
  match trigger with
  | none => false
  | some tr =>
    if !tr.removeConditions.isEmpty then
      evaluateConditionsWithConnectors cfg e tr.removeConditions tr.removeLogic
    else if tr.static && !tr.conditions.isEmpty then
      !evaluateConditionsWithConnectors cfg e tr.conditions tr.logic
    else false

/-- `SpawnManager._thresholdModifiers` (pre-filtered at config load). -/
def thresholdModifiers (cfg : Config) : List Node :=
  (getNodesByType cfg "modifier").filter (fun n =>
    match n.config.trigger with
    | some tr => tr.ttype = some "threshold"
    | none => false)

/-- Add `v` to the insertion-ordered set stored under `k`, creating the
key when missing (the body of the `_exclusiveGroups` builder). -/
def egAdd (groups : List (String × List String)) (k v : String) :
    List (String × List String) :=
  match findA groups k with
  | some set => if set.contains v then groups else setA groups k (set ++ [v])
  | none => groups ++ [(k, [v])]

/-- Ensure a key exists with an empty set (JS `if (!m.has(k)) m.set(k, new Set())`). -/
def egEnsure (groups : List (String × List String)) (k : String) :
    List (String × List String) :=
  match findA groups k with
  | some _ => groups
  | none => groups ++ [(k, [])]

/-- `SpawnManager._exclusiveGroups` / `EntityManager.buildExclusiveGroups`:
symmetric closure of `exclusiveWith`, insertion ordered. -/
def buildExclusiveGroups (modifiers : List Node) : List (String × List String) :=
  modifiers.foldl (fun groups mod_ =>
    let exclusive := mod_.config.exclusiveWith
    if exclusive.isEmpty then groups
    else
      let groups := egEnsure groups mod_.id
      exclusive.foldl (fun groups partnerId =>
        let groups := egAdd groups mod_.id partnerId
        egAdd groups partnerId mod_.id) groups) []

/-- The transitive-closure loop of `resolveExclusiveGroups`: a stack
(`queue.pop()` takes the last pushed element); `group` is an insertion
ordered set.  Structured as fuelled recursion; the caller passes enough
fuel for the loop to run to completion. -/
def closureLoop (exclusiveMap : List (String × List String)) :
    Nat → List String → List String → List String
  | 0, group, _ => group
  | _ + 1, group, [] => group
  | fuel + 1, group, current :: stack =>
    let partners := (findA exclusiveMap current).getD []
    let (group, stack) := partners.foldl (fun (st : List String × List String) p =>
      let (group, stack) := st
      if group.contains p then (group, stack)
      else (group ++ [p], p :: stack)) (group, stack)
    closureLoop exclusiveMap fuel group stack

/-- Fuel bound: one unit per id that can ever be pushed. -/
def closureFuel (exclusiveMap : List (String × List String)) : Nat :=
  1 + exclusiveMap.foldl (fun n kv => n + 1 + kv.2.length) 0

/-- First value of a single trigger condition entry (`conditions[0].target`
etc.; a group entry has no such fields, i.e. `undefined`). -/
def tcondTarget (tc : TCond) : Option String :=
  match tc with
  | .single c => some c.target
  | .group _ _ => none

def tcondOperator (tc : TCond) : Option String :=
  match tc with
  | .single c => some c.operator
  | .group _ _ => none

def tcondValue (tc : TCond) : Option Rat :=
  match tc with
  | .single c => some c.value
  | .group _ _ => none

/-- Stable ascending insertion by threshold value (candidate sort in
`getMostSpecificModifier`; JS sort is stable). -/
def insertByValueAsc (x : Node × Rat) (l : List (Node × Rat)) : List (Node × Rat) :=
  match l with
  | [] => [x]
  | y :: rest => if x.2 < y.2 then x :: y :: rest else y :: insertByValueAsc x rest

/-- Stable descending insertion by threshold value. -/
def insertByValueDesc (x : Node × Rat) (l : List (Node × Rat)) : List (Node × Rat) :=
  match l with
  | [] => [x]
  | y :: rest => if x.2 > y.2 then x :: y :: rest else y :: insertByValueDesc x rest

/-- Number of trigger conditions of a modifier node
(`mod.config.trigger?.conditions?.length || 0`). -/
def singleCondCount (m : Node) : Nat :=
  match m.config.trigger with
  | some tr => tr.conditions.length
  | none => 0

/-- The `(modifier, condition)` pairs extracted from single-condition
candidates in `getMostSpecificModifier`. -/
def modifierConds (candidates : List Node) : List (Node × TCond) :=
  candidates.filterMap (fun m =>
    match m.config.trigger with
    | some tr =>
      match tr.conditions with
      | [tc] => some (m, tc)
      | _ => none
    | none => none)

/-- `EntityManager.getMostSpecificModifier`.  Returns `none` only on an
empty candidate list (never passed by the source). -/
def getMostSpecificModifier (candidates : List Node) : Option Node :=
  let singleCondCandidates := candidates.filter (fun m => singleCondCount m = 1)
  let specific : Option Node :=
    if singleCondCandidates.length = candidates.length then
      let conds := modifierConds singleCondCandidates
      match conds with
      | [] => none
      | (_, tc0) :: rest =>
        if rest.all (fun c => tcondTarget c.2 = tcondTarget tc0) then
          let leOps := conds.filter (fun c =>
            tcondOperator c.2 = some "<=" || tcondOperator c.2 = some "<")
          let geOps := conds.filter (fun c =>
            tcondOperator c.2 = some ">=" || tcondOperator c.2 = some ">")
          if leOps.length = conds.length then
            let sorted := (leOps.map (fun c => (c.1, (tcondValue c.2).getD 0))).foldl
              (fun acc x => insertByValueAsc x acc) []
            sorted.head?.map (fun p => p.1)
          else if geOps.length = conds.length then
            let sorted := (geOps.map (fun c => (c.1, (tcondValue c.2).getD 0))).foldl
              (fun acc x => insertByValueDesc x acc) []
            sorted.head?.map (fun p => p.1)
          else none
        else none
  else none
  match specific with
  | some m => some m
  | none => candidates.head?

/-- `EntityManager.resolveExclusiveGroups`: for each equivalence class,
mark exactly the winner true and every other member false; modifiers not
in any class are absent from the result. -/
def resolveExclusiveGroups (cfg : Config) (e : Entity)
    (exclusiveMap : List (String × List String)) (modifiers : List Node) :
    List (String × Bool) :=
  (exclusiveMap.foldl (fun (st : List (String × Bool) × List String) kv =>
    let (results, visited) := st
    let modId := kv.1
    if visited.contains modId then (results, visited)
    else
      let group := closureLoop exclusiveMap (closureFuel exclusiveMap) [modId] [modId]
      let visited := visited ++ group
      let candidates := group.filterMap (fun id =>
        match modifiers.find? (fun m => m.id = id) with
        | some mod_ =>
          if evaluateModifierTrigger cfg e mod_.config.trigger then some mod_ else none
        | none => none)
      let results :=
        if candidates.isEmpty then
          group.foldl (fun rs id => setA rs id false) results
        else if candidates.length = 1 then
          group.foldl (fun rs id => setA rs id (decide (some id = candidates.head?.map Node.id))) results
        else
          match getMostSpecificModifier candidates with
          | some winner => group.foldl (fun rs id => setA rs id (id = winner.id)) results
          | none => results
      (results, visited)) ([], [])).1

/-- The cascade triple in the order `_runCascade` (and the
`checkModifierThresholds` flush) executes it. -/
def cascadeTriple (cfg : Config) (e : Entity) : Entity :=
  calculateDerived cfg (checkCompounds cfg (recalculateRates cfg e))

/-- `EntityManager._runCascade` acting on an entity value: defer and
mark dirty while batching, else run the triple at once. -/
def runCascadeE (m : Manager) (e : Entity) : Manager × Entity :=
  if m.batchingCascade then ({ m with cascadeDirty := true }, e)
  else (m, cascadeTriple m.cfg e)

/-- `EntityManager._runCascade` on a stored entity. -/
def runCascade (m : Manager) (entityId : String) : Manager :=
  match retrieve m entityId with
  | none => if m.batchingCascade then { m with cascadeDirty := true } else m
  | some e =>
    let (m, e) := runCascadeE m e
    putEntity m e

/-- `EntityManager.applyModifier`.  `mcfg` is the config object passed by
the caller (the modifier node's config, possibly spread together with an
`isStatic` flag, which is the `isStaticArg` parameter here). -/
def applyModifier (m : Manager) (entityId modifierId : String) (mcfg : NodeConfig)
    (isStaticArg : Bool) : Manager × Bool :=
  match retrieve m entityId with
  | none => (m, false)
  | some e =>
    let existing := e.modifiers.contains modifierId
    let isStatic := isStaticArg || (match mcfg.trigger with
      | some tr => tr.static
      | none => false)
    let e :=
      match (if existing then findA e.modifierStates modifierId else none) with
      | some modState =>
        if mcfg.stacking = some "refresh" then
          let modState := { modState with appliedAt := m.now }
          let modState :=
            if !isStatic && (mcfg.duration.getD 0) ≠ 0 && mcfg.durationType = some "timed"
            then { modState with expiresAt := some (m.now + (mcfg.duration.getD 0) * 1000) }
            else modState
          { e with modifierStates := setA e.modifierStates modifierId modState }
        else if mcfg.stacking = some "stack" then
          let limit := mcfg.maxStacks.getD 99
          let modState := { modState with
            stackCount := Nat.min (modState.stackCount + 1) limit }
          { e with modifierStates := setA e.modifierStates modifierId modState }
        else e
      | none =>
        let modState : ModState :=
          { appliedAt := m.now, stackCount := 1, isStatic := isStatic,
            expiresAt :=
              if !isStatic && mcfg.durationType = some "timed" && (mcfg.duration.getD 0) ≠ 0
              then some (m.now + (mcfg.duration.getD 0) * 1000) else none,
            ticksRemaining :=
              if !isStatic && mcfg.durationType = some "ticks" then mcfg.duration
              else none }
        { e with modifiers := e.modifiers ++ [modifierId],
                 modifierStates := setA e.modifierStates modifierId modState }
    let m := putEntity m e
    let m := runCascade m entityId
    (m, true)

/-- `EntityManager.removeModifier`. -/
def removeModifier (m : Manager) (entityId modifierId : String) : Manager × Bool :=
  match retrieve m entityId with
  | none => (m, false)
  | some e =>
    if !e.modifiers.contains modifierId then (m, false)
    else
      let e := { e with modifiers := eraseFirst e.modifiers modifierId,
                        modifierStates := e.modifierStates.filter (fun kv => kv.1 ≠ modifierId) }
      let m := putEntity m e
      let m := runCascade m entityId
      (m, true)

/-- `EntityManager.activateTrait`: delegate to the SpawnManager, then
cascade on success (the shared object is written back in either case). -/
def activateTrait (m : Manager) (entityId traitId : String) : Manager × Bool :=
  match retrieve m entityId with
  | none => (m, false)
  | some e =>
    let (e, result) := SM.activateTrait m.cfg e traitId
    let m := putEntity m e
    if result then (runCascade m entityId, true) else (m, false)

/-- `EntityManager.deactivateTrait`. -/
def deactivateTrait (m : Manager) (entityId traitId : String) : Manager × Bool :=
  match retrieve m entityId with
  | none => (m, false)
  | some e =>
    let (e, result) := SM.deactivateTrait m.cfg e traitId
    let m := putEntity m e
    if result then (runCascade m entityId, true) else (m, false)

/-- `SpawnManager._thresholdTraitsByVar` entry for one variable. -/
def thresholdTraitsFor (cfg : Config) (varId : String) : List Node :=
  (getTraitsAll cfg).filter (fun trait =>
    let sel := trait.config.selection.getD {}
    sel.mode = some "threshold" &&
      (match sel.trigger with
       | some tr => tr.target = varId
       | none => false))

/-- The body of the `checkThresholds` loop for one threshold trait. -/
def checkThresholdsStep (entityId : String) (varState : VarState)
    (m : Manager) (trait : Node) : Manager :=
  match retrieve m entityId with
  | none => m
  | some e =>
    let sel := trait.config.selection.getD {}
    let isActive := match trait.config.layerId with
      | some lid =>
        match findA e.layers lid with
        | some ls => ls.active.contains trait.id
        | none => false
      | none => false
    let m :=
      if !isActive && evaluateThreshold varState.value sel.trigger then
        (activateTrait m entityId trait.id).1
      else m
    if isActive && sel.autoRemove.isSome &&
        evaluateThreshold varState.value sel.autoRemove then
      (deactivateTrait m entityId trait.id).1
    else m

/-- `EntityManager.checkThresholds` (variable-level threshold traits).
The variable's value is read once at entry, as in the source. -/
def checkThresholds (m : Manager) (entityId varId : String) : Manager :=
  match retrieve m entityId with
  | none => m
  | some e0 =>
    match findA e0.vars varId with
    | none => m
    | some varState =>
      (thresholdTraitsFor m.cfg varId).foldl (checkThresholdsStep entityId varState) m

/-- `EntityManager.checkModifierThresholds`, instrumented: the second
component counts executions of the cascade triple during the call, the
third counts modifiers actually applied or removed.  The state part is
exactly the source's behaviour; the two counters are observers.
`cmtStep` is the body of its per-modifier loop. -/
def cmtStep (entityId : String) (groupWinners : List (String × Bool))
    (st : Manager × Nat) (modifier : Node) : Manager × Nat :=
  let (m, changes) := st
  match retrieve m entityId with
  | none => (m, changes)
  | some e =>
    let trigger := modifier.config.trigger
    let isActive := e.modifiers.contains modifier.id
    let isStatic := match trigger with
      | some tr => tr.static
      | none => false
    let shouldApply := evaluateModifierTrigger m.cfg e trigger
    match findA groupWinners modifier.id with
    | some groupResult =>
      if groupResult && !isActive then
        let (m, ok) := applyModifier m entityId modifier.id modifier.config isStatic
        (m, if ok then changes + 1 else changes)
      else if !groupResult && isActive then
        let (m, ok) := removeModifier m entityId modifier.id
        (m, if ok then changes + 1 else changes)
      else (m, changes)
    | none =>
      if !isActive && shouldApply then
        let (m, ok) := applyModifier m entityId modifier.id modifier.config isStatic
        (m, if ok then changes + 1 else changes)
      else if isActive && isStatic then
        if evaluateRemoveConditions m.cfg e trigger then
          let (m, ok) := removeModifier m entityId modifier.id
          (m, if ok then changes + 1 else changes)
        else (m, changes)
      else (m, changes)

def checkModifierThresholds (m : Manager) (entityId : String) : Manager × Nat × Nat :=
  match retrieve m entityId with
  | none => (m, 0, 0)
  | some e0 =>
    let modifiers := thresholdModifiers m.cfg
    let exclusiveGroups := buildExclusiveGroups modifiers
    let groupWinners := resolveExclusiveGroups m.cfg e0 exclusiveGroups modifiers
    let m := { m with batchingCascade := true, cascadeDirty := false }
    let (m, changes) := modifiers.foldl (cmtStep entityId groupWinners) (m, 0)
    let m := { m with batchingCascade := false }
    if m.cascadeDirty then
      let m := { m with cascadeDirty := false }
      let m := match retrieve m entityId with
        | some e => putEntity m (cascadeTriple m.cfg e)
        | none => m
      (m, 1, changes)
    else (m, 0, changes)

/-- `EntityManager.setVariable`. -/
def setVariable (m : Manager) (entityId varId : String) (value : Rat) : Manager × Bool :=
  match retrieve m entityId with
  | none => (m, false)
  | some e =>
    match findA e.vars varId with
    | none => (m, false)
    | some varState =>
      let oldValue := varState.value
      let clamped := max varState.min (min varState.max value)
      let e := { e with vars := setA e.vars varId ({ varState with value := clamped }) }
      let m := putEntity m e
      if clamped ≠ oldValue then
        let m := checkThresholds m entityId varId
        let m := (checkModifierThresholds m entityId).1
        let m := match retrieve m entityId with
          | some e' => putEntity m (calculateDerived m.cfg e')
          | none => m
        (m, true)
      else (m, true)

/-- `EntityManager.modifyVariable`. -/
def modifyVariable (m : Manager) (entityId varId : String) (delta : Rat) : Manager × Bool :=
  match retrieve m entityId with
  | none => (m, false)
  | some e =>
    match findA e.vars varId with
    | none => (m, false)
    | some varState =>
      let oldValue := varState.value
      let clamped := max varState.min (min varState.max (varState.value + delta))
      let e := { e with vars := setA e.vars varId ({ varState with value := clamped }) }
      let m := putEntity m e
      if clamped ≠ oldValue then
        let m := checkThresholds m entityId varId
        let m := (checkModifierThresholds m entityId).1
        let m := match retrieve m entityId with
          | some e' => putEntity m (calculateDerived m.cfg e')
          | none => m
        (m, true)
      else (m, true)

/-- `EntityManager.tick` with an explicit `deltaSeconds` (the
`deltaSeconds = null` wall-clock path is a host-time concern).  Returns
the ticked entity. -/
def tick (m : Manager) (entityId : String) (deltaSeconds : Rat) : Manager × Option Entity :=
  if !m.active.contains entityId then (m, none)
  else
    match retrieve m entityId with
    | none => (m, none)
    | some e0 =>
      let m := putEntity m { e0 with lastTick := m.now }
      let varIds := e0.vars.map (fun kv => kv.1)
      let m := varIds.foldl (fun m varId =>
        match retrieve m entityId with
        | none => m
        | some e =>
          match findA e.vars varId with
          | none => m
          | some varState =>
            if varState.changeMode = "timed" && varState.direction ≠ "none" then
              let oldValue := varState.value
              let value := varState.value + varState.currentRate * deltaSeconds
              let value := max varState.min (min varState.max value)
              let e := { e with vars := setA e.vars varId ({ varState with value := value }) }
              let m := putEntity m e
              if value ≠ oldValue then checkThresholds m entityId varId else m
            else m) m
      let (m, expired) := (match retrieve m entityId with
        | none => (m, [])
        | some e =>
          e.modifiers.reverse.foldl (fun (st : Manager × List String) modId =>
            let (m, expired) := st
            match retrieve m entityId with
            | none => (m, expired)
            | some e =>
              match findA e.modifierStates modId with
              | none => (m, expired)
              | some modState =>
                if modState.isStatic then (m, expired)
                else
                  match modState.expiresAt with
                  | some t =>
                    if m.now ≥ t then (m, expired ++ [modId])
                    else
                      match modState.ticksRemaining with
                      | some ticks =>
                        let modState := { modState with ticksRemaining := some (ticks - 1) }
                        let e := { e with modifierStates := setA e.modifierStates modId modState }
                        let m := putEntity m e
                        if ticks - 1 ≤ 0 then (m, expired ++ [modId]) else (m, expired)
                      | none => (m, expired)
                  | none =>
                    match modState.ticksRemaining with
                    | some ticks =>
                      let modState := { modState with ticksRemaining := some (ticks - 1) }
                      let e := { e with modifierStates := setA e.modifierStates modId modState }
                      let m := putEntity m e
                      if ticks - 1 ≤ 0 then (m, expired ++ [modId]) else (m, expired)
                    | none => (m, expired)) (m, []))
      let m := expired.foldl (fun m modId => (removeModifier m entityId modId).1) m
      let m := (checkModifierThresholds m entityId).1
      let m := match retrieve m entityId with
        | none => m
        | some e =>
          let e := { e with actions := e.actions.map (fun kv =>
            if kv.2 > 0 then (kv.1, max 0 (kv.2 - deltaSeconds)) else kv) }
          putEntity m e
      let m := match retrieve m entityId with
        | some e => putEntity m (calculateDerived m.cfg e)
        | none => m
      (m, retrieve m entityId)

/-- JS `Array.prototype.pop`: remove and return the last element. -/
def popLast (l : List α) : Option α × List α :=
  match l.reverse with
  | [] => (none, l)
  | x :: rest => (some x, rest.reverse)

/-- Update one pool in place. -/
def updPool (m : Manager) (poolId : String) (f : Pool → Pool) : Manager :=
  { m with pools := updateA m.pools poolId f }

/-- Glob matching against the regex `^` + pattern with each `*` replaced
by `.*` + `$` (patterns used by pool rules contain no other
regex-special characters).  Fuelled so that the recursion is structural;
each call shrinks the pattern or the string, so a fuel of
`p.length + s.length + 1` always suffices. -/
def globMatch : Nat → List Char → List Char → Bool
  | 0, _, _ => false
  | _ + 1, [], s => s.isEmpty
  | fuel + 1, c :: pr, s =>
    if c = '*' then
      globMatch fuel pr s ||
        (match s with
         | [] => false
         | _ :: sr => globMatch fuel (c :: pr) sr)
    else
      match s with
      | [] => false
      | d :: sr => c = d && globMatch fuel pr sr

/-- `EntityManager._matchPattern`. -/
def matchPattern (str pattern : String) : Bool :=
  if !pattern.toList.contains '*' then str = pattern
  else globMatch (pattern.toList.length + str.toList.length + 1)
    pattern.toList str.toList

/-- `EntityManager._evaluateOperator` (an absent target value models the
JS comparison against `undefined`: only `ne` holds). -/
def evaluateOperator (value : Rat) (operator : String) (target : Option Rat) : Bool :=
  match target with
  | some t =>
    if operator = "eq" then value = t
    else if operator = "ne" then value ≠ t
    else if operator = "gt" then value > t
    else if operator = "gte" then value ≥ t
    else if operator = "lt" then value < t
    else if operator = "lte" then value ≤ t
    else false
  | none => operator = "ne"

/-- `EntityManager._evaluatePoolCondition`. -/
def evaluatePoolCondition (e : Entity) (condition : PoolRuleCond) : Bool :=
  if condition.source = "preset" then
    match e.presetId with
    | some pid => matchPattern pid condition.pattern
    | none => false
  else if condition.source = "trait" then
    e.layers.any (fun kv => kv.2.active.contains condition.pattern)
  else if condition.source = "attribute" then
    match findA e.attributes condition.pattern with
    | some v => evaluateOperator v (condition.operator.getD "eq") condition.value
    | none => false
  else if condition.source = "variable" then
    match findA e.vars condition.pattern with
    | some vs => evaluateOperator vs.value (condition.operator.getD "eq") condition.value
    | none => false
  else if condition.source = "modifier" then e.modifiers.contains condition.pattern
  else if condition.source = "compound" then e.compounds.contains condition.pattern
  else false

/-- `EntityManager._evaluatePoolRules`. -/
def evaluatePoolRules (e : Entity) (rules : PoolRules) : Rat :=
  rules.conditions.foldl (fun score condition =>
    if evaluatePoolCondition e condition then score + (condition.weight.getD 1)
    else score) 0

/-- One pool-rule match entry (`{poolId, score, priority}`). -/
structure PoolMatch where
  poolId : String
  score : Rat
  priority : Rat
deriving Repr

/-- Stable insertion for sorting matches by priority desc, then score
desc (JS stable sort with that comparator). -/
def insertMatch (x : PoolMatch) (l : List PoolMatch) : List PoolMatch :=
  match l with
  | [] => [x]
  | y :: rest =>
    if x.priority > y.priority || (x.priority = y.priority && x.score > y.score) then
      x :: y :: rest
    else y :: insertMatch x rest

/-- `EntityManager.getPoolForEntity`. -/
def getPoolForEntity (m : Manager) (e : Entity) : String :=
  match e.poolId with
  | some pid =>
    if (findA m.pools pid).isSome then pid else getPoolForEntityByRules m e
  | none => getPoolForEntityByRules m e
where
  getPoolForEntityByRules (m : Manager) (e : Entity) : String :=
    let ms := m.pools.filterMap (fun kv =>
      let (poolId, pool) := kv
      if poolId = "default" then none
      else
        match pool.rules with
        | none => none
        | some rules =>
          if rules.conditions.isEmpty then none
          else
            let score := evaluatePoolRules e rules
            if score > 0 then
              some { poolId := poolId, score := score, priority := rules.priority }
            else none)
    let sorted := ms.foldl (fun acc x => insertMatch x acc) []
    match sorted with
    | best :: _ => best.poolId
    | [] => "default"

/-- `EntityManager._prepareEntityForPool`: clear transient state, keep
structural keys. -/
def prepareEntityForPool (e : Entity) : Entity :=
  { e with log := [], lastTick := 0, modifiers := [], compounds := [],
           modifierStates := [],
           layers := e.layers.map (fun kv => (kv.1, { active := [], lastRoll := none })) }

/-- `EntityManager._resetEntityForReuse`.  `arg` is the
`presetIdOrOverrides` parameter; in the object case the source
shallow-merges the two override objects (field-wise, second object
wins), which the model renders by preferring `overrides`' field when it
is set. -/
def resetEntityForReuse (msqrt : Rat → Rat) (m : Manager) (e : Entity)
    (arg : Option (Sum String SpawnOverrides)) (overrides : SpawnOverrides)
    (rolls : List Rat) : Manager × Entity × List Rat :=
  let preset : Option Preset := match arg with
    | some (.inl presetId) => findA m.presets presetId
    | _ => none
  let finalOverrides : SpawnOverrides := match arg with
    | some (.inr o) =>
      { id := if overrides.id.isSome then overrides.id else o.id,
        name := if overrides.name.isSome then overrides.name else o.name,
        attributes := if overrides.attributes.isEmpty then o.attributes else overrides.attributes,
        contexts := if overrides.contexts.isEmpty then o.contexts else overrides.contexts,
        forceTraits := if overrides.forceTraits.isEmpty then o.forceTraits else overrides.forceTraits,
        traits := if overrides.traits.isEmpty then o.traits else overrides.traits }
    | _ => overrides
  let freshId := "entity_" ++ toString m.nextId
  let m := { m with nextId := m.nextId + 1 }
  let e := { e with id := freshId, createdAt := m.now,
                    presetId := preset.map (fun p => p.id) }
  let (e, rolls) := (getAttributes m.cfg).foldl (fun (st : Entity × List Rat) attr =>
    let (e, rolls) := st
    let c := attr.config
    let range := match c.defaultRange with
      | some r => r
      | none => (c.min.getD 0, c.max.getD 0)
    match (match preset with
           | some p => findA p.attributes attr.id
           | none => none) with
    | some spec =>
      let (v, rolls) := resolvePresetAttributeValue spec (c.precision.getD 0) rolls
      ({ e with attributes := setA e.attributes attr.id v }, rolls)
    | none =>
      match findA finalOverrides.attributes attr.id with
      | some spec =>
        let (v, rolls) := resolvePresetAttributeValue spec (c.precision.getD 0) rolls
        ({ e with attributes := setA e.attributes attr.id v }, rolls)
      | none =>
        let (u, rolls) := takeRoll rolls
        let v := rollRange u range.1 range.2 (c.precision.getD 0)
        ({ e with attributes := setA e.attributes attr.id v }, rolls)) (e, rolls)
  let e := (getVariables m.cfg).foldl (fun acc varNode =>
    let c := varNode.config
    let vs : VarState :=
      { value := c.initial.getD (c.min.getD 0), baseRate := c.baseRate.getD 0,
        currentRate := c.baseRate.getD 0, min := c.min.getD 0, max := c.max.getD 100,
        changeMode := c.changeMode.getD "manual", direction := c.direction.getD "none" }
    { acc with vars := setA acc.vars varNode.id vs }) e
  let e := { e with
    layers := e.layers.map (fun kv => (kv.1, { active := [], lastRoll := none })),
    modifiers := [], compounds := [], modifierStates := [], derived := [],
    log := [], lastTick := m.now }
  let (e, rolls) := (getLayers m.cfg).foldl (fun (st : Entity × List Rat) layer =>
    let (e, rolls) := st
    let timing := ((layer.config.timing.getD {}).rollAt).getD "spawn"
    if timing = "spawn" || timing = "create" then
      let (e, _, rolls) := rollLayer msqrt m.cfg e layer.id m.now rolls
      (e, rolls)
    else (e, rolls)) (e, rolls)
  let forceTraits :=
    (match preset with
     | some p => p.forceTraits ++ resolvePresetTraits p.traits
     | none => []) ++
    finalOverrides.forceTraits ++ resolvePresetTraits finalOverrides.traits
  let e := forceTraits.foldl (fun acc tid => (forceActivateTrait m.cfg acc tid).1) e
  let (m, e) := runCascadeE m e
  (m, e, rolls)

/-- `EntityManager.createPool` (pre-warm is performed by the caller-side
scenarios when configured; every pool in the claims uses `preWarm = 0`). -/
def createPool (m : Manager) (poolId : String) (name : Option String)
    (config : PoolConfig) (rules : Option PoolRules) : Manager :=
  if (findA m.pools poolId).isSome then m
  else
    let pool : Pool :=
      { id := poolId, name := name.getD poolId, config := config, rules := rules }
    { m with pools := m.pools ++ [(poolId, pool)] }

/-- `EntityManager.getPoolStats`: live `size`/`available` from the
entity list, other counters from the stats record. -/
def getPoolStats (m : Manager) (poolId : Option String) : PoolStats :=
  match findA m.pools (poolId.getD "default") with
  | none => {}
  | some pool =>
    { pool.stats with size := pool.entities.length, available := pool.entities.length }

/-- `EntityManager.acquire` (multi-pool version, which shadows the
legacy one).  Returns the acquired entity, whether it came from a pool,
and the remaining roll stream. -/
def acquire (msqrt : Rat → Rat) (m : Manager) (arg : Option (Sum String SpawnOverrides))
    (overrides : SpawnOverrides) (targetPoolId : Option String) (rolls : List Rat) :
    Manager × Option Entity × Bool × List Rat :=
  let poolId := targetPoolId.getD "default"
  let poolId := if (findA m.pools poolId).isSome then poolId else "default"
  match findA m.pools poolId with
  | none => (m, none, false, rolls)
  | some actualPool =>
    let (m, entity?, fromPool, rolls) :=
      match popLast actualPool.entities with
      | (some pooled, remaining) =>
        let m := updPool m poolId (fun p => { p with entities := remaining })
        let (m, e, rolls) := resetEntityForReuse msqrt m pooled arg overrides rolls
        let m := updPool m poolId (fun p =>
          { p with stats := { p.stats with available := p.stats.available - 1 } })
        (m, some e, true, rolls)
      | (none, _) =>
        let freshId := "entity_" ++ toString m.nextId
        let m := { m with nextId := m.nextId + 1 }
        let (e?, rolls) :=
          match arg with
          | some (.inl presetId) =>
            spawn msqrt m.cfg m.presets presetId overrides freshId m.now rolls
          | some (.inr o) =>
            let (e, rolls) := generate msqrt m.cfg
              { id := o.id, name := o.name,
                attributes := [], contexts := o.contexts, forceTraits := o.forceTraits }
              freshId m.now rolls
            (some e, rolls)
          | none =>
            let (e, rolls) := generate msqrt m.cfg
              { id := overrides.id, name := overrides.name,
                attributes := [], contexts := overrides.contexts,
                forceTraits := overrides.forceTraits }
              freshId m.now rolls
            (some e, rolls)
        let m := updPool m poolId (fun p =>
          { p with stats := { p.stats with totalCreated := p.stats.totalCreated + 1 } })
        (m, e?, false, rolls)
    match entity? with
    | none => (m, none, fromPool, rolls)
    | some e =>
      let finalPoolId :=
        if targetPoolId.isNone then
          let determined := getPoolForEntity m e
          if determined ≠ poolId then determined else poolId
        else poolId
      let e := { e with poolId := some finalPoolId }
      let m := (store m e).1
      let m := activate m e
      let m := updPool m poolId (fun p =>
        { p with stats := { p.stats with inUse := p.stats.inUse + 1,
                                         totalAcquired := p.stats.totalAcquired + 1 } })
      (m, retrieve m e.id, fromPool, rolls)

/-- `EntityManager.release` (multi-pool version). -/
def release (m : Manager) (entityId : String) (targetPoolId : Option String) :
    Manager × Bool :=
  match findA m.stored entityId with
  | none => (m, false)
  | some e =>
    let poolId := targetPoolId.getD (e.poolId.getD "default")
    let poolId := if (findA m.pools poolId).isSome then poolId else "default"
    let m := (deactivate m entityId).1
    let m := { m with stored := m.stored.filter (fun kv => kv.1 ≠ entityId),
                      active := eraseFirst m.active entityId,
                      history := m.history.filter (fun kv => kv.1 ≠ entityId) }
    let m := updPool m poolId (fun p =>
      { p with stats := { p.stats with inUse := max 0 (p.stats.inUse - 1),
                                       totalReleased := p.stats.totalReleased + 1 } })
    match findA m.pools poolId with
    | none => (m, false)
    | some pool =>
      if pool.entities.length < pool.config.maxSize then
        let e := prepareEntityForPool e
        let e := { e with poolId := some poolId }
        let m := updPool m poolId (fun p =>
          let entities := p.entities ++ [e]
          { p with entities := entities,
                   stats := { p.stats with available := p.stats.available + 1,
                                           size := entities.length } })
        (m, true)
      else (m, false)

end EM

/-- The method names defined on the `EntityManager` class, in source
order (later duplicates shadow earlier ones and are listed once).  The
facade's entity-resolving helpers call `getEntity`, which is absent. -/
def entityManagerMethods : List String :=
  ["linkSpawnManager", "registerPreset", "registerPresets", "getPreset",
   "listPresets", "getPresetsByTaxonomy", "removePreset", "registerPresetGroup",
   "getPresetGroup", "listPresetGroups", "listPresetsByGroup", "removePresetGroup",
   "createGroup", "addToGroup", "removeFromGroup", "getGroup", "getGroupInfo",
   "listGroups", "deleteGroup", "store", "retrieve", "remove", "getAllStored",
   "activate", "deactivate", "getActive", "getAllActive", "isActive",
   "setSpawnContext", "getSpawnContext", "clearSpawnContext", "snapshot",
   "getHistory", "rollback", "tick", "tickAll", "startAutoTick", "stopAutoTick",
   "modifyVariable", "setVariable", "applyModifier", "removeModifier",
   "activateTrait", "deactivateTrait", "checkThresholds",
   "evaluateThreshold", "getNodeValue", "evaluateModifierTrigger",
   "evaluateConditionsWithConnectors", "evaluateRemoveConditions",
   "evaluateConditionOrGroup", "evaluateSingleCondition", "isNodeActive",
   "checkModifierThresholds", "buildExclusiveGroups", "resolveExclusiveGroups",
   "getMostSpecificModifier", "query", "matchesWhere", "getNestedValue",
   "compareValues", "getState", "configurePool", "acquire", "release",
   "preWarmPool", "clearPool", "getPoolStats", "createPool", "getPool",
   "listPools", "removePool", "moveToPool", "getAllPoolStats", "setPoolRules",
   "getPoolForEntity", "on", "off", "emit"]

/-- A JS runtime error raised by the embedded facade paths. -/
inductive JsError where
  | typeError
deriving Repr, DecidableEq

namespace SpawnEngine

/-- The entity-resolution step shared by the facade's action and layer
methods: a string argument is resolved through
`this.entityManager.getEntity(entityOrId)`.  Calling a property that the
class does not define as a function throws a `TypeError`; were the
method present it would behave as `retrieve`. -/
def facadeResolve (m : Manager) (arg : Sum String Entity) : Except JsError Entity :=
  match arg with
  | .inl entityId =>
    if entityManagerMethods.contains "getEntity" then
      match EM.retrieve m entityId with
      | some e => .ok e
      | none => .error .typeError
    else .error .typeError
  | .inr e => .ok e

/-- `SpawnEngine.isActionAvailable`. -/
def isActionAvailable (m : Manager) (arg : Sum String Entity) (actionId : String) :
    Except JsError Bool :=
  (facadeResolve m arg).map (fun e => SM.isActionAvailable m.cfg e actionId)

/-- `SpawnEngine.getAvailableActions`. -/
def getAvailableActions (m : Manager) (arg : Sum String Entity) :
    Except JsError (List SM.AvailAction) :=
  (facadeResolve m arg).map (fun e => SM.getAvailableActions m.cfg e)

/-- `SpawnEngine.selectAction`. -/
def selectAction (m : Manager) (arg : Sum String Entity) (u : Rat) :
    Except JsError (Option SM.AvailAction) :=
  (facadeResolve m arg).map (fun e => SM.selectAction m.cfg e u)

/-- `SpawnEngine.executeAction`. -/
def executeAction (m : Manager) (arg : Sum String Entity) (actionId : String) :
    Except JsError (Entity × Bool) :=
  (facadeResolve m arg).map (fun e => SM.executeAction m.cfg e actionId)

/-- `SpawnEngine.getActionCooldown`. -/
def getActionCooldown (m : Manager) (arg : Sum String Entity) (actionId : String) :
    Except JsError SM.CooldownInfo :=
  (facadeResolve m arg).map (fun e => SM.getActionCooldown m.cfg e actionId)

/-- `SpawnEngine.rollOutcome`. -/
def rollOutcome (msqrt : Rat → Rat) (m : Manager) (arg : Sum String Entity)
    (layerId : String) (n : Nat) (rolls : List Rat) :
    Except JsError (Entity × SM.SelResult × List Rat) :=
  (facadeResolve m arg).map (fun e => SM.rollOutcome msqrt m.cfg e layerId n m.now rolls)

/-- `SpawnEngine.rollLayer`. -/
def rollLayer (msqrt : Rat → Rat) (m : Manager) (arg : Sum String Entity)
    (layerId : String) (rolls : List Rat) :
    Except JsError (Entity × SM.SelResult × List Rat) :=
  (facadeResolve m arg).map (fun e => SM.rollLayer msqrt m.cfg e layerId m.now rolls)

end SpawnEngine

/-! ### Basic lemmas about the association-list primitives -/

theorem findA_setA_self {α : Type} (l : List (String × α)) (k : String) (v : α) :
    findA (setA l k v) k = some v := by
  induction l with
  | nil => simp [setA, findA]
  | cons kv rest ih =>
    by_cases h : kv.1 = k <;> simp [setA, findA, h, ih]

theorem findA_setA_ne {α : Type} (l : List (String × α)) (k k' : String) (v : α)
    (h : k' ≠ k) : findA (setA l k v) k' = findA l k' := by
  induction l with
  | nil => simp [setA, findA, Ne.symm h]
  | cons kv rest ih =>
    by_cases hk : kv.1 = k
    · subst hk
      simp [setA, findA, Ne.symm h]
    · by_cases hk' : kv.1 = k' <;> simp [setA, findA, hk, hk', ih, h]

/-- Writing at a key that is present, with a value whose projection is
unchanged, preserves the projected association list. -/
theorem setA_map_proj {α β : Type} (proj : α → β) (l : List (String × α))
    (k : String) (v v' : α) (hfind : findA l k = some v) (hproj : proj v' = proj v) :
    (setA l k v').map (fun kv => (kv.1, proj kv.2)) = l.map (fun kv => (kv.1, proj kv.2)) := by
  induction l with
  | nil => simp [findA] at hfind
  | cons kv rest ih =>
    by_cases h : kv.1 = k
    · subst h
      simp [findA] at hfind
      simp [setA, hfind ▸ hproj]
    · simp [findA, h] at hfind
      simp [setA, h, ih hfind]

theorem mem_eraseFirst_ne (l : List String) (x y : String) (h : x ≠ y) :
    x ∈ eraseFirst l y ↔ x ∈ l := by
  induction l with
  | nil => simp [eraseFirst]
  | cons z rest ih =>
    by_cases hz : z = y
    · subst hz
      simp [eraseFirst, h]
    · simp [eraseFirst, hz, ih]

theorem mem_of_mem_eraseFirst (l : List String) (x y : String)
    (hx : x ∈ eraseFirst l y) : x ∈ l := by
  induction l with
  | nil => simpa [eraseFirst] using hx
  | cons z rest ih =>
    by_cases hz : z = y
    · simp [eraseFirst, hz] at hx
      simp [hx]
    · simp [eraseFirst, hz] at hx
      rcases hx with h1 | h2
      · simp [h1]
      · simp [ih h2]

theorem nodup_eraseFirst (l : List String) (y : String) (h : l.Nodup) :
    (eraseFirst l y).Nodup := by
  induction l with
  | nil => simp [eraseFirst]
  | cons z rest ih =>
    simp at h
    by_cases hz : z = y
    · simpa [eraseFirst, hz] using h.2
    · simp [eraseFirst, hz]
      exact ⟨fun hm => h.1 (mem_of_mem_eraseFirst rest z y hm), ih h.2⟩

theorem not_mem_eraseFirst_self (l : List String) (x : String) (h : l.Nodup) :
    x ∉ eraseFirst l x := by
  induction l with
  | nil => simp [eraseFirst]
  | cons z rest ih =>
    simp at h
    by_cases hz : z = x
    · subst hz
      simpa [eraseFirst] using h.1
    · simp [eraseFirst, hz, Ne.symm hz]
      exact ih h.2

theorem nodup_append_single (l : List String) (x : String) (h : l.Nodup)
    (hx : l.contains x = false) : (l ++ [x]).Nodup := by
  simp at hx
  simp [List.nodup_append, h, hx]

/-- A fold whose step preserves a projection preserves it overall. -/
theorem foldl_pres {α β γ : Type} (p : α → γ) (f : α → β → α) (l : List β) (a : α)
    (h : ∀ a' b, b ∈ l → p (f a' b) = p a') : p (l.foldl f a) = p a := by
  induction l generalizing a with
  | nil => rfl
  | cons b rest ih =>
    rw [List.foldl_cons, ih _ (fun a' b' hb => h a' b' (by simp [hb]))]
    exact h a b (by simp)


/-! ### Concrete scenario configurations used by the claims

Batteries marks the `Rat` arithmetic operations `@[irreducible]`, which
blocks `decide`/`rfl` evaluation of the embedding on concrete inputs;
they are unsealed here so that concrete scenarios compute. -/

unseal Rat.add Rat.mul Rat.sub Rat.inv


open SM EM

/-- A host square root that is never consulted in the scenarios using it. -/
def msqrt0 : Rat → Rat := fun _ => 0

/-- C1 scenario: one variable `hp`, one compound `K` requiring `hp ≥ 50`. -/
def cfgC1 : Config :=
  { nodes :=
    [ { id := "hp", ntype := "variable",
        config := { min := some 0, max := some 100, initial := some 0 } },
      { id := "K", ntype := "compound",
        config := { requires := [Req.threshold "hp" ">=" 50],
                    requirementLogic := some "all" } } ] }

def nodeK : Node :=
  { id := "K", ntype := "compound",
    config := { requires := [Req.threshold "hp" ">=" 50], requirementLogic := some "all" } }

def eC1 : Entity := (generate msqrt0 cfgC1 {} "e1" 0 []).1

def mC1 : Manager := { cfg := cfgC1, stored := [("e1", eC1)] }

/-- C2 scenario: two non-exclusive threshold modifiers, each adding a
rate delta to variable `v`. -/
def trigC2 : Trigger :=
  { ttype := some "threshold", static := true,
    conditions := [TCond.single { target := "v", operator := "<=", value := 100 }],
    logic := some "all" }

def cfgC2 (d1 d2 : Rat) : Config :=
  { nodes :=
    [ { id := "v", ntype := "variable",
        config := { min := some 0, max := some 1000, initial := some 10,
                    baseRate := some 2 } },
      { id := "m1", ntype := "modifier", config := { trigger := some trigC2 } },
      { id := "m2", ntype := "modifier", config := { trigger := some trigC2 } } ],
    relationships :=
    [ { sourceId := "m1", targetId := "v", rtype := "rate_modifier",
        config := { operation := "add", value := d1 } },
      { sourceId := "m2", targetId := "v", rtype := "rate_modifier",
        config := { operation := "add", value := d2 } } ] }

def eC2 : Entity :=
  { id := "e1",
    vars := [("v", { value := 10, baseRate := 2, currentRate := 2, min := 0, max := 1000,
                     changeMode := "manual", direction := "none" })] }

def mC2 (d1 d2 : Rat) : Manager := { cfg := cfgC2 d1 d2, stored := [("e1", eC2)] }

/-- C3 scenario: three mutually exclusive wound modifiers on `hp`. -/
def trigLE (v : Rat) : Trigger :=
  { ttype := some "threshold", static := true,
    conditions := [TCond.single { target := "hp", operator := "<=", value := v }],
    logic := some "all" }

def cfgC3 : Config :=
  { nodes :=
    [ { id := "hp", ntype := "variable",
        config := { min := some 0, max := some 100, initial := some 100 } },
      { id := "lightly_wounded", ntype := "modifier",
        config := { trigger := some (trigLE 80), exclusiveWith := ["wounded", "critical"] } },
      { id := "wounded", ntype := "modifier",
        config := { trigger := some (trigLE 50), exclusiveWith := ["lightly_wounded", "critical"] } },
      { id := "critical", ntype := "modifier",
        config := { trigger := some (trigLE 20), exclusiveWith := ["lightly_wounded", "wounded"] } } ] }

def eC3 : Entity :=
  { id := "e1",
    vars := [("hp", { value := 100, baseRate := 0, currentRate := 0, min := 0, max := 100,
                      changeMode := "manual", direction := "none" })] }

def mC3 : Manager := { cfg := cfgC3, stored := [("e1", eC3)] }

def mC3a : Manager := (setVariable mC3 "e1" "hp" 15).1
def mC3b : Manager := (setVariable mC3a "e1" "hp" 45).1
def mC3c : Manager := (setVariable mC3b "e1" "hp" 90).1

/-- C3 counterexample: an exclusive pair with mixed operators, where the
second modifier in config order heads the exclusive-group index. -/
def trigOp (op : String) (v : Rat) : Trigger :=
  { ttype := some "threshold", static := true,
    conditions := [TCond.single { target := "hp", operator := op, value := v }],
    logic := some "all" }

def cfgC3x : Config :=
  { nodes :=
    [ { id := "hp", ntype := "variable",
        config := { min := some 0, max := some 100, initial := some 50 } },
      { id := "modA", ntype := "modifier",
        config := { trigger := some (trigOp ">=" 0), exclusiveWith := [] } },
      { id := "modB", ntype := "modifier",
        config := { trigger := some (trigOp "<=" 100), exclusiveWith := ["modA"] } } ] }

def eC3x : Entity :=
  { id := "e1",
    vars := [("hp", { value := 50, baseRate := 0, currentRate := 0, min := 0, max := 100,
                      changeMode := "manual", direction := "none" })] }

def mC3x : Manager := { cfg := cfgC3x, stored := [("e1", eC3x)] }

/-- C4 counterexample: a variable whose configured `initial` lies above
its `max`; the config loads cleanly (normalization checks none of this). -/
def cfgC4 : Config :=
  { nodes := [ { id := "w", ntype := "variable",
                 config := { min := some 0, max := some 100, initial := some 150 } } ] }

/-- C5 counterexample: a compound that feeds a rate modifier, making the
order of the closing recomputation observable. -/
def cfgC5 : Config :=
  { nodes :=
    [ { id := "v", ntype := "variable",
        config := { min := some 0, max := some 100, initial := some 0, baseRate := some 0 } },
      { id := "C", ntype := "compound",
        config := { requires := [Req.threshold "v" ">=" 0], requirementLogic := some "all" } } ],
    relationships :=
    [ { sourceId := "C", targetId := "v", rtype := "rate_modifier",
        config := { operation := "add", value := 5 } } ] }

/-- Modelled from the spec: `generate` as the claim describes it, with
the closing triple in the order
`recalculateRates → checkCompounds → calculateDerived`.  For comparison
with the source-derived `generate` only. -/
def generateAsSpecOrdered (msqrt : Rat → Rat) (cfg : Config) (ov : GenOverrides)
    (genId : String) (now : Rat) (rolls : List Rat) : Entity × List Rat :=
  let (e, rolls) := generateCore msqrt cfg ov genId now rolls
  let e := recalculateRates cfg e
  let e := checkCompounds cfg e
  let e := calculateDerived cfg e
  let e := (getActions cfg).foldl (fun acc action =>
    { acc with actions := setA acc.actions action.id 0 }) e
  ({ e with log := e.log ++ ["generated"] }, rolls)

/-- C6 scenario: modifier `M` adds 5 to `v`'s rate; snapshot precedes
the application. -/
def cfgC6 : Config :=
  { nodes :=
    [ { id := "v", ntype := "variable",
        config := { min := some 0, max := some 100, initial := some 0, baseRate := some 1 } },
      { id := "M", ntype := "modifier", config := {} } ],
    relationships :=
    [ { sourceId := "M", targetId := "v", rtype := "rate_modifier",
        config := { operation := "add", value := 5 } } ] }

def eC6 : Entity :=
  { id := "e1",
    vars := [("v", { value := 0, baseRate := 1, currentRate := 1, min := 0, max := 100,
                     changeMode := "manual", direction := "none" })] }

def mC6 : Manager := { cfg := cfgC6, stored := [("e1", eC6)], now := 100 }
def mC6a : Manager := (snapshot mC6 "e1").1
def mC6b : Manager := (applyModifier { mC6a with now := 200 } "e1" "M" {} false).1
def mC6c : Manager := (rollback mC6b "e1" 100).1

/-- C7 counterexample: `t2` is incompatible with the already-active `t1`. -/
def cfgC7 : Config :=
  { nodes :=
    [ { id := "L", ntype := "layer", config := { traitIds := ["t1", "t2"] } },
      { id := "t1", ntype := "trait", config := { layerId := some "L" } },
      { id := "t2", ntype := "trait",
        config := { layerId := some "L", incompatibleWith := ["t1"] } } ] }

def tC7 : Node :=
  { id := "t2", ntype := "trait",
    config := { layerId := some "L", incompatibleWith := ["t1"] } }

def eC7 : Entity :=
  { id := "e1", layers := [("L", { active := ["t1"], lastRoll := none })] }

def mC7 : Manager := { cfg := cfgC7, stored := [("e1", eC7)] }

/-- C8 scenario: trait `T` (base weight 16) in a diminishing-returns
layer, influenced by two active sources each adding 9. -/
def cfgC8 : Config :=
  { nodes :=
    [ { id := "L", ntype := "layer",
        config := { selection := some { diminishingReturns := true }, traitIds := ["T"] } },
      { id := "L2", ntype := "layer", config := { traitIds := ["S1", "S2"] } },
      { id := "T", ntype := "trait",
        config := { layerId := some "L", selection := some { baseWeight := some 16 } } },
      { id := "S1", ntype := "trait", config := { layerId := some "L2" } },
      { id := "S2", ntype := "trait", config := { layerId := some "L2" } } ],
    relationships :=
    [ { sourceId := "S1", targetId := "T", rtype := "weight_influence",
        config := { operation := "add", value := 9 } },
      { sourceId := "S2", targetId := "T", rtype := "weight_influence",
        config := { operation := "add", value := 9 } } ] }

def eC8 : Entity :=
  { id := "e1", layers := [("L", { active := [], lastRoll := none }),
                           ("L2", { active := ["S1", "S2"], lastRoll := none })] }

def tC8 : Node :=
  { id := "T", ntype := "trait",
    config := { layerId := some "L", selection := some { baseWeight := some 16 } } }

/-- A host square root agreeing with `Math.sqrt` at the two points the
C8 scenario consults it. -/
def msqrtC8 : Rat → Rat := fun q => if q = 9 then 3 else if q = 16 then 4 else 0

/-- C9 scenario: empty config, one preset, a rule-matched pool. -/
def cfgC9 : Config := {}

def presetC9 : SM.Preset := { id := "enemy_goblin", name := some "Goblin" }

def mC9 : Manager :=
  createPool { cfg := cfgC9, presets := [("enemy_goblin", presetC9)] }
    "enemies" none { maxSize := 4 }
    (some { conditions := [{ source := "preset", pattern := "enemy_*" }] })

def acqC9_1 := acquire msqrt0 mC9 (some (Sum.inl "enemy_goblin")) {} none []
def acqC9_2 := acquire msqrt0 acqC9_1.1 (some (Sum.inl "enemy_goblin")) {} none []
def relC9_1 : Manager := (release acqC9_2.1 "entity_0" none).1
def relC9_2 : Manager := (release relC9_1 "entity_1" none).1
def acqC9_3 := acquire msqrt0 relC9_2 (some (Sum.inl "enemy_goblin")) {} none []
def acqC9_3e := acquire msqrt0 relC9_2 (some (Sum.inl "enemy_goblin")) {} (some "enemies") []


set_option maxRecDepth 10000

/-! ### C10 -/

/-- C10: for every string entity id, the `SpawnEngine` facade methods
`isActionAvailable`, `getAvailableActions`, `selectAction`,
`executeAction`, `getActionCooldown`, `rollLayer` and `rollOutcome`
throw a `TypeError` instead of returning a falsy result: they resolve
the id through `this.entityManager.getEntity`, and the `EntityManager`
class defines no `getEntity` method (its lookup method is `retrieve`).
Calls passing the entity object itself succeed. -/
theorem c10_facade_string_ids_throw :
    (∀ (m : Manager) (s actionId : String),
      SpawnEngine.isActionAvailable m (Sum.inl s) actionId
        = Except.error JsError.typeError) ∧
    (∀ (m : Manager) (s : String),
      SpawnEngine.getAvailableActions m (Sum.inl s) = Except.error JsError.typeError) ∧
    (∀ (m : Manager) (s : String) (u : Rat),
      SpawnEngine.selectAction m (Sum.inl s) u = Except.error JsError.typeError) ∧
    (∀ (m : Manager) (s actionId : String),
      SpawnEngine.executeAction m (Sum.inl s) actionId
        = Except.error JsError.typeError) ∧
    (∀ (m : Manager) (s actionId : String),
      SpawnEngine.getActionCooldown m (Sum.inl s) actionId
        = Except.error JsError.typeError) ∧
    (∀ (msqrt : Rat → Rat) (m : Manager) (s layerId : String) (n : Nat) (rolls : List Rat),
      SpawnEngine.rollOutcome msqrt m (Sum.inl s) layerId n rolls
        = Except.error JsError.typeError) ∧
    (∀ (msqrt : Rat → Rat) (m : Manager) (s layerId : String) (rolls : List Rat),
      SpawnEngine.rollLayer msqrt m (Sum.inl s) layerId rolls
        = Except.error JsError.typeError) ∧
    (∀ (m : Manager) (e : Entity) (actionId : String),
      SpawnEngine.isActionAvailable m (Sum.inr e) actionId
        = Except.ok (SM.isActionAvailable m.cfg e actionId)) ∧
    (∀ (m : Manager) (e : Entity) (actionId : String),
      SpawnEngine.executeAction m (Sum.inr e) actionId
        = Except.ok (SM.executeAction m.cfg e actionId)) ∧
    entityManagerMethods.contains "getEntity" = false ∧
    entityManagerMethods.contains "retrieve" = true := by
  have hc : entityManagerMethods.contains "getEntity" = false := by decide
  have hc' : "getEntity" ∉ entityManagerMethods := by decide
  refine ⟨?_, ?_, ?_, ?_, ?_, ?_, ?_, ?_, ?_, hc, by decide⟩ <;>
    intros <;>
    simp [SpawnEngine.isActionAvailable, SpawnEngine.getAvailableActions,
      SpawnEngine.selectAction, SpawnEngine.executeAction,
      SpawnEngine.getActionCooldown, SpawnEngine.rollOutcome,
      SpawnEngine.rollLayer, SpawnEngine.facadeResolve, hc', Except.map]

/-! ### C8 -/

/-- C8: in a diminishing-returns layer, each active, passing, flat `add`
weight influence contributes `sign(Δ)·√|Δ|·√baseWeight` instead of `Δ`,
with `baseWeight` the trait's pre-influence base weight; with base
weight 16 and two active sources adding 9 each, the effective weight is
`16 + 2·(√9·√16) = 40`.  `msqrt` is the host `Math.sqrt`, pinned at the
two points the computation consults it. -/
theorem c8_diminishing_returns (msqrt : Rat → Rat)
    (h9 : msqrt 9 = 3) (h16 : msqrt 16 = 4) :
    calculateWeight msqrt cfgC8 eC8 tC8
      = 16 + 2 * (jsSign 9 * msqrt (jsAbs 9) * msqrt 16) ∧
    calculateWeight msqrt cfgC8 eC8 tC8 = 40 := by
  have h1 : calculateWeight msqrt cfgC8 eC8 tC8
      = (if (0:Rat) ≤ 16 + jsSign 9 * msqrt (jsAbs 9) * msqrt 16
            + jsSign 9 * msqrt (jsAbs 9) * msqrt 16
         then 16 + jsSign 9 * msqrt (jsAbs 9) * msqrt 16
            + jsSign 9 * msqrt (jsAbs 9) * msqrt 16
         else 0) := rfl
  have hsign : jsSign (9:Rat) = 1 := by norm_num [jsSign]
  have habs : jsAbs (9:Rat) = 9 := by norm_num [jsAbs]
  rw [h1, hsign, habs, h9, h16]
  norm_num

/-- Witness for C8 at a concrete host square root. -/
theorem c8_diminishing_returns_witness :
    msqrtC8 9 = 3 ∧ msqrtC8 16 = 4 ∧ calculateWeight msqrtC8 cfgC8 eC8 tC8 = 40 :=
  ⟨by decide, by decide, (c8_diminishing_returns msqrtC8 (by decide) (by decide)).2⟩

/-! ### C9 -/

/-- C9 counterexample: after two acquires and two releases of
`enemy_goblin` entities (which the rules route to the `enemies` pool), a
third `acquire` with no explicit target pool draws from the default pool
(which is empty): it creates a new entity (`fromPool = false`), the
creating pool's `totalCreated` rises from 2 to 3, and the two pooled
entities in `enemies` stay untouched — contradicting the claim that the
third acquire pops a pooled entity and leaves `totalCreated` unchanged. -/
theorem c9_counterexample :
    acqC9_3.2.2.1 = false ∧
    (getPoolStats relC9_2 (some "default")).totalCreated = 2 ∧
    (getPoolStats acqC9_3.1 (some "default")).totalCreated = 3 ∧
    (getPoolStats acqC9_3.1 (some "enemies")).available = 2 := by
  refine ⟨by decide, by decide, by decide, by decide⟩

/-- C9 amended: the stats part of the claim holds
(`available = 2`, `inUse = 0` on `enemies` after both releases), and a
pooled entity is reused only when `enemies` is passed explicitly as the
target pool: that acquire pops (`fromPool = true`), decrements
`available`, and leaves every `totalCreated` counter unchanged. -/
theorem c9_pool_roundtrip_amended :
    (getPoolStats relC9_2 (some "enemies")).available = 2 ∧
    (getPoolStats relC9_2 (some "enemies")).inUse = 0 ∧
    (getPoolStats relC9_2 (some "enemies")).size = 2 ∧
    acqC9_3e.2.2.1 = true ∧
    (getPoolStats acqC9_3e.1 (some "enemies")).available = 1 ∧
    (getPoolStats acqC9_3e.1 (some "default")).totalCreated = 2 ∧
    (getPoolStats acqC9_3e.1 (some "enemies")).totalCreated = 0 := by
  refine ⟨by decide, by decide, by decide, by decide, by decide, by decide, by decide⟩


/-! ### Counterexamples for C1, C3, C4, C5, C6, C7 -/

/-- C1 counterexample: `setVariable` raises `hp` from 0 to 60, making
compound `K`'s requirement (`hp ≥ 50`) true, yet `e.compounds` stays
empty after the call returns: `setVariable` only runs
`recalculateRates` and the threshold pass, never `checkCompounds`. -/
theorem c1_counterexample :
    ((retrieve (setVariable mC1 "e1" "hp" 60).1 "e1").map Entity.compounds
      = some []) ∧
    ((retrieve (setVariable mC1 "e1" "hp" 60).1 "e1").map
        (fun e => checkCompoundRequirements cfgC1 e nodeK) = some true) := by
  refine ⟨by decide, by decide⟩

/-- C3 counterexample: both `modA` (hp ≥ 0) and `modB` (hp ≤ 100)
qualify at hp = 50 with mixed operators, and `modA` precedes `modB` in
config declaration order; the claim says `modA` should win the
exclusive group, but the arbiter keeps `modB` (the fallback picks the
head of the exclusive-group traversal, not config order). -/
theorem c3_counterexample :
    ((retrieve (checkModifierThresholds mC3x "e1").1 "e1").map Entity.modifiers
      = some ["modB"]) ∧
    (((thresholdModifiers cfgC3x).filter
        (fun nd => evaluateModifierTrigger cfgC3x eC3x nd.config.trigger)).map Node.id
      = ["modA", "modB"]) := by
  refine ⟨by decide, by decide⟩

/-- C4 counterexample: a cleanly loaded config may set `initial` above
`max`; `generate` writes the configured initial value unclamped, so the
fresh entity is observable with `value = 150 ∉ [0, 100]`. -/
theorem c4_counterexample :
    ((findA (generate msqrt0 cfgC4 {} "e1" 0 []).1.vars "w").map VarState.value
      = some 150) ∧
    ((findA (generate msqrt0 cfgC4 {} "e1" 0 []).1.vars "w").map VarState.min
      = some 0) ∧
    ((findA (generate msqrt0 cfgC4 {} "e1" 0 []).1.vars "w").map VarState.max
      = some 100) ∧
    ¬ ((150 : Rat) ≤ 100) := by
  refine ⟨by decide, by decide, by decide, by decide⟩

/-- C5 counterexample: `generate` closes with
`checkCompounds → calculateDerived → recalculateRates`, not the order
the claim states; with a compound feeding a rate modifier the two
orders produce different entities (`currentRate` 5 versus 0). -/
theorem c5_counterexample :
    ((findA (generate msqrt0 cfgC5 {} "e1" 0 []).1.vars "v").map VarState.currentRate
      = some 5) ∧
    ((findA (generateAsSpecOrdered msqrt0 cfgC5 {} "e1" 0 []).1.vars "v").map
        VarState.currentRate = some 0) ∧
    (generate msqrt0 cfgC5 {} "e1" 0 []).1
      ≠ (generateAsSpecOrdered msqrt0 cfgC5 {} "e1" 0 []).1 := by
  refine ⟨by decide, by decide, by decide⟩

/-- C6 counterexample: rollback restores the snapshotted modifier list
(empty) but runs no cascade: `currentRate` keeps the stale value 6 set
while modifier `M` was applied, whereas a fresh cascade from the
restored state yields 1. -/
theorem c6_counterexample :
    ((retrieve mC6c "e1").map Entity.modifiers = some []) ∧
    ((retrieve mC6c "e1").map
        (fun e => (findA e.vars "v").map VarState.currentRate) = some (some 6)) ∧
    ((retrieve mC6c "e1").map
        (fun e => (findA (cascadeTriple cfgC6 e).vars "v").map VarState.currentRate)
      = some (some 1)) ∧
    ((6 : Rat) ≠ 1) := by
  refine ⟨by decide, by decide, by decide, by decide⟩

/-- C7 counterexample: `activateTrait` performs no incompatibility
check: activating `t2` (incompatible with `t1`) on an entity where
`t1` is active leaves both active, breaking the claimed invariant. -/
theorem c7_counterexample :
    ((retrieve (EM.activateTrait mC7 "e1" "t2").1 "e1").map
        (fun e => (findA e.layers "L").map LayerState.active)
      = some (some ["t1", "t2"])) ∧
    tC7.config.incompatibleWith = ["t1"] ∧
    (EM.activateTrait mC7 "e1" "t2").2 = true := by
  refine ⟨by decide, by decide, by decide⟩


/-! ### C5: helper lemmas and amended theorem -/

theorem getLast_append_single {α : Type} (l : List α) (a : α) :
    (l ++ [a]).getLast? = some a := by
  exact List.getLast?_concat _

theorem log_recalcStep (cfg : Config) (acc : Entity) (n : Node) :
    (recalculateRatesStep cfg acc n).log = acc.log := by
  unfold recalculateRatesStep
  cases findA acc.vars n.id <;> rfl

theorem log_compStep (cfg : Config) (acc : Entity) (n : Node) :
    (checkCompoundsStep cfg acc n).log = acc.log := by
  unfold checkCompoundsStep
  dsimp only
  split
  · rfl
  · split <;> rfl

theorem log_derStep (cfg : Config) (acc : Entity) (n : Node) :
    (calculateDerivedStep cfg acc n).log = acc.log := by
  unfold calculateDerivedStep
  dsimp only
  split
  · rfl
  · rfl

theorem log_recalc (cfg : Config) (e : Entity) :
    (recalculateRates cfg e).log = e.log :=
  foldl_pres Entity.log (recalculateRatesStep cfg) (getVariables cfg) e
    (fun a' b _ => log_recalcStep cfg a' b)

theorem log_comp (cfg : Config) (e : Entity) :
    (checkCompounds cfg e).log = e.log :=
  foldl_pres Entity.log (checkCompoundsStep cfg) (getCompounds cfg) e
    (fun a' b _ => log_compStep cfg a' b)

theorem log_der (cfg : Config) (e : Entity) :
    (calculateDerived cfg e).log = e.log :=
  foldl_pres Entity.log (calculateDerivedStep cfg) (getDerivedNodes cfg) e
    (fun a' b _ => log_derStep cfg a' b)

theorem log_actionsFold (cfg : Config) (e : Entity) :
    ((getActions cfg).foldl (fun acc action =>
      { acc with actions := setA acc.actions action.id 0 }) e).log = e.log :=
  foldl_pres Entity.log _ (getActions cfg) e (fun _ _ _ => rfl)

theorem actionsFoldZero (l : List Node) (e : Entity) (aid : String)
    (h : aid ∈ l.map Node.id ∨ findA e.actions aid = some 0) :
    findA (l.foldl (fun acc action =>
      { acc with actions := setA acc.actions action.id 0 }) e).actions aid = some 0 := by
  induction l generalizing e with
  | nil => simpa using h.resolve_left (by simp)
  | cons a rest ih =>
    rw [List.foldl_cons]
    refine ih _ ?_
    by_cases hid : aid = a.id
    · exact Or.inr (by subst hid; exact findA_setA_self _ _ _)
    · rcases h with h | h
      · rcases List.mem_map.mp h with ⟨b, hb, hbid⟩
        rcases List.mem_cons.mp hb with hb | hb
        · exact absurd (hbid ▸ hb ▸ rfl) hid
        · exact Or.inl (List.mem_map.mpr ⟨b, hb, hbid⟩)
      · exact Or.inr (by rw [show findA (setA e.actions a.id 0) aid
          = findA e.actions aid from findA_setA_ne _ _ _ _ hid]; exact h)

/-- C5 amended: `generate` closes with the cascade triple in the order
`checkCompounds → calculateDerived → recalculateRates` (not the order
the claim states), then zeroes every configured action's cooldown and
appends `generated` to the log; `spawn` additionally appends `spawned`
as its last log entry. -/
theorem c5_generate_finish_amended :
    (∀ (msqrt : Rat → Rat) (cfg : Config) (ov : GenOverrides) (genId : String)
        (now : Rat) (rolls : List Rat),
      (generate msqrt cfg ov genId now rolls).1
        = (let e := recalculateRates cfg
              (calculateDerived cfg
                (checkCompounds cfg (generateCore msqrt cfg ov genId now rolls).1))
           let e := (getActions cfg).foldl (fun acc action =>
              { acc with actions := setA acc.actions action.id 0 }) e
           { e with log := e.log ++ ["generated"] })) ∧
    (∀ (msqrt : Rat → Rat) (cfg : Config) (ov : GenOverrides) (genId : String)
        (now : Rat) (rolls : List Rat) (aid : String),
      aid ∈ (getActions cfg).map Node.id →
      findA (generate msqrt cfg ov genId now rolls).1.actions aid = some 0) ∧
    (∀ (msqrt : Rat → Rat) (cfg : Config) (ov : GenOverrides) (genId : String)
        (now : Rat) (rolls : List Rat),
      (generate msqrt cfg ov genId now rolls).1.log.getLast? = some "generated") ∧
    (∀ (msqrt : Rat → Rat) (cfg : Config) (presets : List (String × Preset))
        (presetId : String) (sov : SpawnOverrides) (genId : String) (now : Rat)
        (rolls : List Rat) (e' : Entity),
      (spawn msqrt cfg presets presetId sov genId now rolls).1 = some e' →
      e'.log.getLast? = some "spawned") := by
  refine ⟨fun _ _ _ _ _ _ => rfl, ?_, ?_, ?_⟩
  · intro msqrt cfg ov genId now rolls aid h
    show findA (generateFinish cfg (generateCore msqrt cfg ov genId now rolls).1).actions
      aid = some 0
    unfold generateFinish
    exact actionsFoldZero _ _ _ (Or.inl h)
  · intro msqrt cfg ov genId now rolls
    show (generateFinish cfg (generateCore msqrt cfg ov genId now rolls).1).log.getLast?
      = some "generated"
    unfold generateFinish
    dsimp only
    rw [getLast_append_single]
  · intro msqrt cfg presets presetId sov genId now rolls e' h
    unfold spawn at h
    cases hf : findA presets presetId with
    | none => rw [hf] at h; exact absurd h (by simp)
    | some p =>
      rw [hf] at h
      dsimp only at h
      rw [Option.some.injEq] at h
      rw [← h]
      dsimp only
      rw [getLast_append_single]


/-- Witness scenario for C5: one action node and one preset. -/
def cfgW5 : Config :=
  { nodes := [ { id := "act", ntype := "action", config := {} } ] }

def presetW5 : SM.Preset := { id := "p" }

/-- The entity produced by the witness `spawn` call. -/
def eW5 : Entity :=
  ((spawn msqrt0 cfgW5 [("p", presetW5)] "p" {} "g1" 0 []).1).getD { id := "" }

/-- Witness for C5 at a concrete config, generation and spawn call. -/
theorem c5_generate_finish_amended_witness :
    ("act" ∈ (getActions cfgW5).map Node.id ∧
      findA (generate msqrt0 cfgW5 {} "e1" 0 []).1.actions "act" = some 0) ∧
    (generate msqrt0 cfgW5 {} "e1" 0 []).1.log.getLast? = some "generated" ∧
    ((spawn msqrt0 cfgW5 [("p", presetW5)] "p" {} "g1" 0 []).1 = some eW5 ∧
      eW5.log.getLast? = some "spawned") := by
  have hmem : "act" ∈ (getActions cfgW5).map Node.id := by decide
  have hsp : (spawn msqrt0 cfgW5 [("p", presetW5)] "p" {} "g1" 0 []).1 = some eW5 := by
    decide
  exact ⟨⟨hmem, c5_generate_finish_amended.2.1 msqrt0 cfgW5 {} "e1" 0 [] "act" hmem⟩,
    c5_generate_finish_amended.2.2.1 msqrt0 cfgW5 {} "e1" 0 [],
    hsp, c5_generate_finish_amended.2.2.2 msqrt0 cfgW5 [("p", presetW5)] "p" {} "g1" 0 []
      eW5 hsp⟩


/-! ### C6: helper definitions, lemmas and amended theorem -/

/-- One step of the variable-value restoration loop in `rollback`. -/
def rollbackVarStep (acc : Entity) (kv : String × VarState) : Entity :=
  match findA acc.vars kv.1 with
  | some vs => { acc with vars := setA acc.vars kv.1 ({ vs with value := kv.2.value }) }
  | none => acc

/-- The entity produced by `rollback` from entity `e` and snapshot `snap`. -/
def rollbackRestore (e : Entity) (snap : Snapshot) : Entity :=
  snap.state.vars.foldl rollbackVarStep
    { e with
      attributes := assignA e.attributes snap.state.attributes,
      contexts := assignA e.contexts snap.state.contexts,
      layers := snap.state.layers,
      modifiers := snap.state.modifiers,
      compounds := snap.state.compounds,
      derived := snap.state.derived }

theorem rollback_eq (m : Manager) (entityId : String) (t : Rat) (e : Entity)
    (snaps : List Snapshot) (snap : Snapshot)
    (h1 : retrieve m entityId = some e)
    (h2 : findA m.history entityId = some snaps)
    (h3 : snaps.reverse.find? (fun s => s.timestamp ≤ t) = some snap) :
    rollback m entityId t = (putEntity m (rollbackRestore e snap), true) := by
  simp only [rollback, h1, h2, h3]
  rfl

theorem rollbackVarStep_id (acc : Entity) (kv : String × VarState) :
    (rollbackVarStep acc kv).id = acc.id := by
  unfold rollbackVarStep
  cases findA acc.vars kv.1 <;> rfl

theorem rollbackVarStep_layers (acc : Entity) (kv : String × VarState) :
    (rollbackVarStep acc kv).layers = acc.layers := by
  unfold rollbackVarStep
  cases findA acc.vars kv.1 <;> rfl

theorem rollbackVarStep_modifiers (acc : Entity) (kv : String × VarState) :
    (rollbackVarStep acc kv).modifiers = acc.modifiers := by
  unfold rollbackVarStep
  cases findA acc.vars kv.1 <;> rfl

theorem rollbackVarStep_compounds (acc : Entity) (kv : String × VarState) :
    (rollbackVarStep acc kv).compounds = acc.compounds := by
  unfold rollbackVarStep
  cases findA acc.vars kv.1 <;> rfl

theorem rollbackVarStep_derived (acc : Entity) (kv : String × VarState) :
    (rollbackVarStep acc kv).derived = acc.derived := by
  unfold rollbackVarStep
  cases findA acc.vars kv.1 <;> rfl

theorem rollbackVarStep_attributes (acc : Entity) (kv : String × VarState) :
    (rollbackVarStep acc kv).attributes = acc.attributes := by
  unfold rollbackVarStep
  cases findA acc.vars kv.1 <;> rfl

theorem rollbackVarStep_contexts (acc : Entity) (kv : String × VarState) :
    (rollbackVarStep acc kv).contexts = acc.contexts := by
  unfold rollbackVarStep
  cases findA acc.vars kv.1 <;> rfl

theorem rollbackVarStep_rate (acc : Entity) (kv : String × VarState) (vid : String) :
    (findA (rollbackVarStep acc kv).vars vid).map VarState.currentRate
      = (findA acc.vars vid).map VarState.currentRate := by
  unfold rollbackVarStep
  cases h : findA acc.vars kv.1 with
  | none => rfl
  | some vs =>
    dsimp only
    by_cases hv : vid = kv.1
    · subst hv
      rw [findA_setA_self, h]
      rfl
    · rw [findA_setA_ne _ _ _ _ hv]

theorem rollbackVarStep_isSome (acc : Entity) (kv : String × VarState) (vid : String) :
    (findA (rollbackVarStep acc kv).vars vid).isSome
      = (findA acc.vars vid).isSome := by
  unfold rollbackVarStep
  cases h : findA acc.vars kv.1 with
  | none => rfl
  | some vs =>
    dsimp only
    by_cases hv : vid = kv.1
    · subst hv
      rw [findA_setA_self, h]
      rfl
    · rw [findA_setA_ne _ _ _ _ hv]

theorem rollbackFold_rate (l : List (String × VarState)) (acc : Entity) (vid : String) :
    (findA (l.foldl rollbackVarStep acc).vars vid).map VarState.currentRate
      = (findA acc.vars vid).map VarState.currentRate := by
  induction l generalizing acc with
  | nil => rfl
  | cons kv rest ih => rw [List.foldl_cons, ih, rollbackVarStep_rate]

theorem rollbackFold_not_mem (l : List (String × VarState)) (acc : Entity) (vid : String)
    (h : vid ∉ l.map Prod.fst) :
    findA (l.foldl rollbackVarStep acc).vars vid = findA acc.vars vid := by
  induction l generalizing acc with
  | nil => rfl
  | cons kv rest ih =>
    rw [List.foldl_cons, ih _ (fun hm => h (List.mem_cons_of_mem _ hm))]
    have hne : vid ≠ kv.1 := fun he => h (by simp [he])
    unfold rollbackVarStep
    cases hf : findA acc.vars kv.1 with
    | none => rfl
    | some vs =>
      dsimp only
      exact findA_setA_ne _ _ _ _ hne

theorem rollbackFold_value :
    ∀ (l : List (String × VarState)), (l.map Prod.fst).Nodup →
    ∀ (vid : String) (vs : VarState), findA l vid = some vs →
    ∀ (acc : Entity), (findA acc.vars vid).isSome = true →
    (findA (l.foldl rollbackVarStep acc).vars vid).map VarState.value
      = some vs.value := by
  intro l
  induction l with
  | nil => intro _ vid vs hf; simp [findA] at hf
  | cons kv rest ih =>
    obtain ⟨k, v⟩ := kv
    intro hnd vid vs hf acc hs
    simp only [List.map_cons, List.nodup_cons] at hnd
    simp only [findA] at hf
    rw [List.foldl_cons]
    by_cases hv : k = vid
    · rw [if_pos hv] at hf
      injection hf with hf
      subst hf
      subst hv
      rw [rollbackFold_not_mem rest _ k hnd.1]
      unfold rollbackVarStep
      dsimp only
      cases hsv : findA acc.vars k with
      | none => rw [hsv] at hs; simp at hs
      | some vs0 =>
        dsimp only
        rw [findA_setA_self]
        rfl
    · rw [if_neg hv] at hf
      refine ih hnd.2 vid vs hf _ ?_
      rw [rollbackVarStep_isSome]
      exact hs

/-- C6 amended: from the newest snapshot with `timestamp ≤ t`,
`rollback` replaces layers, modifiers, compounds and derived exactly as
snapshotted, merges attributes and contexts key-by-key over the current
state, and restores variable values; but it runs no cascade: every
variable's `currentRate` is left exactly as it was before the rollback
(stale), not recomputed.  It returns `false` when the entity, its
history, or a qualifying snapshot is absent. -/
theorem c6_rollback_amended :
    (∀ (m : Manager) (entityId : String) (t : Rat) (e : Entity)
        (snaps : List Snapshot) (snap : Snapshot),
      retrieve m entityId = some e →
      findA m.history entityId = some snaps →
      snaps.reverse.find? (fun s => s.timestamp ≤ t) = some snap →
      (rollback m entityId t).2 = true ∧
      retrieve (rollback m entityId t).1 e.id = some (rollbackRestore e snap) ∧
      (rollbackRestore e snap).layers = snap.state.layers ∧
      (rollbackRestore e snap).modifiers = snap.state.modifiers ∧
      (rollbackRestore e snap).compounds = snap.state.compounds ∧
      (rollbackRestore e snap).derived = snap.state.derived ∧
      (rollbackRestore e snap).attributes = assignA e.attributes snap.state.attributes ∧
      (rollbackRestore e snap).contexts = assignA e.contexts snap.state.contexts ∧
      (∀ vid, (findA (rollbackRestore e snap).vars vid).map VarState.currentRate
        = (findA e.vars vid).map VarState.currentRate) ∧
      ((snap.state.vars.map Prod.fst).Nodup →
        ∀ (vid : String) (vs : VarState), findA snap.state.vars vid = some vs →
        (findA e.vars vid).isSome = true →
        (findA (rollbackRestore e snap).vars vid).map VarState.value
          = some vs.value)) ∧
    (∀ (m : Manager) (entityId : String) (t : Rat),
      retrieve m entityId = none → rollback m entityId t = (m, false)) ∧
    (∀ (m : Manager) (entityId : String) (t : Rat),
      findA m.history entityId = none → rollback m entityId t = (m, false)) ∧
    (∀ (m : Manager) (entityId : String) (t : Rat) (e : Entity)
        (snaps : List Snapshot),
      retrieve m entityId = some e →
      findA m.history entityId = some snaps →
      snaps.reverse.find? (fun s => s.timestamp ≤ t) = none →
      rollback m entityId t = (m, false)) := by
  refine ⟨?_, ?_, ?_, ?_⟩
  · intro m entityId t e snaps snap h1 h2 h3
    have heq := rollback_eq m entityId t e snaps snap h1 h2 h3
    have hid : (rollbackRestore e snap).id = e.id := by
      unfold rollbackRestore
      rw [foldl_pres Entity.id rollbackVarStep _ _ (fun a' b _ => rollbackVarStep_id a' b)]
    refine ⟨by rw [heq], ?_, ?_, ?_, ?_, ?_, ?_, ?_, ?_, ?_⟩
    · rw [heq]
      show findA (setA m.stored (rollbackRestore e snap).id (rollbackRestore e snap)) e.id
        = some (rollbackRestore e snap)
      rw [hid]
      exact findA_setA_self _ _ _
    · unfold rollbackRestore
      rw [foldl_pres Entity.layers rollbackVarStep _ _
        (fun a' b _ => rollbackVarStep_layers a' b)]
    · unfold rollbackRestore
      rw [foldl_pres Entity.modifiers rollbackVarStep _ _
        (fun a' b _ => rollbackVarStep_modifiers a' b)]
    · unfold rollbackRestore
      rw [foldl_pres Entity.compounds rollbackVarStep _ _
        (fun a' b _ => rollbackVarStep_compounds a' b)]
    · unfold rollbackRestore
      rw [foldl_pres Entity.derived rollbackVarStep _ _
        (fun a' b _ => rollbackVarStep_derived a' b)]
    · unfold rollbackRestore
      rw [foldl_pres Entity.attributes rollbackVarStep _ _
        (fun a' b _ => rollbackVarStep_attributes a' b)]
    · unfold rollbackRestore
      rw [foldl_pres Entity.contexts rollbackVarStep _ _
        (fun a' b _ => rollbackVarStep_contexts a' b)]
    · intro vid
      unfold rollbackRestore
      rw [rollbackFold_rate]
    · intro hnd vid vs hf hs
      unfold rollbackRestore
      exact rollbackFold_value _ hnd vid vs hf _ hs
  · intro m entityId t h
    simp only [rollback, h]
  · intro m entityId t h
    cases hr : retrieve m entityId with
    | none => simp only [rollback, hr]
    | some e => simp only [rollback, hr, h]
  · intro m entityId t e snaps h1 h2 h3
    simp only [rollback, h1, h2, h3]


/-- The entity stored under `e1` just before the witness rollback. -/
def eC6b : Entity := (retrieve mC6b "e1").getD { id := "" }

def snapsC6 : List Snapshot := (findA mC6b.history "e1").getD []

def snapC6 : Snapshot :=
  (snapsC6.reverse.find? (fun s => s.timestamp ≤ (100 : Rat))).getD
    { timestamp := 0,
      state := { attributes := [], vars := [], contexts := [], layers := [],
                 modifiers := [], compounds := [], derived := [] } }

def vsC6 : VarState :=
  (findA snapC6.state.vars "v").getD
    { value := 0, baseRate := 0, currentRate := 0, min := 0, max := 0,
      changeMode := "", direction := "" }

/-- Witness for C6 on the snapshot/apply/rollback scenario. -/
theorem c6_rollback_amended_witness :
    retrieve mC6b "e1" = some eC6b ∧
    findA mC6b.history "e1" = some snapsC6 ∧
    snapsC6.reverse.find? (fun s => s.timestamp ≤ (100 : Rat)) = some snapC6 ∧
    (rollback mC6b "e1" 100).2 = true ∧
    retrieve (rollback mC6b "e1" 100).1 eC6b.id = some (rollbackRestore eC6b snapC6) ∧
    (∀ vid, (findA (rollbackRestore eC6b snapC6).vars vid).map VarState.currentRate
      = (findA eC6b.vars vid).map VarState.currentRate) ∧
    (snapC6.state.vars.map Prod.fst).Nodup ∧
    findA snapC6.state.vars "v" = some vsC6 ∧
    (findA (rollbackRestore eC6b snapC6).vars "v").map VarState.value
      = some vsC6.value := by
  have h1 : retrieve mC6b "e1" = some eC6b := by decide
  have h2 : findA mC6b.history "e1" = some snapsC6 := by decide
  have h3 : snapsC6.reverse.find? (fun s => s.timestamp ≤ (100 : Rat)) = some snapC6 := by
    decide
  have hnd : (snapC6.state.vars.map Prod.fst).Nodup := by decide
  have hfv : findA snapC6.state.vars "v" = some vsC6 := by decide
  have main := c6_rollback_amended.1 mC6b "e1" 100 eC6b snapsC6 snapC6 h1 h2 h3
  exact ⟨h1, h2, h3, main.1, main.2.1, main.2.2.2.2.2.2.2.2.1, hnd, hfv,
    main.2.2.2.2.2.2.2.2.2 hnd "v" vsC6 hfv (by decide)⟩


/-! ### C7: helper lemmas and amended theorem -/

theorem mem_buildWeightedPool (msqrt : Rat → Rat) (cfg : Config) (e : Entity)
    (layerId tid : String) (w : Rat)
    (h : (tid, w) ∈ buildWeightedPool msqrt cfg e layerId) :
    ∃ trait, trait ∈ getLayerTraits cfg layerId ∧ trait.id = tid ∧
      checkEligibility cfg e trait = true ∧
      hasIncompatibility cfg e trait = false ∧
      (currentActiveIn e layerId).contains tid = false := by
  unfold buildWeightedPool at h
  rcases List.mem_filterMap.mp h with ⟨trait, htr, heq⟩
  dsimp only at heq
  split_ifs at heq with h1 h2 h3 h4 h5
  all_goals try exact Option.noConfusion heq
  rw [Option.some.injEq, Prod.mk.injEq] at heq
  obtain ⟨hid, -⟩ := heq
  subst hid
  exact ⟨trait, htr, rfl, by simpa using h3, by simpa using h4, by simpa using h1⟩

theorem selectWalk_mem : ∀ (ps : List (String × Rat)) (roll : Rat) (tid : String),
    selectWalk ps roll = some tid → ∃ w, (tid, w) ∈ ps := by
  intro ps
  induction ps with
  | nil => intro roll tid h; simp [selectWalk] at h
  | cons p rest ih =>
    obtain ⟨pid, w⟩ := p
    intro roll tid h
    simp only [selectWalk] at h
    split_ifs at h with h1
    · rw [Option.some.injEq] at h
      subst h
      exact ⟨w, List.mem_cons_self _ _⟩
    · rcases ih _ _ h with ⟨w', hw⟩
      exact ⟨w', List.mem_cons_of_mem _ hw⟩

theorem head_bang_mem (ps : List (String × Rat)) (h : ps.isEmpty = false) :
    ∃ w, (ps.head!.1, w) ∈ ps := by
  cases ps with
  | nil => simp at h
  | cons p rest => exact ⟨p.2, by simp [List.head!]⟩

theorem selectWeighted_selected_mem (msqrt : Rat → Rat) (cfg : Config) (e : Entity)
    (layerId : String) (u : Rat) (tid : String)
    (h : tid ∈ (selectWeighted msqrt cfg e layerId u).selected) :
    ∃ w, (tid, w) ∈ buildWeightedPool msqrt cfg e layerId := by
  unfold selectWeighted at h
  by_cases hp : (buildWeightedPool msqrt cfg e layerId).isEmpty = true
  · rw [if_pos hp] at h
    simp at h
  · rw [if_neg hp] at h
    dsimp only at h
    cases hw : selectWalk (buildWeightedPool msqrt cfg e layerId)
        (u * ((buildWeightedPool msqrt cfg e layerId).foldl (fun sum p => sum + p.2) 0)) with
    | some tid' =>
      rw [hw] at h
      simp only [List.mem_singleton] at h
      subst h
      exact selectWalk_mem _ _ _ hw
    | none =>
      rw [hw] at h
      simp only [List.mem_singleton] at h
      subst h
      exact head_bang_mem _ (by simpa using hp)

theorem firstOk_mem (cfg : Config) (e : Entity) (ca : List String) :
    ∀ (ts : List Node) (tid : String),
    firstOk cfg e ca ts = some tid →
    ∃ trait, trait ∈ ts ∧ trait.id = tid ∧ checkEligibility cfg e trait = true ∧
      hasIncompatibility cfg e trait = false ∧ ca.contains tid = false := by
  intro ts
  induction ts with
  | nil => intro tid h; simp [firstOk] at h
  | cons trait rest ih =>
    intro tid h
    simp only [firstOk] at h
    split_ifs at h with h1 h2 h3
    · rcases ih _ h with ⟨t, ht, hrest⟩
      exact ⟨t, List.mem_cons_of_mem _ ht, hrest⟩
    · rcases ih _ h with ⟨t, ht, hrest⟩
      exact ⟨t, List.mem_cons_of_mem _ ht, hrest⟩
    · rcases ih _ h with ⟨t, ht, hrest⟩
      exact ⟨t, List.mem_cons_of_mem _ ht, hrest⟩
    · rw [Option.some.injEq] at h
      subst h
      exact ⟨trait, List.mem_cons_self _ _, rfl, by simpa using h2, by simpa using h3,
        by simpa using h1⟩

theorem pickWalk_pick_mem : ∀ (ps : List (String × Rat)) (roll : Rat) (tid : String)
    (rest' : List (String × Rat)), pickWalk ps roll = (some tid, rest') →
    ∃ w, (tid, w) ∈ ps := by
  intro ps
  induction ps with
  | nil => intro roll tid rest' h; simp [pickWalk] at h
  | cons p rest ih =>
    obtain ⟨pid, w⟩ := p
    intro roll tid rest' h
    simp only [pickWalk] at h
    split_ifs at h with h1
    · rw [Prod.mk.injEq] at h
      obtain ⟨h2, -⟩ := h
      rw [Option.some.injEq] at h2
      subst h2
      exact ⟨w, List.mem_cons_self _ _⟩
    · rcases hpw : pickWalk rest (roll - w) with ⟨picked, rest₀⟩
      rw [hpw] at h
      dsimp only at h
      rw [Prod.mk.injEq] at h
      obtain ⟨h2, -⟩ := h
      subst h2
      rcases ih _ _ _ hpw with ⟨w', hw⟩
      exact ⟨w', List.mem_cons_of_mem _ hw⟩

theorem pickWalk_rest_sub : ∀ (ps : List (String × Rat)) (roll : Rat)
    (o : Option String) (rest' : List (String × Rat)) (x : String × Rat),
    pickWalk ps roll = (o, rest') → x ∈ rest' → x ∈ ps := by
  intro ps
  induction ps with
  | nil =>
    intro roll o rest' x h hx
    simp only [pickWalk, Prod.mk.injEq] at h
    obtain ⟨-, h2⟩ := h
    subst h2
    simp at hx
  | cons p rest ih =>
    obtain ⟨pid, w⟩ := p
    intro roll o rest' x h hx
    simp only [pickWalk] at h
    split_ifs at h with h1
    · rw [Prod.mk.injEq] at h
      obtain ⟨-, h2⟩ := h
      subst h2
      exact List.mem_cons_of_mem _ hx
    · rcases hpw : pickWalk rest (roll - w) with ⟨picked, rest₀⟩
      rw [hpw] at h
      dsimp only at h
      rw [Prod.mk.injEq] at h
      obtain ⟨-, h2⟩ := h
      subst h2
      rcases List.mem_cons.mp hx with hx | hx
      · exact hx ▸ List.mem_cons_self _ _
      · exact List.mem_cons_of_mem _ (ih _ _ _ _ hpw hx)

theorem pickNLoop_mem : ∀ (k : Nat) (pool : List (String × Rat))
    (selected : List String) (rolls : List Rat) (tid : String),
    tid ∈ (pickNLoop k pool selected rolls).1 →
    tid ∈ selected ∨ ∃ w, (tid, w) ∈ pool := by
  intro k
  induction k with
  | zero => intro pool selected rolls tid h; exact Or.inl h
  | succ k' ih =>
    intro pool selected rolls tid h
    simp only [pickNLoop] at h
    split_ifs at h with h1
    · exact Or.inl h
    · rcases htr : takeRoll rolls with ⟨u, rolls'⟩
      rw [htr] at h
      dsimp only at h
      rcases hpf : pickFromPool pool u with ⟨o, pool'⟩
      rw [hpf] at h
      unfold pickFromPool at hpf
      cases o with
      | some t =>
        dsimp only at h
        rcases ih _ _ _ _ h with h2 | ⟨w, h2⟩
        · rcases List.mem_append.mp h2 with h3 | h3
          · exact Or.inl h3
          · rw [List.mem_singleton] at h3
            subst h3
            exact Or.inr (pickWalk_pick_mem pool _ _ _ hpf)
        · exact Or.inr ⟨w, pickWalk_rest_sub pool _ _ _ _ hpf h2⟩
      | none =>
        dsimp only at h
        exact ih _ _ _ _ h

theorem selectPickN_selected_mem (msqrt : Rat → Rat) (cfg : Config) (e : Entity)
    (layerId : String) (n : Nat) (rolls : List Rat) (tid : String)
    (h : tid ∈ (selectPickN msqrt cfg e layerId n rolls).1.selected) :
    ∃ w, (tid, w) ∈ (selectWeighted msqrt cfg e layerId 0).pool := by
  unfold selectPickN at h
  by_cases hp : (selectWeighted msqrt cfg e layerId 0).pool.isEmpty = true
  · rw [if_pos hp] at h
    simp at h
  · rw [if_neg hp] at h
    rcases hl : pickNLoop n (selectWeighted msqrt cfg e layerId 0).pool [] rolls
      with ⟨selected, rolls'⟩
    rw [hl] at h
    dsimp only at h
    have := pickNLoop_mem n _ [] rolls tid (by rw [hl]; exact h)
    rcases this with h2 | h2
    · simp at h2
    · exact h2

theorem selectWeighted_pool_eq (msqrt : Rat → Rat) (cfg : Config) (e : Entity)
    (layerId : String) (u : Rat)
    (hp : (buildWeightedPool msqrt cfg e layerId).isEmpty = false) :
    (selectWeighted msqrt cfg e layerId u).pool = buildWeightedPool msqrt cfg e layerId := by
  unfold selectWeighted
  rw [if_neg (by simp [hp])]
  dsimp only
  cases selectWalk (buildWeightedPool msqrt cfg e layerId)
      (u * ((buildWeightedPool msqrt cfg e layerId).foldl (fun sum p => sum + p.2) 0)) <;> rfl


theorem selectWeighted_pool_sub (msqrt : Rat → Rat) (cfg : Config) (e : Entity)
    (layerId : String) (u : Rat) (x : String × Rat)
    (h : x ∈ (selectWeighted msqrt cfg e layerId u).pool) :
    x ∈ buildWeightedPool msqrt cfg e layerId := by
  unfold selectWeighted at h
  by_cases hp : (buildWeightedPool msqrt cfg e layerId).isEmpty = true
  · rw [if_pos hp] at h
    simp at h
  · rw [if_neg hp] at h
    dsimp only at h
    cases hw : selectWalk (buildWeightedPool msqrt cfg e layerId)
        (u * ((buildWeightedPool msqrt cfg e layerId).foldl (fun sum p => sum + p.2) 0)) with
    | some tid' => rw [hw] at h; exact h
    | none => rw [hw] at h; exact h

/-- C7 amended: the four layer-selection entry points only propose
traits that pass eligibility, have no active incompatible trait, and are
not already active; but `activateTrait` itself performs no
incompatibility check: whenever the target is a trait of an existing
layer, is not already active, and replaces nothing, activation succeeds
and appends it to the layer's active list unconditionally — so a direct
`activateTrait` can break the claimed invariant (see the
counterexample). -/
theorem c7_incompatibility_amended :
    (∀ (msqrt : Rat → Rat) (cfg : Config) (e : Entity) (layerId : String) (u : Rat)
        (tid : String),
      tid ∈ (selectWeighted msqrt cfg e layerId u).selected →
      ∃ trait, trait ∈ getLayerTraits cfg layerId ∧ trait.id = tid ∧
        checkEligibility cfg e trait = true ∧ hasIncompatibility cfg e trait = false ∧
        (currentActiveIn e layerId).contains tid = false) ∧
    (∀ (cfg : Config) (e : Entity) (layerId : String) (tid : String),
      tid ∈ (selectAllMatching cfg e layerId).selected →
      ∃ trait, trait ∈ getLayerTraits cfg layerId ∧ trait.id = tid ∧
        checkEligibility cfg e trait = true ∧ hasIncompatibility cfg e trait = false ∧
        (currentActiveIn e layerId).contains tid = false) ∧
    (∀ (cfg : Config) (e : Entity) (layerId : String) (tid : String),
      tid ∈ (selectFirstMatch cfg e layerId).selected →
      ∃ trait, trait ∈ getLayerTraits cfg layerId ∧ trait.id = tid ∧
        checkEligibility cfg e trait = true ∧ hasIncompatibility cfg e trait = false ∧
        (currentActiveIn e layerId).contains tid = false) ∧
    (∀ (msqrt : Rat → Rat) (cfg : Config) (e : Entity) (layerId : String) (n : Nat)
        (rolls : List Rat) (tid : String),
      tid ∈ (selectPickN msqrt cfg e layerId n rolls).1.selected →
      ∃ trait, trait ∈ getLayerTraits cfg layerId ∧ trait.id = tid ∧
        checkEligibility cfg e trait = true ∧ hasIncompatibility cfg e trait = false ∧
        (currentActiveIn e layerId).contains tid = false) ∧
    (∀ (cfg : Config) (e : Entity) (traitId : String) (trait : Node) (layerId : String),
      getNode cfg traitId = some trait →
      isTraitNode trait = true →
      trait.config.layerId = some layerId →
      (currentActiveIn e layerId).contains traitId = false →
      (trait.config.selection.getD {}).replaces = [] →
      (SM.activateTrait cfg e traitId).2 = true ∧
      currentActiveIn (SM.activateTrait cfg e traitId).1 layerId
        = currentActiveIn e layerId ++ [traitId]) := by
  refine ⟨?_, ?_, ?_, ?_, ?_⟩
  · intro msqrt cfg e layerId u tid h
    rcases selectWeighted_selected_mem msqrt cfg e layerId u tid h with ⟨w, hw⟩
    exact mem_buildWeightedPool msqrt cfg e layerId tid w hw
  · intro cfg e layerId tid h
    unfold selectAllMatching at h
    dsimp only at h
    rcases List.mem_filterMap.mp h with ⟨trait, htr, heq⟩
    split_ifs at heq with h1 h2 h3
    all_goals try exact Option.noConfusion heq
    rw [Option.some.injEq] at heq
    subst heq
    exact ⟨trait, htr, rfl, by simpa using h2, by simpa using h3, by simpa using h1⟩
  · intro cfg e layerId tid h
    unfold selectFirstMatch at h
    dsimp only at h
    cases hfo : firstOk cfg e (currentActiveIn e layerId) (getLayerTraits cfg layerId) with
    | none => rw [hfo] at h; simp at h
    | some t =>
      rw [hfo] at h
      simp only [List.mem_singleton] at h
      subst h
      exact firstOk_mem cfg e _ _ _ hfo
  · intro msqrt cfg e layerId n rolls tid h
    rcases selectPickN_selected_mem msqrt cfg e layerId n rolls tid h with ⟨w, hw⟩
    exact mem_buildWeightedPool msqrt cfg e layerId tid w
      (selectWeighted_pool_sub msqrt cfg e layerId 0 _ hw)
  · intro cfg e traitId trait layerId h1 h2 h3 h4 h5
    cases hf : findA e.layers layerId with
    | none =>
      have hca : currentActiveIn e layerId = [] := by
        unfold currentActiveIn
        rw [hf]
      constructor
      · simp only [SM.activateTrait, h1, h2, h3, hf, h5]
        simp [findA_setA_self]
      · simp only [SM.activateTrait, h1, h2, h3, hf, h5, hca]
        simp [findA_setA_self, currentActiveIn]
    | some ls₀ =>
      have hca : currentActiveIn e layerId = ls₀.active := by
        unfold currentActiveIn
        rw [hf]
      rw [hca] at h4
      have hmem : traitId ∉ ls₀.active := by simpa using h4
      constructor
      · simp only [SM.activateTrait, h1, h2, h3, hf, h5]
        simp [hmem, hf, findA_setA_self]
      · simp only [SM.activateTrait, h1, h2, h3, hf, h5, hca]
        simp [hmem, hf, findA_setA_self, currentActiveIn]


/-- Witness entity for C7's selection conjuncts: layer `L` exists with
nothing active yet. -/
def eW7 : Entity :=
  { id := "e1", layers := [("L", { active := [], lastRoll := none })] }

/-- Witness for C7: a concrete selection membership, and a concrete
unconditional activation on the incompatible scenario. -/
theorem c7_incompatibility_amended_witness :
    ("t1" ∈ (selectAllMatching cfgC7 eW7 "L").selected ∧
      ∃ trait, trait ∈ getLayerTraits cfgC7 "L" ∧ trait.id = "t1" ∧
        checkEligibility cfgC7 eW7 trait = true ∧
        hasIncompatibility cfgC7 eW7 trait = false ∧
        (currentActiveIn eW7 "L").contains "t1" = false) ∧
    (getNode cfgC7 "t2" = some tC7 ∧ isTraitNode tC7 = true ∧
      tC7.config.layerId = some "L" ∧
      (currentActiveIn eC7 "L").contains "t2" = false ∧
      (tC7.config.selection.getD {}).replaces = [] ∧
      (SM.activateTrait cfgC7 eC7 "t2").2 = true ∧
      currentActiveIn (SM.activateTrait cfgC7 eC7 "t2").1 "L"
        = currentActiveIn eC7 "L" ++ ["t2"]) := by
  have hmem : "t1" ∈ (selectAllMatching cfgC7 eW7 "L").selected := by decide
  have h1 : getNode cfgC7 "t2" = some tC7 := by rfl
  have h2 : isTraitNode tC7 = true := by decide
  have h3 : tC7.config.layerId = some "L" := by decide
  have h4 : (currentActiveIn eC7 "L").contains "t2" = false := by decide
  have h5 : (tC7.config.selection.getD {}).replaces = [] := by decide
  have hact := c7_incompatibility_amended.2.2.2.2 cfgC7 eC7 "t2" tC7 "L" h1 h2 h3 h4 h5
  exact ⟨⟨hmem, c7_incompatibility_amended.2.1 cfgC7 eW7 "L" "t1" hmem⟩,
    h1, h2, h3, h4, h5, hact.1, hact.2⟩


/-! ### C3: insertion-sort lemmas and amended theorem -/

theorem mem_insertByValueAsc (y : Node × Rat) (l : List (Node × Rat)) (z : Node × Rat) :
    z ∈ insertByValueAsc y l ↔ z = y ∨ z ∈ l := by
  induction l with
  | nil => simp [insertByValueAsc]
  | cons x rest ih =>
    simp only [insertByValueAsc]
    split_ifs
    · simp [List.mem_cons]
    · simp only [List.mem_cons, ih]
      tauto

theorem mem_insertByValueDesc (y : Node × Rat) (l : List (Node × Rat)) (z : Node × Rat) :
    z ∈ insertByValueDesc y l ↔ z = y ∨ z ∈ l := by
  induction l with
  | nil => simp [insertByValueDesc]
  | cons x rest ih =>
    simp only [insertByValueDesc]
    split_ifs
    · simp [List.mem_cons]
    · simp only [List.mem_cons, ih]
      tauto

theorem foldInsertAsc_mem (l : List (Node × Rat)) :
    ∀ (acc : List (Node × Rat)) (z : Node × Rat),
    z ∈ l.foldl (fun a y => insertByValueAsc y a) acc ↔ z ∈ l ∨ z ∈ acc := by
  induction l with
  | nil => intro acc z; simp
  | cons y rest ih =>
    intro acc z
    rw [List.foldl_cons, ih]
    simp only [mem_insertByValueAsc, List.mem_cons]
    tauto

theorem foldInsertDesc_mem (l : List (Node × Rat)) :
    ∀ (acc : List (Node × Rat)) (z : Node × Rat),
    z ∈ l.foldl (fun a y => insertByValueDesc y a) acc ↔ z ∈ l ∨ z ∈ acc := by
  induction l with
  | nil => intro acc z; simp
  | cons y rest ih =>
    intro acc z
    rw [List.foldl_cons, ih]
    simp only [mem_insertByValueDesc, List.mem_cons]
    tauto

theorem insertAsc_min (y : Node × Rat) (xs : List (Node × Rat))
    (h : ∀ hd, xs.head? = some hd → ∀ z ∈ xs, hd.2 ≤ z.2) :
    ∀ hd, (insertByValueAsc y xs).head? = some hd →
    ∀ z ∈ insertByValueAsc y xs, hd.2 ≤ z.2 := by
  cases xs with
  | nil =>
    intro hd hhd z hz
    simp only [insertByValueAsc, List.head?_cons, Option.some.injEq] at hhd
    simp only [insertByValueAsc, List.mem_singleton] at hz
    subst hhd
    subst hz
    exact le_refl _
  | cons x rest =>
    intro hd hhd z hz
    simp only [insertByValueAsc] at hhd hz
    split_ifs at hhd hz with hlt
    · simp only [List.head?_cons, Option.some.injEq] at hhd
      subst hhd
      rcases List.mem_cons.mp hz with rfl | hz
      · exact le_refl _
      · exact le_of_lt (lt_of_lt_of_le hlt (h x rfl z hz))
    · simp only [List.head?_cons, Option.some.injEq] at hhd
      subst hhd
      rcases List.mem_cons.mp hz with rfl | hz
      · exact le_refl _
      · rcases (mem_insertByValueAsc y rest z).mp hz with rfl | hz
        · exact not_lt.mp hlt
        · exact h x rfl z (List.mem_cons_of_mem _ hz)

theorem insertDesc_max (y : Node × Rat) (xs : List (Node × Rat))
    (h : ∀ hd, xs.head? = some hd → ∀ z ∈ xs, z.2 ≤ hd.2) :
    ∀ hd, (insertByValueDesc y xs).head? = some hd →
    ∀ z ∈ insertByValueDesc y xs, z.2 ≤ hd.2 := by
  cases xs with
  | nil =>
    intro hd hhd z hz
    simp only [insertByValueDesc, List.head?_cons, Option.some.injEq] at hhd
    simp only [insertByValueDesc, List.mem_singleton] at hz
    subst hhd
    subst hz
    exact le_refl _
  | cons x rest =>
    intro hd hhd z hz
    simp only [insertByValueDesc] at hhd hz
    split_ifs at hhd hz with hlt
    · simp only [List.head?_cons, Option.some.injEq] at hhd
      subst hhd
      rcases List.mem_cons.mp hz with rfl | hz
      · exact le_refl _
      · exact le_of_lt (lt_of_le_of_lt (h x rfl z hz) hlt)
    · simp only [List.head?_cons, Option.some.injEq] at hhd
      subst hhd
      rcases List.mem_cons.mp hz with rfl | hz
      · exact le_refl _
      · rcases (mem_insertByValueDesc y rest z).mp hz with rfl | hz
        · exact not_lt.mp hlt
        · exact h x rfl z (List.mem_cons_of_mem _ hz)

theorem foldInsertAsc_min (l : List (Node × Rat)) :
    ∀ (acc : List (Node × Rat)),
    (∀ hd, acc.head? = some hd → ∀ z ∈ acc, hd.2 ≤ z.2) →
    ∀ hd, (l.foldl (fun a y => insertByValueAsc y a) acc).head? = some hd →
    ∀ z ∈ l.foldl (fun a y => insertByValueAsc y a) acc, hd.2 ≤ z.2 := by
  induction l with
  | nil => intro acc hacc; exact hacc
  | cons y rest ih =>
    intro acc hacc
    rw [List.foldl_cons]
    exact ih _ (insertAsc_min y acc hacc)

theorem foldInsertDesc_max (l : List (Node × Rat)) :
    ∀ (acc : List (Node × Rat)),
    (∀ hd, acc.head? = some hd → ∀ z ∈ acc, z.2 ≤ hd.2) →
    ∀ hd, (l.foldl (fun a y => insertByValueDesc y a) acc).head? = some hd →
    ∀ z ∈ l.foldl (fun a y => insertByValueDesc y a) acc, z.2 ≤ hd.2 := by
  induction l with
  | nil => intro acc hacc; exact hacc
  | cons y rest ih =>
    intro acc hacc
    rw [List.foldl_cons]
    exact ih _ (insertDesc_max y acc hacc)

theorem sortedAsc_spec (l : List (Node × Rat)) (hl : l ≠ []) :
    ∃ p, (l.foldl (fun a y => insertByValueAsc y a) []).head? = some p ∧
      p ∈ l ∧ ∀ z ∈ l, p.2 ≤ z.2 := by
  have hne : l.foldl (fun a y => insertByValueAsc y a) [] ≠ [] := by
    cases l with
    | nil => exact absurd rfl hl
    | cons y rest =>
      intro hemp
      have hy : y ∈ (y :: rest).foldl (fun a y => insertByValueAsc y a) [] :=
        (foldInsertAsc_mem _ _ _).mpr (Or.inl (List.mem_cons_self _ _))
      rw [hemp] at hy
      exact absurd hy (List.not_mem_nil _)
  obtain ⟨p, ps, hcons⟩ := List.exists_cons_of_ne_nil hne
  refine ⟨p, by rw [hcons]; rfl, ?_, ?_⟩
  · have hp : p ∈ l.foldl (fun a y => insertByValueAsc y a) [] := by
      rw [hcons]
      exact List.mem_cons_self _ _
    rcases (foldInsertAsc_mem _ _ _).mp hp with h | h
    · exact h
    · simp at h
  · intro z hz
    exact foldInsertAsc_min l [] (by intro hd hhd; simp at hhd) p
      (by rw [hcons]; rfl) z ((foldInsertAsc_mem _ _ _).mpr (Or.inl hz))

theorem sortedDesc_spec (l : List (Node × Rat)) (hl : l ≠ []) :
    ∃ p, (l.foldl (fun a y => insertByValueDesc y a) []).head? = some p ∧
      p ∈ l ∧ ∀ z ∈ l, z.2 ≤ p.2 := by
  have hne : l.foldl (fun a y => insertByValueDesc y a) [] ≠ [] := by
    cases l with
    | nil => exact absurd rfl hl
    | cons y rest =>
      intro hemp
      have hy : y ∈ (y :: rest).foldl (fun a y => insertByValueDesc y a) [] :=
        (foldInsertDesc_mem _ _ _).mpr (Or.inl (List.mem_cons_self _ _))
      rw [hemp] at hy
      exact absurd hy (List.not_mem_nil _)
  obtain ⟨p, ps, hcons⟩ := List.exists_cons_of_ne_nil hne
  refine ⟨p, by rw [hcons]; rfl, ?_, ?_⟩
  · have hp : p ∈ l.foldl (fun a y => insertByValueDesc y a) [] := by
      rw [hcons]
      exact List.mem_cons_self _ _
    rcases (foldInsertDesc_mem _ _ _).mp hp with h | h
    · exact h
    · simp at h
  · intro z hz
    exact foldInsertDesc_max l [] (by intro hd hhd; simp at hhd) p
      (by rw [hcons]; rfl) z ((foldInsertDesc_mem _ _ _).mpr (Or.inl hz))


/-- C3 amended: when every candidate of an exclusive group has a
single-condition trigger on one common target, the arbiter picks a
candidate with the lowest threshold if all operators are `<`/`<=`, and
one with the highest threshold if all are `>`/`>=`; in every other case
(mixed operators included) it falls back to the head of the candidate
list, which follows the exclusive-group traversal order — not config
declaration order (see the counterexample).  The hp = 15 / 45 / 90
scenario behaves as claimed. -/
theorem c3_threshold_arbiter_amended :
    (∀ (candidates : List Node) (m0 : Node) (c0 : TCond) (rest : List (Node × TCond)),
      (∀ m ∈ candidates, singleCondCount m = 1) →
      modifierConds candidates = (m0, c0) :: rest →
      rest.all (fun c => tcondTarget c.2 = tcondTarget c0) = true →
      (∀ x ∈ modifierConds candidates,
        tcondOperator x.2 = some "<=" ∨ tcondOperator x.2 = some "<") →
      ∃ winner wtc, getMostSpecificModifier candidates = some winner ∧
        (winner, wtc) ∈ modifierConds candidates ∧
        ∀ x ∈ modifierConds candidates,
          (tcondValue wtc).getD 0 ≤ (tcondValue x.2).getD 0) ∧
    (∀ (candidates : List Node) (m0 : Node) (c0 : TCond) (rest : List (Node × TCond)),
      (∀ m ∈ candidates, singleCondCount m = 1) →
      modifierConds candidates = (m0, c0) :: rest →
      rest.all (fun c => tcondTarget c.2 = tcondTarget c0) = true →
      (∀ x ∈ modifierConds candidates,
        tcondOperator x.2 = some ">=" ∨ tcondOperator x.2 = some ">") →
      ∃ winner wtc, getMostSpecificModifier candidates = some winner ∧
        (winner, wtc) ∈ modifierConds candidates ∧
        ∀ x ∈ modifierConds candidates,
          (tcondValue x.2).getD 0 ≤ (tcondValue wtc).getD 0) ∧
    (∀ (candidates : List Node) (m0 : Node) (c0 : TCond) (rest : List (Node × TCond)),
      (∀ m ∈ candidates, singleCondCount m = 1) →
      modifierConds candidates = (m0, c0) :: rest →
      rest.all (fun c => tcondTarget c.2 = tcondTarget c0) = true →
      ((modifierConds candidates).filter (fun c =>
          tcondOperator c.2 = some "<=" || tcondOperator c.2 = some "<")).length
        ≠ (modifierConds candidates).length →
      ((modifierConds candidates).filter (fun c =>
          tcondOperator c.2 = some ">=" || tcondOperator c.2 = some ">")).length
        ≠ (modifierConds candidates).length →
      getMostSpecificModifier candidates = candidates.head?) ∧
    (((retrieve mC3a "e1").map Entity.modifiers = some ["critical"]) ∧
      ((retrieve mC3b "e1").map Entity.modifiers = some ["wounded"]) ∧
      ((retrieve mC3c "e1").map Entity.modifiers = some [])) := by
  refine ⟨?_, ?_, ?_, by refine ⟨by decide, by decide, by decide⟩⟩
  · intro candidates m0 c0 rest h1 h2 h3 h4
    have hfe : candidates.filter (fun m => singleCondCount m = 1) = candidates :=
      List.filter_eq_self.mpr (fun a ha => by simp [h1 a ha])
    have hle : ((m0, c0) :: rest).filter (fun c =>
        tcondOperator c.2 = some "<=" || tcondOperator c.2 = some "<")
        = (m0, c0) :: rest := by
      apply List.filter_eq_self.mpr
      intro a ha
      rcases h4 a (h2 ▸ ha) with h | h <;> simp [h]
    have hmapne : (((m0, c0) :: rest).map
        (fun c => (c.1, (tcondValue c.2).getD 0))) ≠ [] := by simp
    obtain ⟨p, hp_head, hp_mem, hp_min⟩ := sortedAsc_spec _ hmapne
    rcases List.mem_map.mp hp_mem with ⟨c, hc_mem, hc_eq⟩
    refine ⟨c.1, c.2, ?_, ?_, ?_⟩
    · simp only [getMostSpecificModifier]
      rw [hfe, if_pos rfl, h2]
      dsimp only
      rw [if_pos h3, hle, if_pos rfl, hp_head, ← hc_eq]
      rfl
    · rw [h2]
      exact hc_mem
    · intro x hx
      have hm := hp_min ((fun c => (c.1, (tcondValue c.2).getD 0)) x)
        (List.mem_map.mpr ⟨x, h2 ▸ hx, rfl⟩)
      rw [← hc_eq] at hm
      exact hm
  · intro candidates m0 c0 rest h1 h2 h3 h4
    have hfe : candidates.filter (fun m => singleCondCount m = 1) = candidates :=
      List.filter_eq_self.mpr (fun a ha => by simp [h1 a ha])
    have hlene : (((m0, c0) :: rest).filter (fun c =>
        tcondOperator c.2 = some "<=" || tcondOperator c.2 = some "<")) = [] := by
      apply List.filter_eq_nil.mpr
      intro a ha
      rcases h4 a (h2 ▸ ha) with h | h <;> simp [h]
    have hge : ((m0, c0) :: rest).filter (fun c =>
        tcondOperator c.2 = some ">=" || tcondOperator c.2 = some ">")
        = (m0, c0) :: rest := by
      apply List.filter_eq_self.mpr
      intro a ha
      rcases h4 a (h2 ▸ ha) with h | h <;> simp [h]
    have hmapne : (((m0, c0) :: rest).map
        (fun c => (c.1, (tcondValue c.2).getD 0))) ≠ [] := by simp
    obtain ⟨p, hp_head, hp_mem, hp_max⟩ := sortedDesc_spec _ hmapne
    rcases List.mem_map.mp hp_mem with ⟨c, hc_mem, hc_eq⟩
    refine ⟨c.1, c.2, ?_, ?_, ?_⟩
    · simp only [getMostSpecificModifier]
      rw [hfe, if_pos rfl, h2]
      dsimp only
      rw [if_pos h3, hlene, if_neg (by simp), hge, if_pos rfl, hp_head, ← hc_eq]
      rfl
    · rw [h2]
      exact hc_mem
    · intro x hx
      have hm := hp_max ((fun c => (c.1, (tcondValue c.2).getD 0)) x)
        (List.mem_map.mpr ⟨x, h2 ▸ hx, rfl⟩)
      rw [← hc_eq] at hm
      exact hm
  · intro candidates m0 c0 rest h1 h2 h3 h4 h5
    have hfe : candidates.filter (fun m => singleCondCount m = 1) = candidates :=
      List.filter_eq_self.mpr (fun a ha => by simp [h1 a ha])
    rw [h2] at h4 h5
    simp only [getMostSpecificModifier]
    rw [hfe, if_pos rfl, h2]
    dsimp only
    rw [if_pos h3, if_neg h4, if_neg h5]


/-- Witness data for C3: the three wound modifiers of `cfgC3`. -/
def candsC3 : List Node := thresholdModifiers cfgC3

def m0C3 : Node :=
  { id := "lightly_wounded", ntype := "modifier",
    config := { trigger := some (trigLE 80), exclusiveWith := ["wounded", "critical"] } }

def c0C3 : TCond := TCond.single { target := "hp", operator := "<=", value := 80 }

def restC3 : List (Node × TCond) :=
  [ ({ id := "wounded", ntype := "modifier",
       config := { trigger := some (trigLE 50),
                   exclusiveWith := ["lightly_wounded", "critical"] } },
     TCond.single { target := "hp", operator := "<=", value := 50 }),
    ({ id := "critical", ntype := "modifier",
       config := { trigger := some (trigLE 20),
                   exclusiveWith := ["lightly_wounded", "wounded"] } },
     TCond.single { target := "hp", operator := "<=", value := 20 }) ]

/-- Witness for C3 on the all-`<=` wound group of `cfgC3`. -/
theorem c3_threshold_arbiter_amended_witness :
    (∀ m ∈ candsC3, singleCondCount m = 1) ∧
    modifierConds candsC3 = (m0C3, c0C3) :: restC3 ∧
    restC3.all (fun c => tcondTarget c.2 = tcondTarget c0C3) = true ∧
    (∀ x ∈ modifierConds candsC3,
      tcondOperator x.2 = some "<=" ∨ tcondOperator x.2 = some "<") ∧
    ∃ winner wtc, getMostSpecificModifier candsC3 = some winner ∧
      (winner, wtc) ∈ modifierConds candsC3 ∧
      ∀ x ∈ modifierConds candsC3,
        (tcondValue wtc).getD 0 ≤ (tcondValue x.2).getD 0 := by
  have h1 : ∀ m ∈ candsC3, singleCondCount m = 1 := by
    intro m hm
    rcases List.mem_cons.mp hm with rfl | hm
    · rfl
    · rcases List.mem_cons.mp hm with rfl | hm
      · rfl
      · rcases List.mem_cons.mp hm with rfl | hm
        · rfl
        · exact absurd hm (List.not_mem_nil _)
  have h2 : modifierConds candsC3 = (m0C3, c0C3) :: restC3 := rfl
  have h3 : restC3.all (fun c => tcondTarget c.2 = tcondTarget c0C3) = true := by decide
  have h4 : ∀ x ∈ modifierConds candsC3,
      tcondOperator x.2 = some "<=" ∨ tcondOperator x.2 = some "<" := by
    intro x hx
    rw [h2] at hx
    rcases List.mem_cons.mp hx with rfl | hx
    · exact Or.inl rfl
    · rcases List.mem_cons.mp hx with rfl | hx
      · exact Or.inl rfl
      · rcases List.mem_cons.mp hx with rfl | hx
        · exact Or.inl rfl
        · exact absurd hx (List.not_mem_nil _)
  exact ⟨h1, h2, h3, h4, c3_threshold_arbiter_amended.1 candsC3 m0C3 c0C3 restC3 h1 h2 h3 h4⟩


/-! ### C2: batching lemmas and theorem -/

theorem putEntity_batching (m : Manager) (e : Entity) :
    (putEntity m e).batchingCascade = m.batchingCascade := rfl

theorem runCascade_batching (m : Manager) (entityId : String) :
    (runCascade m entityId).batchingCascade = m.batchingCascade := by
  unfold runCascade runCascadeE
  cases retrieve m entityId
  · dsimp only
    split <;> rfl
  · dsimp only
    split <;> rfl

theorem runCascade_dirty_of_batching (m : Manager) (entityId : String)
    (h : m.batchingCascade = true) :
    (runCascade m entityId).cascadeDirty = true := by
  unfold runCascade runCascadeE
  cases retrieve m entityId
  · simp [h]
  · simp [h, putEntity]

theorem applyModifier_batching (m : Manager) (entityId modifierId : String)
    (mcfg : NodeConfig) (s : Bool) :
    (applyModifier m entityId modifierId mcfg s).1.batchingCascade
      = m.batchingCascade := by
  unfold applyModifier
  cases retrieve m entityId
  · rfl
  · dsimp only
    rw [runCascade_batching]
    rfl

theorem applyModifier_spec (m : Manager) (entityId modifierId : String)
    (mcfg : NodeConfig) (s : Bool) (h : m.batchingCascade = true) :
    ((applyModifier m entityId modifierId mcfg s).2 = true →
      (applyModifier m entityId modifierId mcfg s).1.cascadeDirty = true) ∧
    ((applyModifier m entityId modifierId mcfg s).2 = false →
      (applyModifier m entityId modifierId mcfg s).1 = m) := by
  unfold applyModifier
  cases retrieve m entityId
  · exact ⟨fun h' => absurd h' (by simp), fun _ => rfl⟩
  · refine ⟨fun _ => ?_, fun h' => absurd h' (by simp)⟩
    dsimp only
    exact runCascade_dirty_of_batching _ _ (by rw [putEntity_batching]; exact h)

theorem removeModifier_batching (m : Manager) (entityId modifierId : String) :
    (removeModifier m entityId modifierId).1.batchingCascade = m.batchingCascade := by
  unfold removeModifier
  cases retrieve m entityId
  · rfl
  · dsimp only
    split
    · rfl
    · rw [runCascade_batching]
      rfl

theorem removeModifier_spec (m : Manager) (entityId modifierId : String)
    (h : m.batchingCascade = true) :
    ((removeModifier m entityId modifierId).2 = true →
      (removeModifier m entityId modifierId).1.cascadeDirty = true) ∧
    ((removeModifier m entityId modifierId).2 = false →
      (removeModifier m entityId modifierId).1 = m) := by
  unfold removeModifier
  cases retrieve m entityId
  · exact ⟨fun h' => absurd h' (by simp), fun _ => rfl⟩
  · dsimp only
    split
    · exact ⟨fun h' => absurd h' (by simp), fun _ => rfl⟩
    · refine ⟨fun _ => ?_, fun h' => absurd h' (by simp)⟩
      exact runCascade_dirty_of_batching _ _ (by rw [putEntity_batching]; exact h)

theorem cmtApply_inv (m : Manager) (entityId modifierId : String) (mcfg : NodeConfig)
    (s : Bool) (changes : Nat) (h1 : m.batchingCascade = true)
    (h2 : m.cascadeDirty = true ↔ 0 < changes) :
    (applyModifier m entityId modifierId mcfg s).1.batchingCascade = true ∧
    ((applyModifier m entityId modifierId mcfg s).1.cascadeDirty = true ↔
      0 < (if (applyModifier m entityId modifierId mcfg s).2 then changes + 1
           else changes)) := by
  constructor
  · rw [applyModifier_batching]
    exact h1
  · cases hok : (applyModifier m entityId modifierId mcfg s).2
    · rw [(applyModifier_spec m entityId modifierId mcfg s h1).2 hok]
      simpa using h2
    · rw [(applyModifier_spec m entityId modifierId mcfg s h1).1 hok]
      simp

theorem cmtRemove_inv (m : Manager) (entityId modifierId : String) (changes : Nat)
    (h1 : m.batchingCascade = true) (h2 : m.cascadeDirty = true ↔ 0 < changes) :
    (removeModifier m entityId modifierId).1.batchingCascade = true ∧
    ((removeModifier m entityId modifierId).1.cascadeDirty = true ↔
      0 < (if (removeModifier m entityId modifierId).2 then changes + 1
           else changes)) := by
  constructor
  · rw [removeModifier_batching]
    exact h1
  · cases hok : (removeModifier m entityId modifierId).2
    · rw [(removeModifier_spec m entityId modifierId h1).2 hok]
      simpa using h2
    · rw [(removeModifier_spec m entityId modifierId h1).1 hok]
      simp

theorem cmtStep_inv (entityId : String) (gw : List (String × Bool))
    (st : Manager × Nat) (modifier : Node)
    (h1 : st.1.batchingCascade = true) (h2 : st.1.cascadeDirty = true ↔ 0 < st.2) :
    (cmtStep entityId gw st modifier).1.batchingCascade = true ∧
    ((cmtStep entityId gw st modifier).1.cascadeDirty = true ↔
      0 < (cmtStep entityId gw st modifier).2) := by
  obtain ⟨m, changes⟩ := st
  dsimp only at h1 h2
  unfold cmtStep
  dsimp only
  cases hr : retrieve m entityId with
  | none => exact ⟨h1, h2⟩
  | some e =>
    dsimp only
    cases hg : findA gw modifier.id with
    | some groupResult =>
      dsimp only
      split
      · exact cmtApply_inv m entityId modifier.id modifier.config _ changes h1 h2
      · split
        · exact cmtRemove_inv m entityId modifier.id changes h1 h2
        · exact ⟨h1, h2⟩
    | none =>
      dsimp only
      split
      · exact cmtApply_inv m entityId modifier.id modifier.config _ changes h1 h2
      · split
        · split
          · exact cmtRemove_inv m entityId modifier.id changes h1 h2
          · exact ⟨h1, h2⟩
        · exact ⟨h1, h2⟩

theorem cmtFold_inv (entityId : String) (gw : List (String × Bool)) :
    ∀ (mods : List Node) (st : Manager × Nat),
    st.1.batchingCascade = true →
    (st.1.cascadeDirty = true ↔ 0 < st.2) →
    (mods.foldl (cmtStep entityId gw) st).1.batchingCascade = true ∧
    ((mods.foldl (cmtStep entityId gw) st).1.cascadeDirty = true ↔
      0 < (mods.foldl (cmtStep entityId gw) st).2) := by
  intro mods
  induction mods with
  | nil => intro st h1 h2; exact ⟨h1, h2⟩
  | cons modifier rest ih =>
    intro st h1 h2
    rw [List.foldl_cons]
    have hstep := cmtStep_inv entityId gw st modifier h1 h2
    exact ih _ hstep.1 hstep.2


/-- C2: one `checkModifierThresholds` pass batches the cascade: the
triple runs exactly once when at least one modifier was applied or
removed, and zero times otherwise; with two non-exclusive threshold
modifiers adding `d1` and `d2` to `v`'s rate, one pass runs the triple
once, makes two changes, and leaves `currentRate = baseRate + d1 + d2`
(`baseRate = 2` in the scenario). -/
theorem c2_threshold_batching :
    (∀ (m : Manager) (entityId : String),
      (0 < (checkModifierThresholds m entityId).2.2 →
        (checkModifierThresholds m entityId).2.1 = 1) ∧
      ((checkModifierThresholds m entityId).2.2 = 0 →
        (checkModifierThresholds m entityId).2.1 = 0)) ∧
    (∀ d1 d2 : Rat,
      (checkModifierThresholds (mC2 d1 d2) "e1").2.1 = 1 ∧
      (checkModifierThresholds (mC2 d1 d2) "e1").2.2 = 2 ∧
      ((retrieve (checkModifierThresholds (mC2 d1 d2) "e1").1 "e1").map
        (fun e => (findA e.vars "v").map VarState.currentRate))
        = some (some (2 + d1 + d2))) := by
  constructor
  · intro m entityId
    unfold checkModifierThresholds
    cases hr : retrieve m entityId with
    | none => exact ⟨fun h => absurd h (by simp), fun _ => rfl⟩
    | some e0 =>
      dsimp only
      rcases hf : (thresholdModifiers m.cfg).foldl
          (cmtStep entityId (resolveExclusiveGroups m.cfg e0
            (buildExclusiveGroups (thresholdModifiers m.cfg)) (thresholdModifiers m.cfg)))
          ({ m with batchingCascade := true, cascadeDirty := false }, 0)
        with ⟨m', changes⟩
      have hinv := cmtFold_inv entityId
        (resolveExclusiveGroups m.cfg e0
          (buildExclusiveGroups (thresholdModifiers m.cfg)) (thresholdModifiers m.cfg))
        (thresholdModifiers m.cfg)
        ({ m with batchingCascade := true, cascadeDirty := false }, 0) rfl (by simp)
      rw [hf] at hinv
      dsimp only at hinv ⊢
      cases hd : m'.cascadeDirty with
      | false =>
        constructor
        · intro hpos
          simp only [Bool.false_eq_true, if_false] at hpos
          have hdt := hinv.2.mpr hpos
          rw [hd] at hdt
          exact absurd hdt (by simp)
        · intro _
          simp
      | true =>
        constructor
        · intro _
          simp
        · intro hz
          have hzc : changes = 0 := by simpa using hz
          have hlt := hinv.2.mp hd
          rw [hzc] at hlt
          exact absurd hlt (by simp)
  · intro d1 d2
    refine ⟨rfl, rfl, rfl⟩


/-- Witness for C2: the two-modifier scenario at `d1 = d2 = 1` makes two
changes (so the triple runs once), and the no-modifier manager `mC1`
makes zero changes (so the triple does not run). -/
theorem c2_threshold_batching_witness :
    (0 < (checkModifierThresholds (mC2 1 1) "e1").2.2 ∧
      (checkModifierThresholds (mC2 1 1) "e1").2.1 = 1) ∧
    ((checkModifierThresholds mC1 "e1").2.2 = 0 ∧
      (checkModifierThresholds mC1 "e1").2.1 = 0) := by
  have h1 : 0 < (checkModifierThresholds (mC2 1 1) "e1").2.2 := by decide
  have h2 : (checkModifierThresholds mC1 "e1").2.2 = 0 := by decide
  exact ⟨⟨h1, (c2_threshold_batching.1 (mC2 1 1) "e1").1 h1⟩,
    h2, (c2_threshold_batching.1 mC1 "e1").2 h2⟩


/-! ### C1: checkCompounds fixpoint lemmas and amended theorem -/

theorem checkCompoundsStep_req (cfg : Config) (acc : Entity) (c k : Node)
    (hik : ∀ (e' : Entity) (cs : List String),
      checkCompoundRequirements cfg { e' with compounds := cs } k
        = checkCompoundRequirements cfg e' k) :
    checkCompoundRequirements cfg (checkCompoundsStep cfg acc c) k
      = checkCompoundRequirements cfg acc k := by
  unfold checkCompoundsStep
  dsimp only
  split_ifs
  · exact hik acc _
  · exact hik acc _
  · rfl

theorem checkCompoundsStep_mem_ne (cfg : Config) (acc : Entity) (c : Node) (x : String)
    (hne : x ≠ c.id) :
    (x ∈ (checkCompoundsStep cfg acc c).compounds ↔ x ∈ acc.compounds) := by
  unfold checkCompoundsStep
  dsimp only
  split_ifs
  · dsimp only
    simp [List.mem_append, hne]
  · dsimp only
    exact mem_eraseFirst_ne _ _ _ hne
  · exact Iff.rfl

theorem checkCompoundsStep_nodup (cfg : Config) (acc : Entity) (c : Node)
    (hnd : acc.compounds.Nodup) : (checkCompoundsStep cfg acc c).compounds.Nodup := by
  unfold checkCompoundsStep
  dsimp only
  split_ifs with h1 h2
  · refine nodup_append_single _ _ hnd ?_
    simp only [Bool.and_eq_true] at h1
    simpa using h1.2
  · exact nodup_eraseFirst _ _ hnd
  · exact hnd

theorem checkCompoundsStep_post (cfg : Config) (acc : Entity) (c : Node)
    (hnd : acc.compounds.Nodup)
    (hic : ∀ (e' : Entity) (cs : List String),
      checkCompoundRequirements cfg { e' with compounds := cs } c
        = checkCompoundRequirements cfg e' c) :
    (c.id ∈ (checkCompoundsStep cfg acc c).compounds ↔
      checkCompoundRequirements cfg (checkCompoundsStep cfg acc c) c = true) := by
  rw [checkCompoundsStep_req cfg acc c c hic]
  unfold checkCompoundsStep
  dsimp only
  split_ifs with h1 h2
  · dsimp only
    have hm : checkCompoundRequirements cfg acc c = true := by
      simp only [Bool.and_eq_true] at h1
      exact h1.1
    simp [hm]
  · dsimp only
    have hm : checkCompoundRequirements cfg acc c = false := by
      simp only [Bool.and_eq_true] at h2
      simpa using h2.1
    simp [hm, not_mem_eraseFirst_self _ _ hnd]
  · cases hmet : checkCompoundRequirements cfg acc c with
    | true =>
      have hact : acc.compounds.contains c.id = true := by
        by_contra ha
        rw [Bool.not_eq_true] at ha
        have hnm : c.id ∉ acc.compounds := by simpa using ha
        exact h1 (by simp [hmet, hnm])
      have hmem : c.id ∈ acc.compounds := by simpa using hact
      simp [hmem]
    | false =>
      have hact : acc.compounds.contains c.id = false := by
        by_contra ha
        rw [Bool.not_eq_false] at ha
        have hm2 : c.id ∈ acc.compounds := by simpa using ha
        exact h2 (by simp [hmet, hm2])
      have hmem : c.id ∉ acc.compounds := by simpa using hact
      simp [hmem]


theorem checkCompoundsFold_pres (cfg : Config) (k : Node) :
    ∀ (l : List Node) (acc : Entity),
    (∀ c ∈ l, c.id ≠ k.id) →
    (∀ (e' : Entity) (cs : List String),
      checkCompoundRequirements cfg { e' with compounds := cs } k
        = checkCompoundRequirements cfg e' k) →
    (k.id ∈ acc.compounds ↔ checkCompoundRequirements cfg acc k = true) →
    (k.id ∈ (l.foldl (checkCompoundsStep cfg) acc).compounds ↔
      checkCompoundRequirements cfg (l.foldl (checkCompoundsStep cfg) acc) k = true) := by
  intro l
  induction l with
  | nil => intro acc _ _ h; exact h
  | cons c rest ih =>
    intro acc hne hik h
    rw [List.foldl_cons]
    refine ih _ (fun c' hc' => hne c' (List.mem_cons_of_mem _ hc')) hik ?_
    rw [checkCompoundsStep_req cfg acc c k hik,
      checkCompoundsStep_mem_ne cfg acc c k.id
        (fun he => hne c (List.mem_cons_self _ _) he.symm)]
    exact h

theorem checkCompoundsFold_nodup (cfg : Config) :
    ∀ (l : List Node) (acc : Entity), acc.compounds.Nodup →
    (l.foldl (checkCompoundsStep cfg) acc).compounds.Nodup := by
  intro l
  induction l with
  | nil => intro acc h; exact h
  | cons c rest ih =>
    intro acc h
    rw [List.foldl_cons]
    exact ih _ (checkCompoundsStep_nodup cfg acc c h)

theorem checkCompoundsFold_main (cfg : Config) :
    ∀ (l : List Node) (acc : Entity),
    (l.map Node.id).Nodup → acc.compounds.Nodup →
    (∀ c ∈ l, ∀ (e' : Entity) (cs : List String),
      checkCompoundRequirements cfg { e' with compounds := cs } c
        = checkCompoundRequirements cfg e' c) →
    ∀ k ∈ l, (k.id ∈ (l.foldl (checkCompoundsStep cfg) acc).compounds ↔
      checkCompoundRequirements cfg (l.foldl (checkCompoundsStep cfg) acc) k = true) := by
  intro l
  induction l with
  | nil => intro acc _ _ _ k hk; exact absurd hk (List.not_mem_nil _)
  | cons c rest ih =>
    intro acc hnd hacc hik k hk
    simp only [List.map_cons, List.nodup_cons] at hnd
    rw [List.foldl_cons]
    rcases List.mem_cons.mp hk with rfl | hk
    · refine checkCompoundsFold_pres cfg k rest _ ?_ (hik k (List.mem_cons_self _ _)) ?_
      · intro c' hc' he
        exact hnd.1 (he ▸ List.mem_map.mpr ⟨c', hc', rfl⟩)
      · exact checkCompoundsStep_post cfg acc k hacc (hik k (List.mem_cons_self _ _))
    · exact ih _ hnd.2 (checkCompoundsStep_nodup cfg acc c hacc)
        (fun c' hc' => hik c' (List.mem_cons_of_mem _ hc')) k hk

/-- C1 amended: the `k ∈ compounds ⟺ requirements(k)` invariant is
(re)established by `checkCompounds` — for configs whose compound ids are
distinct, entities whose compound list has no duplicates, and
requirements that do not themselves read the compound list — but it is
not maintained by every public mutation: `setVariable` runs only
`recalculateRates`, the threshold pass and `calculateDerived`, never
`checkCompounds`, so the invariant can be false when the call returns
(see the counterexample); running `checkCompounds` afterwards repairs
the counterexample state. -/
theorem c1_compound_invariant_amended :
    (∀ (cfg : Config) (e : Entity),
      ((getCompounds cfg).map Node.id).Nodup →
      e.compounds.Nodup →
      (∀ c ∈ getCompounds cfg, ∀ (e' : Entity) (cs : List String),
        checkCompoundRequirements cfg { e' with compounds := cs } c
          = checkCompoundRequirements cfg e' c) →
      ∀ k ∈ getCompounds cfg,
        (k.id ∈ (checkCompounds cfg e).compounds ↔
          checkCompoundRequirements cfg (checkCompounds cfg e) k = true)) ∧
    ((retrieve (setVariable mC1 "e1" "hp" 60).1 "e1").map
        (fun e => (checkCompounds cfgC1 e).compounds) = some ["K"] ∧
      (retrieve (setVariable mC1 "e1" "hp" 60).1 "e1").map
        (fun e => checkCompoundRequirements cfgC1 (checkCompounds cfgC1 e) nodeK)
        = some true) := by
  constructor
  · intro cfg e hnd hacc hik k hk
    exact checkCompoundsFold_main cfg (getCompounds cfg) e hnd hacc hik k hk
  · exact ⟨by decide, by decide⟩


/-- The broken entity of the C1 counterexample (after `setVariable`). -/
def eC1x : Entity := (retrieve (setVariable mC1 "e1" "hp" 60).1 "e1").getD { id := "" }

/-- Witness for C1 on the counterexample state: `checkCompounds`
re-establishes the invariant for compound `K`. -/
theorem c1_compound_invariant_amended_witness :
    ((getCompounds cfgC1).map Node.id).Nodup ∧
    eC1x.compounds.Nodup ∧
    (∀ c ∈ getCompounds cfgC1, ∀ (e' : Entity) (cs : List String),
      checkCompoundRequirements cfgC1 { e' with compounds := cs } c
        = checkCompoundRequirements cfgC1 e' c) ∧
    nodeK ∈ getCompounds cfgC1 ∧
    (nodeK.id ∈ (checkCompounds cfgC1 eC1x).compounds ↔
      checkCompoundRequirements cfgC1 (checkCompounds cfgC1 eC1x) nodeK = true) := by
  have h1 : ((getCompounds cfgC1).map Node.id).Nodup := by decide
  have h2 : eC1x.compounds.Nodup := by decide
  have hsing : getCompounds cfgC1 = [nodeK] := rfl
  have h3 : ∀ c ∈ getCompounds cfgC1, ∀ (e' : Entity) (cs : List String),
      checkCompoundRequirements cfgC1 { e' with compounds := cs } c
        = checkCompoundRequirements cfgC1 e' c := by
    intro c hc e' cs
    rw [hsing] at hc
    rcases List.mem_cons.mp hc with rfl | hc
    · rfl
    · exact absurd hc (List.not_mem_nil _)
  have h4 : nodeK ∈ getCompounds cfgC1 := by
    rw [hsing]
    exact List.mem_cons_self _ _
  exact ⟨h1, h2, h3, h4,
    c1_compound_invariant_amended.1 cfgC1 eC1x h1 h2 h3 nodeK h4⟩


/-! ### C4: value/min/max preservation lemmas and amended theorem -/

/-- The `(value, min, max)` triple of one variable state. -/
def vmmP (v : VarState) : Rat × Rat × Rat := (v.value, v.min, v.max)

/-- The `(value, min, max)` view of an entity's variables. -/
def vmm (e : Entity) : List (String × (Rat × Rat × Rat)) :=
  e.vars.map (fun kv => (kv.1, vmmP kv.2))

/-- Storage is keyed by entity id (maintained by every `putEntity`). -/
def wfStored (m : Manager) : Prop :=
  ∀ k e, findA m.stored k = some e → e.id = k

theorem findA_map_proj {α β : Type} (f : α → β) (l : List (String × α)) (k : String) :
    findA (l.map (fun kv => (kv.1, f kv.2))) k = (findA l k).map f := by
  induction l with
  | nil => rfl
  | cons kv rest ih =>
    obtain ⟨k', v⟩ := kv
    simp only [List.map_cons, findA]
    split_ifs with h
    · rfl
    · exact ih

theorem wf_putEntity (m : Manager) (e : Entity) (h : wfStored m) :
    wfStored (putEntity m e) := by
  intro k e' hk
  unfold putEntity at hk
  dsimp only at hk
  by_cases hke : k = e.id
  · subst hke
    rw [findA_setA_self] at hk
    injection hk with hk
    rw [← hk]
  · rw [findA_setA_ne _ _ _ _ hke] at hk
    exact h k e' hk

theorem vmm_recalcStep (cfg : Config) (acc : Entity) (n : Node) :
    vmm (recalculateRatesStep cfg acc n) = vmm acc := by
  unfold recalculateRatesStep
  cases h : findA acc.vars n.id with
  | none => rfl
  | some vs =>
    dsimp only
    unfold vmm
    exact setA_map_proj vmmP acc.vars n.id vs _ h rfl

theorem vmm_compStep (cfg : Config) (acc : Entity) (n : Node) :
    vmm (checkCompoundsStep cfg acc n) = vmm acc := by
  unfold checkCompoundsStep
  dsimp only
  split_ifs <;> rfl

theorem vmm_derStep (cfg : Config) (acc : Entity) (n : Node) :
    vmm (calculateDerivedStep cfg acc n) = vmm acc := by
  unfold calculateDerivedStep
  dsimp only
  split
  · rfl
  · rfl

theorem vmm_cascadeTriple (cfg : Config) (e : Entity) : vmm (cascadeTriple cfg e) = vmm e := by
  unfold cascadeTriple recalculateRates checkCompounds calculateDerived
  rw [foldl_pres vmm (calculateDerivedStep cfg) _ _ (fun a b _ => vmm_derStep cfg a b),
    foldl_pres vmm (checkCompoundsStep cfg) _ _ (fun a b _ => vmm_compStep cfg a b),
    foldl_pres vmm (recalculateRatesStep cfg) _ _ (fun a b _ => vmm_recalcStep cfg a b)]

theorem id_recalcStep (cfg : Config) (acc : Entity) (n : Node) :
    (recalculateRatesStep cfg acc n).id = acc.id := by
  unfold recalculateRatesStep
  cases findA acc.vars n.id <;> rfl

theorem id_compStep (cfg : Config) (acc : Entity) (n : Node) :
    (checkCompoundsStep cfg acc n).id = acc.id := by
  unfold checkCompoundsStep
  dsimp only
  split_ifs <;> rfl

theorem id_derStep (cfg : Config) (acc : Entity) (n : Node) :
    (calculateDerivedStep cfg acc n).id = acc.id := by
  unfold calculateDerivedStep
  dsimp only
  split
  · rfl
  · rfl

theorem id_cascadeTriple (cfg : Config) (e : Entity) : (cascadeTriple cfg e).id = e.id := by
  unfold cascadeTriple recalculateRates checkCompounds calculateDerived
  rw [foldl_pres Entity.id (calculateDerivedStep cfg) _ _ (fun a b _ => id_derStep cfg a b),
    foldl_pres Entity.id (checkCompoundsStep cfg) _ _ (fun a b _ => id_compStep cfg a b),
    foldl_pres Entity.id (recalculateRatesStep cfg) _ _ (fun a b _ => id_recalcStep cfg a b)]

theorem sm_deactivateTrait_p (cfg : Config) (e : Entity) (traitId : String) :
    ((SM.deactivateTrait cfg e traitId).1.vars, (SM.deactivateTrait cfg e traitId).1.id)
      = (e.vars, e.id) := by
  unfold SM.deactivateTrait
  cases getNode cfg traitId with
  | none => rfl
  | some trait =>
    dsimp only
    split
    · rfl
    · cases trait.config.layerId with
      | none => rfl
      | some layerId =>
        dsimp only
        cases findA e.layers layerId with
        | none => rfl
        | some ls =>
          dsimp only
          split
          · rfl
          · rfl

theorem sm_activateTrait_p (cfg : Config) (e : Entity) (traitId : String) :
    ((SM.activateTrait cfg e traitId).1.vars, (SM.activateTrait cfg e traitId).1.id)
      = (e.vars, e.id) := by
  have hfold : ∀ (l : List String) (a : Entity),
      ((l.foldl (fun acc rid => (SM.deactivateTrait cfg acc rid).1) a).vars,
       (l.foldl (fun acc rid => (SM.deactivateTrait cfg acc rid).1) a).id)
        = (a.vars, a.id) :=
    fun l a => foldl_pres (fun e => (e.vars, e.id)) _ l a
      (fun a' b _ => sm_deactivateTrait_p cfg a' b)
  unfold SM.activateTrait
  cases getNode cfg traitId with
  | none => rfl
  | some trait =>
    dsimp only
    split
    · rfl
    · cases trait.config.layerId with
      | none => rfl
      | some layerId =>
        dsimp only
        split_ifs <;> first | rfl | exact hfold _ _


theorem putEntity_keep (m : Manager) (e e0 : Entity) (k0 : String)
    (h : wfStored m) (hfind : findA m.stored k0 = some e0)
    (hid : e.id = k0) (hvmm : vmm e = vmm e0) :
    wfStored (putEntity m e) ∧
    ∀ k, (findA (putEntity m e).stored k).map vmm = (findA m.stored k).map vmm := by
  refine ⟨wf_putEntity m e h, ?_⟩
  intro k
  unfold putEntity
  dsimp only
  by_cases hk : k = e.id
  · subst hk
    rw [findA_setA_self, hid, hfind]
    simpa using hvmm
  · rw [findA_setA_ne _ _ _ _ hk]

theorem runCascade_keep (m : Manager) (eid : String) (h : wfStored m) :
    wfStored (runCascade m eid) ∧
    ∀ k, (findA (runCascade m eid).stored k).map vmm
      = (findA m.stored k).map vmm := by
  unfold runCascade
  cases hr : retrieve m eid with
  | none =>
    dsimp only
    split
    · exact ⟨h, fun _ => rfl⟩
    · exact ⟨h, fun _ => rfl⟩
  | some e =>
    dsimp only
    unfold runCascadeE
    by_cases hb : m.batchingCascade = true
    · rw [if_pos hb]
      dsimp only
      exact putEntity_keep { m with cascadeDirty := true } e e eid h hr (h eid e hr) rfl
    · rw [if_neg hb]
      dsimp only
      exact putEntity_keep m (cascadeTriple m.cfg e) e eid h hr
        ((id_cascadeTriple m.cfg e).trans (h eid e hr)) (vmm_cascadeTriple m.cfg e)

theorem applyModifier_keep (m : Manager) (eid mid : String) (mcfg : NodeConfig)
    (s : Bool) (h : wfStored m) :
    wfStored (applyModifier m eid mid mcfg s).1 ∧
    ∀ k, (findA (applyModifier m eid mid mcfg s).1.stored k).map vmm
      = (findA m.stored k).map vmm := by
  unfold applyModifier
  cases hr : retrieve m eid with
  | none => exact ⟨h, fun _ => rfl⟩
  | some e =>
    dsimp only
    have hkeep : ∀ (e₂ : Entity), vmm e₂ = vmm e → e₂.id = e.id →
        wfStored (runCascade (putEntity m e₂) eid) ∧
        ∀ k, (findA (runCascade (putEntity m e₂) eid).stored k).map vmm
          = (findA m.stored k).map vmm := by
      intro e₂ hv hid
      have hput := putEntity_keep m e₂ e eid h hr (hid.trans (h eid e hr)) hv
      have hrc := runCascade_keep (putEntity m e₂) eid hput.1
      exact ⟨hrc.1, fun k => (hrc.2 k).trans (hput.2 k)⟩
    cases (if e.modifiers.contains mid then findA e.modifierStates mid else none) with
    | some modState =>
      dsimp only
      split_ifs <;> exact hkeep _ rfl rfl
    | none =>
      dsimp only
      exact hkeep _ rfl rfl

theorem removeModifier_keep (m : Manager) (eid mid : String) (h : wfStored m) :
    wfStored (removeModifier m eid mid).1 ∧
    ∀ k, (findA (removeModifier m eid mid).1.stored k).map vmm
      = (findA m.stored k).map vmm := by
  unfold removeModifier
  cases hr : retrieve m eid with
  | none => exact ⟨h, fun _ => rfl⟩
  | some e =>
    dsimp only
    split
    · exact ⟨h, fun _ => rfl⟩
    · have hput := putEntity_keep m
        { e with modifiers := eraseFirst e.modifiers mid,
                 modifierStates := e.modifierStates.filter (fun kv => kv.1 ≠ mid) }
        e eid h hr (h eid e hr) rfl
      have hrc := runCascade_keep _ eid hput.1
      exact ⟨hrc.1, fun k => (hrc.2 k).trans (hput.2 k)⟩

theorem em_activateTrait_keep (m : Manager) (eid tid : String) (h : wfStored m) :
    wfStored (EM.activateTrait m eid tid).1 ∧
    ∀ k, (findA (EM.activateTrait m eid tid).1.stored k).map vmm
      = (findA m.stored k).map vmm := by
  unfold EM.activateTrait
  cases hr : retrieve m eid with
  | none => exact ⟨h, fun _ => rfl⟩
  | some e =>
    dsimp only
    rcases hsm : SM.activateTrait m.cfg e tid with ⟨e', result⟩
    dsimp only
    have hp := sm_activateTrait_p m.cfg e tid
    rw [hsm] at hp
    dsimp only at hp
    rw [Prod.mk.injEq] at hp
    have hvmm : vmm e' = vmm e := by unfold vmm; rw [hp.1]
    have hput := putEntity_keep m e' e eid h hr (hp.2.trans (h eid e hr)) hvmm
    cases result with
    | true =>
      have hrc := runCascade_keep (putEntity m e') eid hput.1
      exact ⟨hrc.1, fun k => (hrc.2 k).trans (hput.2 k)⟩
    | false =>
      exact hput

theorem em_deactivateTrait_keep (m : Manager) (eid tid : String) (h : wfStored m) :
    wfStored (EM.deactivateTrait m eid tid).1 ∧
    ∀ k, (findA (EM.deactivateTrait m eid tid).1.stored k).map vmm
      = (findA m.stored k).map vmm := by
  unfold EM.deactivateTrait
  cases hr : retrieve m eid with
  | none => exact ⟨h, fun _ => rfl⟩
  | some e =>
    dsimp only
    rcases hsm : SM.deactivateTrait m.cfg e tid with ⟨e', result⟩
    dsimp only
    have hp := sm_deactivateTrait_p m.cfg e tid
    rw [hsm] at hp
    dsimp only at hp
    rw [Prod.mk.injEq] at hp
    have hvmm : vmm e' = vmm e := by unfold vmm; rw [hp.1]
    have hput := putEntity_keep m e' e eid h hr (hp.2.trans (h eid e hr)) hvmm
    cases result with
    | true =>
      have hrc := runCascade_keep (putEntity m e') eid hput.1
      exact ⟨hrc.1, fun k => (hrc.2 k).trans (hput.2 k)⟩
    | false =>
      exact hput


theorem vmm_calculateDerived (cfg : Config) (e : Entity) :
    vmm (calculateDerived cfg e) = vmm e := by
  unfold calculateDerived
  rw [foldl_pres vmm (calculateDerivedStep cfg) _ _ (fun a b _ => vmm_derStep cfg a b)]

theorem id_calculateDerived (cfg : Config) (e : Entity) :
    (calculateDerived cfg e).id = e.id := by
  unfold calculateDerived
  rw [foldl_pres Entity.id (calculateDerivedStep cfg) _ _ (fun a b _ => id_derStep cfg a b)]

theorem checkThresholdsStep_keep (eid : String) (vs : VarState) (mm : Manager)
    (trait : Node) (h : wfStored mm) :
    wfStored (checkThresholdsStep eid vs mm trait) ∧
    ∀ k, (findA (checkThresholdsStep eid vs mm trait).stored k).map vmm
      = (findA mm.stored k).map vmm := by
  unfold checkThresholdsStep
  cases retrieve mm eid with
  | none => exact ⟨h, fun _ => rfl⟩
  | some e =>
    dsimp only
    split_ifs <;> first
      | exact ⟨h, fun _ => rfl⟩
      | exact em_activateTrait_keep mm eid trait.id h
      | exact em_deactivateTrait_keep mm eid trait.id h
      | (have ha := em_activateTrait_keep mm eid trait.id h
         have hd := em_deactivateTrait_keep _ eid trait.id ha.1
         exact ⟨hd.1, fun k => (hd.2 k).trans (ha.2 k)⟩)

theorem foldKeep {β : Type} (step : Manager → β → Manager)
    (hstep : ∀ mm b, wfStored mm → wfStored (step mm b) ∧
      ∀ k, (findA (step mm b).stored k).map vmm = (findA mm.stored k).map vmm) :
    ∀ (l : List β) (mm : Manager), wfStored mm →
    wfStored (l.foldl step mm) ∧
    ∀ k, (findA (l.foldl step mm).stored k).map vmm = (findA mm.stored k).map vmm := by
  intro l
  induction l with
  | nil => intro mm h; exact ⟨h, fun _ => rfl⟩
  | cons b rest ih =>
    intro mm h
    rw [List.foldl_cons]
    have h1 := hstep mm b h
    have h2 := ih _ h1.1
    exact ⟨h2.1, fun k => (h2.2 k).trans (h1.2 k)⟩

theorem checkThresholds_keep (m : Manager) (eid varId : String) (h : wfStored m) :
    wfStored (checkThresholds m eid varId) ∧
    ∀ k, (findA (checkThresholds m eid varId).stored k).map vmm
      = (findA m.stored k).map vmm := by
  unfold checkThresholds
  cases retrieve m eid with
  | none => exact ⟨h, fun _ => rfl⟩
  | some e0 =>
    dsimp only
    cases findA e0.vars varId with
    | none => exact ⟨h, fun _ => rfl⟩
    | some varState =>
      exact foldKeep (checkThresholdsStep eid varState)
        (fun mm b hm => checkThresholdsStep_keep eid varState mm b hm) _ m h

theorem cmtStep_keep (eid : String) (gw : List (String × Bool)) (st : Manager × Nat)
    (modifier : Node) (h : wfStored st.1) :
    wfStored (cmtStep eid gw st modifier).1 ∧
    ∀ k, (findA (cmtStep eid gw st modifier).1.stored k).map vmm
      = (findA st.1.stored k).map vmm := by
  obtain ⟨m, changes⟩ := st
  dsimp only at h
  unfold cmtStep
  dsimp only
  cases retrieve m eid with
  | none => exact ⟨h, fun _ => rfl⟩
  | some e =>
    dsimp only
    cases findA gw modifier.id with
    | some groupResult =>
      dsimp only
      split
      · exact applyModifier_keep m eid modifier.id modifier.config _ h
      · split
        · exact removeModifier_keep m eid modifier.id h
        · exact ⟨h, fun _ => rfl⟩
    | none =>
      dsimp only
      split
      · exact applyModifier_keep m eid modifier.id modifier.config _ h
      · split
        · split
          · exact removeModifier_keep m eid modifier.id h
          · exact ⟨h, fun _ => rfl⟩
        · exact ⟨h, fun _ => rfl⟩

theorem cmtFold_keep (eid : String) (gw : List (String × Bool)) :
    ∀ (mods : List Node) (st : Manager × Nat), wfStored st.1 →
    wfStored (mods.foldl (cmtStep eid gw) st).1 ∧
    ∀ k, (findA (mods.foldl (cmtStep eid gw) st).1.stored k).map vmm
      = (findA st.1.stored k).map vmm := by
  intro mods
  induction mods with
  | nil => intro st h; exact ⟨h, fun _ => rfl⟩
  | cons b rest ih =>
    intro st h
    rw [List.foldl_cons]
    have h1 := cmtStep_keep eid gw st b h
    have h2 := ih _ h1.1
    exact ⟨h2.1, fun k => (h2.2 k).trans (h1.2 k)⟩

theorem checkModifierThresholds_keep (m : Manager) (eid : String) (h : wfStored m) :
    wfStored (checkModifierThresholds m eid).1 ∧
    ∀ k, (findA (checkModifierThresholds m eid).1.stored k).map vmm
      = (findA m.stored k).map vmm := by
  unfold checkModifierThresholds
  cases hr : retrieve m eid with
  | none => exact ⟨h, fun _ => rfl⟩
  | some e0 =>
    dsimp only
    rcases hf : (thresholdModifiers m.cfg).foldl
        (cmtStep eid (resolveExclusiveGroups m.cfg e0
          (buildExclusiveGroups (thresholdModifiers m.cfg)) (thresholdModifiers m.cfg)))
        ({ m with batchingCascade := true, cascadeDirty := false }, 0)
      with ⟨m', changes⟩
    have hfold := cmtFold_keep eid
      (resolveExclusiveGroups m.cfg e0
        (buildExclusiveGroups (thresholdModifiers m.cfg)) (thresholdModifiers m.cfg))
      (thresholdModifiers m.cfg)
      ({ m with batchingCascade := true, cascadeDirty := false }, 0) h
    rw [hf] at hfold
    dsimp only at hfold ⊢
    cases hd : m'.cascadeDirty with
    | false => exact hfold
    | true =>
      cases hr2 : retrieve { m' with batchingCascade := false, cascadeDirty := false } eid
        with
      | none => exact hfold
      | some e' =>
        have hput := putEntity_keep
          { m' with batchingCascade := false, cascadeDirty := false }
          (cascadeTriple m'.cfg e') e' eid hfold.1 hr2
          ((id_cascadeTriple m'.cfg e').trans (hfold.1 eid e' hr2))
          (vmm_cascadeTriple m'.cfg e')
        exact ⟨hput.1, fun k => (hput.2 k).trans (hfold.2 k)⟩


/-- The post-write pipeline shared by `setVariable` and `modifyVariable`. -/
theorem varPipeline_keep (m₂ : Manager) (entityId varId : String) (h : wfStored m₂) :
    wfStored (match retrieve ((checkModifierThresholds
        (checkThresholds m₂ entityId varId) entityId).1) entityId with
      | some e' => putEntity ((checkModifierThresholds
          (checkThresholds m₂ entityId varId) entityId).1)
          (calculateDerived ((checkModifierThresholds
            (checkThresholds m₂ entityId varId) entityId).1).cfg e')
      | none => (checkModifierThresholds
          (checkThresholds m₂ entityId varId) entityId).1) ∧
    ∀ k, (findA (match retrieve ((checkModifierThresholds
        (checkThresholds m₂ entityId varId) entityId).1) entityId with
      | some e' => putEntity ((checkModifierThresholds
          (checkThresholds m₂ entityId varId) entityId).1)
          (calculateDerived ((checkModifierThresholds
            (checkThresholds m₂ entityId varId) entityId).1).cfg e')
      | none => (checkModifierThresholds
          (checkThresholds m₂ entityId varId) entityId).1).stored k).map vmm
      = (findA m₂.stored k).map vmm := by
  have h3 := checkThresholds_keep m₂ entityId varId h
  have h4 := checkModifierThresholds_keep (checkThresholds m₂ entityId varId) entityId h3.1
  cases hr : retrieve ((checkModifierThresholds
      (checkThresholds m₂ entityId varId) entityId).1) entityId with
  | none => exact ⟨h4.1, fun k => (h4.2 k).trans (h3.2 k)⟩
  | some e' =>
    have hput := putEntity_keep _ (calculateDerived ((checkModifierThresholds
        (checkThresholds m₂ entityId varId) entityId).1).cfg e') e' entityId h4.1 hr
      ((id_calculateDerived _ e').trans (h4.1 entityId e' hr))
      (vmm_calculateDerived _ e')
    exact ⟨hput.1, fun k => ((hput.2 k).trans (h4.2 k)).trans (h3.2 k)⟩

theorem extract_vmm (mf m₂ : Manager) (entityId varId : String) (e₂ : Entity)
    (trip : Rat × Rat × Rat)
    (hproj : ∀ k, (findA mf.stored k).map vmm = (findA m₂.stored k).map vmm)
    (hm₂ : findA m₂.stored entityId = some e₂)
    (hv : findA (vmm e₂) varId = some trip) :
    ∃ e' vs', findA mf.stored entityId = some e' ∧ findA e'.vars varId = some vs' ∧
      vmmP vs' = trip := by
  have h1 : (findA mf.stored entityId).map vmm = some (vmm e₂) := by
    rw [hproj, hm₂]
    rfl
  rcases Option.map_eq_some'.mp h1 with ⟨e', he', hve⟩
  have h2 : (findA e'.vars varId).map vmmP = some trip := by
    rw [← findA_map_proj vmmP e'.vars varId]
    show findA (vmm e') varId = some trip
    rw [hve]
    exact hv
  rcases Option.map_eq_some'.mp h2 with ⟨vs', hvs', hp⟩
  exact ⟨e', vs', he', hvs', hp⟩

/-- The variable state written by a clamped variable write. -/
def clampedVS (vs : VarState) (newv : Rat) : VarState :=
  { vs with value := max vs.min (min vs.max newv) }

/-- The entity after a clamped variable write. -/
def clampedEntity (e : Entity) (varId : String) (vs : VarState) (newv : Rat) : Entity :=
  { e with vars := setA e.vars varId (clampedVS vs newv) }

/-- The tail both `setVariable` and `modifyVariable` share: clamped
write, then (when the value changed) thresholds, modifier thresholds
and a derived recomputation. -/
def clampedWrite (m : Manager) (entityId varId : String) (e : Entity) (vs : VarState)
    (newv : Rat) : Manager :=
  let m₂ := putEntity m (clampedEntity e varId vs newv)
  if max vs.min (min vs.max newv) ≠ vs.value then
    let m₃ := checkThresholds m₂ entityId varId
    let m₄ := (checkModifierThresholds m₃ entityId).1
    match retrieve m₄ entityId with
    | some e' => putEntity m₄ (calculateDerived m₄.cfg e')
    | none => m₄
  else m₂

theorem clampedWrite_spec (m : Manager) (entityId varId : String) (e : Entity)
    (vs : VarState) (newv : Rat) (hw : wfStored m)
    (hre : retrieve m entityId = some e) :
    ∃ e' vs', findA (clampedWrite m entityId varId e vs newv).stored entityId = some e' ∧
      findA e'.vars varId = some vs' ∧
      vmmP vs' = (max vs.min (min vs.max newv), vs.min, vs.max) := by
  unfold clampedWrite
  dsimp only
  have hid₂ : (clampedEntity e varId vs newv).id = entityId := hw entityId e hre
  have hm₂ : findA (putEntity m (clampedEntity e varId vs newv)).stored entityId
      = some (clampedEntity e varId vs newv) := by
    unfold putEntity
    dsimp only
    rw [hid₂]
    exact findA_setA_self _ _ _
  have hwf₂ : wfStored (putEntity m (clampedEntity e varId vs newv)) :=
    wf_putEntity m _ hw
  have hvmm₂ : findA (vmm (clampedEntity e varId vs newv)) varId
      = some (max vs.min (min vs.max newv), vs.min, vs.max) := by
    show findA ((setA e.vars varId (clampedVS vs newv)).map
      (fun kv => (kv.1, vmmP kv.2))) varId = _
    rw [findA_map_proj, findA_setA_self]
    rfl
  by_cases hb : max vs.min (min vs.max newv) ≠ vs.value
  · rw [if_pos hb]
    have hpipe := varPipeline_keep (putEntity m (clampedEntity e varId vs newv))
      entityId varId hwf₂
    exact extract_vmm _ _ entityId varId _ _ hpipe.2 hm₂ hvmm₂
  · rw [if_neg hb]
    exact ⟨_, clampedVS vs newv, hm₂, findA_setA_self _ _ _, rfl⟩

theorem setVariable_eq_clampedWrite (m : Manager) (entityId varId : String)
    (value : Rat) (e : Entity) (vs : VarState)
    (hre : retrieve m entityId = some e) (hfv : findA e.vars varId = some vs) :
    setVariable m entityId varId value
      = (clampedWrite m entityId varId e vs value, true) := by
  unfold setVariable clampedWrite clampedEntity clampedVS
  rw [hre]
  dsimp only
  rw [hfv]
  dsimp only
  by_cases hb : max vs.min (min vs.max value) ≠ vs.value
  · rw [if_pos hb, if_pos hb]
  · rw [if_neg hb, if_neg hb]

theorem modifyVariable_eq_clampedWrite (m : Manager) (entityId varId : String)
    (delta : Rat) (e : Entity) (vs : VarState)
    (hre : retrieve m entityId = some e) (hfv : findA e.vars varId = some vs) :
    modifyVariable m entityId varId delta
      = (clampedWrite m entityId varId e vs (vs.value + delta), true) := by
  unfold modifyVariable clampedWrite clampedEntity clampedVS
  rw [hre]
  dsimp only
  rw [hfv]
  dsimp only
  by_cases hb : max vs.min (min vs.max (vs.value + delta)) ≠ vs.value
  · rw [if_pos hb, if_pos hb]
  · rw [if_neg hb, if_neg hb]

/-- C4 amended: `setVariable` and `modifyVariable` clamp the written
value into `[min, max]` (given `min ≤ max` and id-keyed storage) and the
threshold/cascade pipeline they trigger never touches any variable's
`(value, min, max)`; but the invariant does not hold at every observable
point: `generate` copies a configured `initial` verbatim, so a cleanly
loaded config with `initial > max` yields an out-of-range value (see the
counterexample). -/
theorem c4_clamping_amended :
    (∀ (m : Manager) (entityId varId : String) (value : Rat) (e : Entity)
        (vs : VarState),
      wfStored m →
      retrieve m entityId = some e →
      findA e.vars varId = some vs →
      vs.min ≤ vs.max →
      (setVariable m entityId varId value).2 = true ∧
      ∃ e' vs', retrieve (setVariable m entityId varId value).1 entityId = some e' ∧
        findA e'.vars varId = some vs' ∧
        vs'.value = max vs.min (min vs.max value) ∧
        vs'.min = vs.min ∧ vs'.max = vs.max ∧
        vs.min ≤ vs'.value ∧ vs'.value ≤ vs.max) ∧
    (∀ (m : Manager) (entityId varId : String) (delta : Rat) (e : Entity)
        (vs : VarState),
      wfStored m →
      retrieve m entityId = some e →
      findA e.vars varId = some vs →
      vs.min ≤ vs.max →
      (modifyVariable m entityId varId delta).2 = true ∧
      ∃ e' vs', retrieve (modifyVariable m entityId varId delta).1 entityId = some e' ∧
        findA e'.vars varId = some vs' ∧
        vs'.value = max vs.min (min vs.max (vs.value + delta)) ∧
        vs'.min = vs.min ∧ vs'.max = vs.max ∧
        vs.min ≤ vs'.value ∧ vs'.value ≤ vs.max) := by
  have harith : ∀ (lo hi v : Rat), lo ≤ hi →
      lo ≤ max lo (min hi v) ∧ max lo (min hi v) ≤ hi :=
    fun lo hi v hlh => ⟨le_max_left _ _, max_le hlh (min_le_left _ _)⟩
  constructor
  · intro m entityId varId value e vs hw hre hfv hmm
    rw [setVariable_eq_clampedWrite m entityId varId value e vs hre hfv]
    refine ⟨rfl, ?_⟩
    rcases clampedWrite_spec m entityId varId e vs value hw hre
      with ⟨e₅, vs₅, he₅, hvs₅, hp₅⟩
    rw [vmmP, Prod.mk.injEq, Prod.mk.injEq] at hp₅
    exact ⟨e₅, vs₅, he₅, hvs₅, hp₅.1, hp₅.2.1, hp₅.2.2,
      hp₅.1 ▸ (harith vs.min vs.max value hmm).1,
      hp₅.1 ▸ (harith vs.min vs.max value hmm).2⟩
  · intro m entityId varId delta e vs hw hre hfv hmm
    rw [modifyVariable_eq_clampedWrite m entityId varId delta e vs hre hfv]
    refine ⟨rfl, ?_⟩
    rcases clampedWrite_spec m entityId varId e vs (vs.value + delta) hw hre
      with ⟨e₅, vs₅, he₅, hvs₅, hp₅⟩
    rw [vmmP, Prod.mk.injEq, Prod.mk.injEq] at hp₅
    exact ⟨e₅, vs₅, he₅, hvs₅, hp₅.1, hp₅.2.1, hp₅.2.2,
      hp₅.1 ▸ (harith vs.min vs.max (vs.value + delta) hmm).1,
      hp₅.1 ▸ (harith vs.min vs.max (vs.value + delta) hmm).2⟩


/-- The `hp` state of the C4 witness entity. -/
def vsC4w : VarState :=
  (findA eC3.vars "hp").getD
    { value := 0, baseRate := 0, currentRate := 0, min := 0, max := 0,
      changeMode := "", direction := "" }

theorem wfStored_mC3 : wfStored mC3 := by
  intro k e hk
  rw [show findA mC3.stored k = (if "e1" = k then some eC3 else none) from rfl] at hk
  split_ifs at hk with h
  injection hk with h2
  rw [← h2]
  exact h

/-- Witness for C4: an over-range set (150 on a 0..100 variable) and an
under-range modify (−200) on the `mC3` scenario. -/
theorem c4_clamping_amended_witness :
    wfStored mC3 ∧ retrieve mC3 "e1" = some eC3 ∧ findA eC3.vars "hp" = some vsC4w ∧
    vsC4w.min ≤ vsC4w.max ∧
    ((setVariable mC3 "e1" "hp" 150).2 = true ∧
      ∃ e' vs', retrieve (setVariable mC3 "e1" "hp" 150).1 "e1" = some e' ∧
        findA e'.vars "hp" = some vs' ∧
        vs'.value = max vsC4w.min (min vsC4w.max 150) ∧
        vs'.min = vsC4w.min ∧ vs'.max = vsC4w.max ∧
        vsC4w.min ≤ vs'.value ∧ vs'.value ≤ vsC4w.max) ∧
    ((modifyVariable mC3 "e1" "hp" (-200)).2 = true ∧
      ∃ e' vs', retrieve (modifyVariable mC3 "e1" "hp" (-200)).1 "e1" = some e' ∧
        findA e'.vars "hp" = some vs' ∧
        vs'.value = max vsC4w.min (min vsC4w.max (vsC4w.value + (-200))) ∧
        vs'.min = vsC4w.min ∧ vs'.max = vsC4w.max ∧
        vsC4w.min ≤ vs'.value ∧ vs'.value ≤ vsC4w.max) := by
  have hw : wfStored mC3 := wfStored_mC3
  have hre : retrieve mC3 "e1" = some eC3 := by decide
  have hfv : findA eC3.vars "hp" = some vsC4w := by decide
  have hmm : vsC4w.min ≤ vsC4w.max := by decide
  exact ⟨hw, hre, hfv, hmm,
    c4_clamping_amended.1 mC3 "e1" "hp" 150 eC3 vsC4w hw hre hfv hmm,
    c4_clamping_amended.2 mC3 "e1" "hp" (-200) eC3 vsC4w hw hre hfv hmm⟩

end SpawnLean
